import Mathlib

/-!
# Hardshell: the rule evaluation engine

A shallow embedding of the configuration parsers and the rule evaluation of
`internal/ssh/analyzer.go` and `internal/sysctl/analyzer.go`, of the services analyzer of
`internal/services/analyzer.go`, of the issue model and the structured report of
`internal/report` with its text report, its styled document and the choice of the format,
and of the fix script generator of `internal/fixer/generator.go`.

Modelling conventions.

* A Go `string` is modelled by the list of its code points (`GoString`).  The files read by
  the analyzers are taken to be valid UTF-8; on such strings the byte-wise order used by
  Go's `<=` is the code point order, and `strings.TrimSpace` removes the code points for
  which `unicode.IsSpace` holds.
* A Go `map[string]string` is modelled by its lookup function (`Config`); the analyzers never
  iterate over the map, they only index it.  Where the code does range over a map (the
  categories of the fix script and of the text report), the order of the visit is an
  explicit argument.
* The operating system is an explicit argument: what `os.Stat`, `os.Open`, `os.ReadDir`,
  `bufio.Scanner`, `exec.LookPath` and the executed commands report (`FileState`, `DirState`,
  `services.Host`), and the formatted `time.Now()`.  `FileState.ofContent` gives the state
  of a file from its content, through the line scanner with its 64 KiB token limit
  (`bufio.scanLines`), and `shell.echoAppend` the content of a file after the shell has run
  the `echo ... >>` command of a missing-key fix.
* `strings.ToLower` and `strings.ToUpper` are arguments of the functions that call them: their
  Unicode case tables are not reproduced, and the statements hold for any such function.
  `json.MarshalIndent` is an argument of `generateJSON` in the same way.
* `int` is 64 bits wide (`strconv.IntSize = 64`).
-/

namespace Hardshell

/-- A Go string, as the list of its code points. -/
abbrev GoString := List Char

/-- Go's `a <= b` on strings: the first position at which the two differ decides; when
one is an initial segment of the other, the shorter one is the smaller. -/
def stringLE : GoString → GoString → Bool
  | [], _ => true
  | _ :: _, [] => false
  | a :: as, b :: bs =>
    if a.toNat < b.toNat then true
    else if b.toNat < a.toNat then false
    else stringLE as bs

namespace unicode

/-- Go's `unicode.IsSpace`: the Latin-1 spaces `\t \n \v \f \r`, space, U+0085, U+00A0, and
the code points with the Unicode White_Space property above Latin-1. -/
def IsSpace (r : Char) : Bool :=
  let n := r.toNat
  n == 0x09 || n == 0x0A || n == 0x0B || n == 0x0C || n == 0x0D || n == 0x20 ||
  n == 0x85 || n == 0xA0 || n == 0x1680 || (0x2000 ≤ n && n ≤ 0x200A) ||
  n == 0x2028 || n == 0x2029 || n == 0x202F || n == 0x205F || n == 0x3000

end unicode

namespace strings

/-- Go's `strings.TrimLeftFunc(s, unicode.IsSpace)`. -/
def TrimLeftSpace (s : GoString) : GoString :=
  s.dropWhile unicode.IsSpace

/-- Go's `strings.TrimRightFunc(s, unicode.IsSpace)`. -/
def TrimRightSpace (s : GoString) : GoString :=
  (s.reverse.dropWhile unicode.IsSpace).reverse

/-- Go's `strings.TrimSpace`: leading and trailing white space removed. -/
def TrimSpace (s : GoString) : GoString :=
  TrimRightSpace (TrimLeftSpace s)

/-- Go's `strings.HasPrefix`. -/
def HasPrefix (s pre : GoString) : Bool :=
  pre.isPrefixOf s

/-- Go's `strings.HasSuffix`. -/
def HasSuffix (s suf : GoString) : Bool :=
  suf.isSuffixOf s

/-- The first occurrence of `sep` in `s` (Go's `strings.Index`), as the text before it and
the text after it; `none` when `sep` does not occur. -/
def cutFirst (sep : GoString) : GoString → Option (GoString × GoString)
  | [] => if sep.isPrefixOf [] then some ([], []) else none
  | c :: cs =>
    if sep.isPrefixOf (c :: cs) then some ([], (c :: cs).drop sep.length)
    else
      match cutFirst sep cs with
      | none => none
      | some (before, after) => some (c :: before, after)

/-- Go's `strings.SplitN(s, sep, n)` for a non-empty separator and `n ≥ 0`: at most `n`
pieces, the last one being the unsplit remainder. -/
def SplitN (s sep : GoString) : Nat → List GoString
  | 0 => []
  | 1 => [s]
  | n + 2 =>
    match cutFirst sep s with
    | none => [s]
    | some (before, after) => before :: SplitN after sep (n + 1)

end strings

/-- A Go `map[string]string`, as its lookup function: `none` for an absent key. -/
abbrev Config := GoString → Option GoString

/-- Go's `make(map[string]string)`. -/
def Config.empty : Config := fun _ => none

/-- Go's `config[key] = value`. -/
def Config.set (config : Config) (key value : GoString) : Config :=
  fun k => if k = key then some value else config k

namespace report

/-- Go's `type Severity string`. -/
abbrev Severity := GoString

def SeverityCritical : Severity := "CRITICAL".toList

def SeverityWarning : Severity := "WARNING".toList

def SeverityInfo : Severity := "INFO".toList

/-- The issue record of `internal/report/issue.go`; an empty string is an unset field. -/
structure Issue where
  Category : GoString
  Severity : Severity
  Description : GoString
  CurrentValue : GoString
  RecommendedValue : GoString
  FixCommand : GoString
  deriving DecidableEq

end report

/-- What the analyzer finds at the path of a configuration file. -/
inductive FileState where
  /-- The result of `os.Stat` satisfies `os.IsNotExist`. -/
  | notExist
  /-- The file exists and `os.Open` fails. -/
  | openFails
  /-- The file opens; the scanner yields `tokens`, then stops with `scanner.Err()` being
  non-nil exactly when `scanFails`. -/
  | readable (tokens : List GoString) (scanFails : Bool)

/-- The errors `Analyze` returns, one per `fmt.Errorf` site. -/
inductive AnalyzeError where
  | configNotFound
  | configOpen
  | configRead
  | dirRead
  | dropInOpen
  | dropInRead
  deriving DecidableEq

/-- One entry of the list `os.ReadDir` returns, with what opening and scanning it gives. -/
structure DirEntry where
  Name : GoString
  IsDir : Bool
  file : FileState

/-- What the analyzer finds at the path of the drop-in directory. -/
inductive DirState where
  /-- The result of `os.Stat` satisfies `os.IsNotExist`. -/
  | notExist
  /-- The directory exists and `os.ReadDir` fails. -/
  | readFails
  /-- The entries `os.ReadDir` returns, in the order it returns them. -/
  | entries (files : List DirEntry)

namespace strconv

/-- The two error kinds of Go's `strconv.NumError`. -/
inductive NumError where
  | ErrSyntax
  | ErrRange
  deriving DecidableEq

/-- A decimal digit, `'0'` to `'9'`. -/
def IsDigit (c : Char) : Prop := 48 ≤ c.toNat ∧ c.toNat ≤ 57

instance IsDigit.decidable (c : Char) : Decidable (IsDigit c) := by
  unfold IsDigit; infer_instance

/-- The number a string of decimal digits denotes. -/
def decimalValue (digits : GoString) : Nat :=
  digits.foldl (fun acc c => acc * 10 + (c.toNat - 48)) 0

/-- The digit loop of Go's `strconv.ParseUint(s, 10, 64)`, with `n` the value accumulated
so far: a byte that is not a decimal digit is a syntax error, a value that does not fit 64
bits is a range error. -/
def parseUintLoop : GoString → Nat → Except NumError Nat
  | [], n => .ok n
  | c :: cs, n =>
    if 48 ≤ c.toNat ∧ c.toNat ≤ 57 then
      let d := c.toNat - 48
      if n ≥ (2 ^ 64 - 1) / 10 + 1 then .error .ErrRange
      else
        let n10 := n * 10
        let n1 := (n10 + d) % 2 ^ 64
        if n1 < n10 ∨ n1 > 2 ^ 64 - 1 then .error .ErrRange
        else parseUintLoop cs n1
    else .error .ErrSyntax

/-- Go's `strconv.ParseUint(s, 10, 64)`. -/
def ParseUint (s : GoString) : Except NumError Nat :=
  if s = [] then .error .ErrSyntax else parseUintLoop s 0

/-- Go's `strconv.ParseInt(s, 10, 0)` with a 64-bit `int`: an optional sign, then
`ParseUint`, then the range check against `1 << 63`. -/
def ParseInt (s : GoString) : Except NumError Int :=
  if s = [] then .error .ErrSyntax
  else
    let neg := s.head? = some '-'
    let s1 := if s.head? = some '+' ∨ s.head? = some '-' then s.tail else s
    match ParseUint s1 with
    | .error .ErrSyntax => .error .ErrSyntax
    | .error .ErrRange => .error .ErrRange
    | .ok un =>
      if ¬ neg ∧ un ≥ 2 ^ 63 then .error .ErrRange
      else if neg ∧ un > 2 ^ 63 then .error .ErrRange
      else .ok (if neg then - (un : Int) else (un : Int))

/-- The digit loop of the fast path of Go's `strconv.Atoi`. -/
def atoiFastLoop : GoString → Int → Except NumError Int
  | [], n => .ok n
  | ch :: cs, n =>
    if 48 ≤ ch.toNat ∧ ch.toNat ≤ 57 then atoiFastLoop cs (n * 10 + ((ch.toNat - 48 : Nat) : Int))
    else .error .ErrSyntax

/-- Go's `strconv.Atoi` with a 64-bit `int`: the fast path for strings of fewer than 19
bytes, `ParseInt(s, 10, 0)` otherwise. -/
def Atoi (s : GoString) : Except NumError Int :=
  if 0 < s.length ∧ s.length < 19 then
    let s1 := if s.head? = some '-' ∨ s.head? = some '+' then s.tail else s
    if (s.head? = some '-' ∨ s.head? = some '+') ∧ s1.length < 1 then .error .ErrSyntax
    else
      match atoiFastLoop s1 0 with
      | .error e => .error e
      | .ok n => .ok (if s.head? = some '-' then - n else n)
  else ParseInt s

end strconv

namespace ssh

/-- The rule record `SSHRule`. -/
structure SSHRule where
  Key : GoString
  RecommendedValue : GoString
  Severity : report.Severity
  Description : GoString
  ComparisonFunc : GoString → GoString → Bool

/-- The rule table `getDefaultRules` of the SSH analyzer. -/
def getDefaultRules : List SSHRule :=
  [ { Key := "PermitRootLogin".toList
      RecommendedValue := "no".toList
      Severity := report.SeverityCritical
      Description := "Login direto como root deve ser desabilitado".toList
      ComparisonFunc := fun actual recommended => actual == recommended },
    { Key := "Protocol".toList
      RecommendedValue := "2".toList
      Severity := report.SeverityCritical
      Description := "Apenas o protocolo SSH 2 deve ser permitido (SSH 1 é inseguro)".toList
      ComparisonFunc := fun actual recommended => actual == recommended },
    { Key := "PasswordAuthentication".toList
      RecommendedValue := "no".toList
      Severity := report.SeverityWarning
      Description := "Autenticação por senha deve ser desabilitada, prefira chaves SSH".toList
      ComparisonFunc := fun actual recommended => actual == recommended },
    { Key := "PermitEmptyPasswords".toList
      RecommendedValue := "no".toList
      Severity := report.SeverityCritical
      Description := "Senhas vazias não devem ser permitidas".toList
      ComparisonFunc := fun actual recommended => actual == recommended },
    { Key := "X11Forwarding".toList
      RecommendedValue := "no".toList
      Severity := report.SeverityWarning
      Description := "Encaminhamento X11 deve ser desabilitado se não for necessário".toList
      ComparisonFunc := fun actual recommended => actual == recommended },
    { Key := "MaxAuthTries".toList
      RecommendedValue := "4".toList
      Severity := report.SeverityWarning
      Description := "Número máximo de tentativas de autenticação deve ser limitado".toList
      ComparisonFunc := fun actual recommended => stringLE actual recommended },
    { Key := "ClientAliveInterval".toList
      RecommendedValue := "300".toList
      Severity := report.SeverityInfo
      Description :=
        "Definir um intervalo de keepalive para detectar clientes desconectados".toList
      ComparisonFunc := fun actual _recommended => actual != [] },
    { Key := "ClientAliveCountMax".toList
      RecommendedValue := "3".toList
      Severity := report.SeverityInfo
      Description :=
        "Limitar o número de mensagens keepalive sem resposta antes de desconectar".toList
      ComparisonFunc := fun actual recommended => stringLE actual recommended },
    { Key := "LogLevel".toList
      RecommendedValue := "VERBOSE".toList
      Severity := report.SeverityWarning
      Description := "Nível de log deve ser detalhado para auditoria adequada".toList
      ComparisonFunc := fun actual _recommended =>
        actual == "VERBOSE".toList || actual == "INFO".toList },
    { Key := "UsePAM".toList
      RecommendedValue := "yes".toList
      Severity := report.SeverityWarning
      Description := "PAM deve ser habilitado para controle de acesso avançado".toList
      ComparisonFunc := fun actual recommended => actual == recommended } ]

/-- The body of the scanning loop of `Analyze`: one line of `sshd_config` applied to the
mapping built so far. -/
def parseLine (config : Config) (text : GoString) : Config :=
  let line := strings.TrimSpace text
  if strings.HasPrefix line "#".toList || line == [] then config
  else
    let parts := strings.SplitN line " ".toList 2
    if parts.length ≠ 2 then config
    else
      let key := strings.TrimSpace (parts.getD 0 [])
      let value := strings.TrimSpace (parts.getD 1 [])
      config.set key value

/-- The scanning loop of `Analyze`, over the lines the scanner yields. -/
def parseConfig (lines : List GoString) : Config :=
  lines.foldl parseLine Config.empty

/-- The body of the rule loop of `Analyze`: the issue list after `rule` has been checked
against `config`. -/
def checkRule (config : Config) (issues : List report.Issue) (rule : SSHRule) :
    List report.Issue :=
  match config rule.Key with
  | none =>
    issues ++ [{ Category := "ssh".toList
                 Severity := rule.Severity
                 Description := rule.Description
                 CurrentValue := []
                 RecommendedValue := rule.RecommendedValue
                 FixCommand := "echo '".toList ++ rule.Key ++ " ".toList ++
                   rule.RecommendedValue ++ "' >> /etc/ssh/sshd_config".toList }]
  | some value =>
    if !rule.ComparisonFunc value rule.RecommendedValue then
      issues ++ [{ Category := "ssh".toList
                   Severity := rule.Severity
                   Description := rule.Description
                   CurrentValue := value
                   RecommendedValue := rule.RecommendedValue
                   FixCommand := "sed -i 's/^".toList ++ rule.Key ++ ".*/".toList ++
                     rule.Key ++ " ".toList ++ rule.RecommendedValue ++
                     "/' /etc/ssh/sshd_config".toList }]
    else issues

/-- The rule loop of `Analyze`. -/
def checkRules (rules : List SSHRule) (config : Config) : List report.Issue :=
  rules.foldl (checkRule config) []

/-- The SSH analyzer. -/
structure Analyzer where
  mountPoint : GoString
  configPath : GoString
  rules : List SSHRule

/-- The method `Analyze` of the SSH analyzer, given the state of the file at
`a.configPath`. -/
def Analyzer.Analyze (a : Analyzer) (configFile : FileState) :
    Except AnalyzeError (List report.Issue) :=
  match configFile with
  | .notExist => .error .configNotFound
  | .openFails => .error .configOpen
  | .readable tokens scanFails =>
    let config := parseConfig tokens
    if scanFails then .error .configRead
    else .ok (checkRules a.rules config)

end ssh

namespace sysctl

/-- The rule record `SysctlRule`. -/
structure SysctlRule where
  Key : GoString
  RecommendedValue : GoString
  Severity : report.Severity
  Description : GoString
  ComparisonFunc : GoString → GoString → Bool

/-- The rule table `getDefaultRules` of the sysctl analyzer. -/
def getDefaultRules : List SysctlRule :=
  [ { Key := "net.ipv4.tcp_syncookies".toList
      RecommendedValue := "1".toList
      Severity := report.SeverityCritical
      Description := "SYN flood protection deve estar habilitada".toList
      ComparisonFunc := fun actual recommended => actual == recommended },
    { Key := "net.ipv4.conf.all.accept_redirects".toList
      RecommendedValue := "0".toList
      Severity := report.SeverityWarning
      Description := "ICMP redirects não devem ser aceitos".toList
      ComparisonFunc := fun actual recommended => actual == recommended },
    { Key := "net.ipv4.conf.all.send_redirects".toList
      RecommendedValue := "0".toList
      Severity := report.SeverityWarning
      Description := "ICMP redirects não devem ser enviados".toList
      ComparisonFunc := fun actual recommended => actual == recommended },
    { Key := "net.ipv4.conf.all.accept_source_route".toList
      RecommendedValue := "0".toList
      Severity := report.SeverityCritical
      Description := "Source routing deve estar desabilitado".toList
      ComparisonFunc := fun actual recommended => actual == recommended },
    { Key := "net.ipv4.conf.all.log_martians".toList
      RecommendedValue := "1".toList
      Severity := report.SeverityWarning
      Description := "Pacotes com endereços impossíveis devem ser registrados".toList
      ComparisonFunc := fun actual recommended => actual == recommended },
    { Key := "net.ipv4.icmp_echo_ignore_broadcasts".toList
      RecommendedValue := "1".toList
      Severity := report.SeverityWarning
      Description := "ICMP broadcasts devem ser ignorados".toList
      ComparisonFunc := fun actual recommended => actual == recommended },
    { Key := "net.ipv4.icmp_ignore_bogus_error_responses".toList
      RecommendedValue := "1".toList
      Severity := report.SeverityWarning
      Description := "Mensagens de erro ICMP malformadas devem ser ignoradas".toList
      ComparisonFunc := fun actual recommended => actual == recommended },
    { Key := "net.ipv4.tcp_rfc1337".toList
      RecommendedValue := "1".toList
      Severity := report.SeverityWarning
      Description := "Proteção contra TIME-WAIT assassination deve estar habilitada".toList
      ComparisonFunc := fun actual recommended => actual == recommended },
    { Key := "kernel.randomize_va_space".toList
      RecommendedValue := "2".toList
      Severity := report.SeverityCritical
      Description := "ASLR deve estar totalmente habilitado".toList
      ComparisonFunc := fun actual recommended => actual == recommended },
    { Key := "fs.protected_hardlinks".toList
      RecommendedValue := "1".toList
      Severity := report.SeverityCritical
      Description := "Hard links devem ser protegidos".toList
      ComparisonFunc := fun actual recommended => actual == recommended },
    { Key := "fs.protected_symlinks".toList
      RecommendedValue := "1".toList
      Severity := report.SeverityCritical
      Description := "Symbolic links devem ser protegidos".toList
      ComparisonFunc := fun actual recommended => actual == recommended },
    { Key := "kernel.kptr_restrict".toList
      RecommendedValue := "1".toList
      Severity := report.SeverityWarning
      Description :=
        "Restrição de exibição de ponteiros do kernel deve estar habilitada".toList
      ComparisonFunc := fun actual _recommended =>
        match strconv.Atoi actual with
        | .error _ => false
        | .ok actualInt => decide (actualInt ≥ 1) },
    { Key := "kernel.dmesg_restrict".toList
      RecommendedValue := "1".toList
      Severity := report.SeverityWarning
      Description := "Acesso ao dmesg deve ser restrito".toList
      ComparisonFunc := fun actual recommended => actual == recommended },
    { Key := "kernel.sysrq".toList
      RecommendedValue := "0".toList
      Severity := report.SeverityWarning
      Description := "SysRq deve estar desabilitado em ambientes de produção".toList
      ComparisonFunc := fun actual recommended => actual == recommended },
    { Key := "kernel.core_uses_pid".toList
      RecommendedValue := "1".toList
      Severity := report.SeverityInfo
      Description := "Core dumps devem incluir o PID no nome do arquivo".toList
      ComparisonFunc := fun actual recommended => actual == recommended } ]

/-- The body of the scanning loop of `Analyze`: one line of the primary file applied to
the mapping built so far. -/
def parseLine (config : Config) (text : GoString) : Config :=
  let line := strings.TrimSpace text
  if strings.HasPrefix line "#".toList || line == [] then config
  else
    let parts := strings.SplitN line "=".toList 2
    if parts.length ≠ 2 then config
    else
      let key := strings.TrimSpace (parts.getD 0 [])
      let value := strings.TrimSpace (parts.getD 1 [])
      config.set key value

/-- The scanning loop of `Analyze`, over the lines of the primary file. -/
def parseConfig (lines : List GoString) : Config :=
  lines.foldl parseLine Config.empty

/-- The body of the scanning loop of `readSysctlDFromPath`: one line of a drop-in file
applied to the mapping built so far; a key is written only when the mapping lacks it. -/
def parseDropInLine (config : Config) (text : GoString) : Config :=
  let line := strings.TrimSpace text
  if strings.HasPrefix line "#".toList || line == [] then config
  else
    let parts := strings.SplitN line "=".toList 2
    if parts.length ≠ 2 then config
    else
      let key := strings.TrimSpace (parts.getD 0 [])
      let value := strings.TrimSpace (parts.getD 1 [])
      match config key with
      | none => config.set key value
      | some _ => config

/-- The loop of `readSysctlDFromPath` over the directory entries: every entry that is not
a directory and whose name ends in `.conf` is opened and scanned into the mapping. -/
def readDropIns : List DirEntry → Config → Except AnalyzeError Config
  | [], config => .ok config
  | file :: files, config =>
    if !file.IsDir && strings.HasSuffix file.Name ".conf".toList then
      match file.file with
      | .notExist => .error .dropInOpen
      | .openFails => .error .dropInOpen
      | .readable tokens scanFails =>
        let config1 := tokens.foldl parseDropInLine config
        if scanFails then .error .dropInRead
        else readDropIns files config1
    else readDropIns files config

/-- The method `readSysctlDFromPath`, given the state of the directory at `dirPath`. -/
def readSysctlDFromPath (dir : DirState) (config : Config) : Except AnalyzeError Config :=
  match dir with
  | .notExist => .ok config
  | .readFails => .error .dirRead
  | .entries files => readDropIns files config

/-- The method `readSysctlD`: `readSysctlDFromPath` at `/etc/sysctl.d`. -/
def readSysctlD (dir : DirState) (config : Config) : Except AnalyzeError Config :=
  readSysctlDFromPath dir config

/-- The body of the rule loop of `Analyze`: the issue list after `rule` has been checked
against `config`. -/
def checkRule (config : Config) (issues : List report.Issue) (rule : SysctlRule) :
    List report.Issue :=
  match config rule.Key with
  | none =>
    issues ++ [{ Category := "sysctl".toList
                 Severity := rule.Severity
                 Description := rule.Description
                 CurrentValue := []
                 RecommendedValue := rule.RecommendedValue
                 FixCommand := "echo '".toList ++ rule.Key ++ " = ".toList ++
                   rule.RecommendedValue ++ "' >> /etc/sysctl.conf && sysctl -p".toList }]
  | some value =>
    if !rule.ComparisonFunc value rule.RecommendedValue then
      issues ++ [{ Category := "sysctl".toList
                   Severity := rule.Severity
                   Description := rule.Description
                   CurrentValue := value
                   RecommendedValue := rule.RecommendedValue
                   FixCommand := "sed -i 's/^".toList ++ rule.Key ++ ".*/".toList ++
                     rule.Key ++ " = ".toList ++ rule.RecommendedValue ++
                     "/' /etc/sysctl.conf && sysctl -p".toList }]
    else issues

/-- The rule loop of `Analyze`. -/
def checkRules (rules : List SysctlRule) (config : Config) : List report.Issue :=
  rules.foldl (checkRule config) []

/-- The sysctl analyzer. -/
structure Analyzer where
  mountPoint : GoString
  configPath : GoString
  rules : List SysctlRule

/-- The method `Analyze` of the sysctl analyzer, given the state of the file at
`a.configPath` and of the drop-in directory it consults (`/etc/sysctl.d`, under the mount
point when one is set). -/
def Analyzer.Analyze (a : Analyzer) (configFile : FileState) (sysctlD : DirState) :
    Except AnalyzeError (List report.Issue) :=
  match configFile with
  | .notExist => .error .configNotFound
  | .openFails => .error .configOpen
  | .readable tokens scanFails =>
    let config := parseConfig tokens
    if scanFails then .error .configRead
    else
      let merged :=
        if a.mountPoint = [] then readSysctlD sysctlD config
        else readSysctlDFromPath sysctlD config
      match merged with
      | .error e => .error e
      | .ok config1 => .ok (checkRules a.rules config1)

end sysctl

namespace strings

/-- Go's `strings.Contains`: `substr` occurs in `s`. -/
def Contains (s substr : GoString) : Bool :=
  (cutFirst substr s).isSome

/-- Go's `strings.TrimSuffix`. -/
def TrimSuffix (s suffix : GoString) : GoString :=
  if HasSuffix s suffix then s.take (s.length - suffix.length) else s

/-- The scan of Go's `strings.Replace(s, old, new, -1)` for a non-empty `old`: `skip` counts
the code points of the current match of `old` still to be passed over. -/
def replaceFrom (old new : GoString) : GoString → Nat → GoString
  | [], _ => []
  | _ :: cs, skip + 1 => replaceFrom old new cs skip
  | c :: cs, 0 =>
    if old.isPrefixOf (c :: cs) then new ++ replaceFrom old new cs (old.length - 1)
    else c :: replaceFrom old new cs 0

/-- Go's `strings.Replace(s, old, new, -1)` for a non-empty `old`: every non-overlapping
occurrence of `old`, found from left to right, is replaced by `new`. -/
def ReplaceAll (s old new : GoString) : GoString :=
  replaceFrom old new s 0

/-- Go's `strings.Split(s, sep)` for a non-empty separator: `SplitN` with no limit other
than the one `genSplit` applies, `len(s) + 1` pieces. -/
def Split (s sep : GoString) : List GoString :=
  SplitN s sep (s.length + 1)

/-- The scan of Go's `strings.Fields`, with `cur` the field being read. -/
def fieldsFrom : GoString → GoString → List GoString
  | [], cur => if cur = [] then [] else [cur]
  | c :: cs, cur =>
    if unicode.IsSpace c then
      if cur = [] then fieldsFrom cs [] else cur :: fieldsFrom cs []
    else fieldsFrom cs (cur ++ [c])

/-- Go's `strings.Fields`: the maximal runs of code points that are not white space. -/
def Fields (s : GoString) : List GoString :=
  fieldsFrom s []

/-- Go's `strings.Join(elems, sep)`. -/
def Join (elems : List GoString) (sep : GoString) : GoString :=
  sep.intercalate elems

end strings

namespace filepath

/-- The pass of Go's `filepath.Clean` over the path elements, with `out` the elements kept
so far, last one first: empty elements and `.` are dropped, `..` removes the element before
it when there is one to remove, is dropped at the root and kept otherwise. -/
def cleanElems (rooted : Bool) : List GoString → List GoString → List GoString
  | [], out => out.reverse
  | e :: es, out =>
    if e = [] ∨ e = ".".toList then cleanElems rooted es out
    else if e = "..".toList then
      match out with
      | [] => if rooted then cleanElems rooted es [] else cleanElems rooted es ["..".toList]
      | o :: os =>
        if o = "..".toList then cleanElems rooted es ("..".toList :: o :: os)
        else cleanElems rooted es os
    else cleanElems rooted es (e :: out)

/-- Go's `filepath.Clean` on Unix: the shortest path name equivalent to `path` by purely
lexical processing. -/
def Clean (path : GoString) : GoString :=
  if path = [] then ".".toList
  else
    let rooted := path.head? = some '/'
    let out := strings.Join (cleanElems rooted (strings.Split path "/".toList) []) "/".toList
    if rooted then '/' :: out
    else if out = [] then ".".toList else out

/-- Go's `filepath.Join` of two elements: empty elements are ignored, the rest is joined
with `/` and cleaned; the result is empty when both are. -/
def Join (a b : GoString) : GoString :=
  if a ≠ [] then Clean (a ++ "/".toList ++ b)
  else if b ≠ [] then Clean b
  else []

end filepath

namespace ssh

/-- The constructor `NewAnalyzer` of the SSH analyzer. -/
def NewAnalyzer (mountPoint : GoString) : Analyzer :=
  { mountPoint := mountPoint
    configPath :=
      if mountPoint ≠ [] then filepath.Join mountPoint "/etc/ssh/sshd_config".toList
      else "/etc/ssh/sshd_config".toList
    rules := getDefaultRules }

end ssh

namespace sysctl

/-- The constructor `NewAnalyzer` of the sysctl analyzer. -/
def NewAnalyzer (mountPoint : GoString) : Analyzer :=
  { mountPoint := mountPoint
    configPath :=
      if mountPoint ≠ [] then filepath.Join mountPoint "/etc/sysctl.conf".toList
      else "/etc/sysctl.conf".toList
    rules := getDefaultRules }

/-- The command `Fix` applies for an issue: under a mount point the path of the primary
file is redirected to `a.configPath` and the reload `&& sysctl -p` is removed. -/
def Analyzer.fixCommand (a : Analyzer) (issue : report.Issue) : GoString :=
  let cmd := issue.FixCommand
  if a.mountPoint ≠ [] then
    let cmd1 := strings.ReplaceAll cmd "/etc/sysctl.conf".toList a.configPath
    strings.ReplaceAll cmd1 "&& sysctl -p".toList []
  else cmd

end sysctl

namespace report

/-- The summary of the structured report: the counters of `generateJSON`. -/
structure Summary where
  Critical : Nat
  Warning : Nat
  Info : Nat
  Total : Nat
  deriving DecidableEq

/-- The value `generateJSON` builds and hands to `json.MarshalIndent`. -/
structure Report where
  Issues : List Issue
  Summary : Summary
  deriving DecidableEq

/-- The body of the counting loop of `generateJSON`: the `switch` on the severity of one
issue. -/
def countSeverity (summary : Summary) (issue : Issue) : Summary :=
  if issue.Severity = SeverityCritical then { summary with Critical := summary.Critical + 1 }
  else if issue.Severity = SeverityWarning then { summary with Warning := summary.Warning + 1 }
  else if issue.Severity = SeverityInfo then { summary with Info := summary.Info + 1 }
  else summary

/-- Whether the severity of an issue is none of the three named ones, the case the `switch`
of `generateJSON` does not count. -/
def otherSeverity (issue : Issue) : Bool :=
  issue.Severity != SeverityCritical && issue.Severity != SeverityWarning &&
    issue.Severity != SeverityInfo

/-- The report value of `generateJSON`, before its serialisation: the counting loop, then
`Total = len(issues)`. -/
def jsonReport (issues : List Issue) : Report :=
  let summary := issues.foldl countSeverity ⟨0, 0, 0, 0⟩
  { Issues := issues
    Summary := { summary with Total := issues.length } }

end report

namespace fixer

/-- The fix script generator. -/
structure Generator where
  mountPoint : GoString

/-- The constructor `NewGenerator`. -/
def NewGenerator (mountPoint : GoString) : Generator :=
  { mountPoint := mountPoint }

/-- The method `adaptCommandForMountPoint`: five textual replacements, one after the
other. -/
def Generator.adaptCommandForMountPoint (g : Generator) (command : GoString) : GoString :=
  let command1 := strings.ReplaceAll command "/etc/ssh/sshd_config".toList
    (filepath.Join g.mountPoint "etc/ssh/sshd_config".toList)
  let command2 := strings.ReplaceAll command1 "/etc/sysctl.conf".toList
    (filepath.Join g.mountPoint "etc/sysctl.conf".toList)
  let command3 := strings.ReplaceAll command2 "systemctl ".toList "# systemctl ".toList
  let command4 := strings.ReplaceAll command3 "service ".toList "# service ".toList
  strings.ReplaceAll command4 "sysctl -p".toList "# sysctl -p".toList

/-- The support functions of the script: the raw string literal of `GenerateScript`. -/
def supportFunctions : GoString :=
  "\n".toList ++
  "# Função para exibir mensagens coloridas\n".toList ++
  "function log() \x7b\n".toList ++
  "    local level=$1\n".toList ++
  "    local msg=$2\n".toList ++
  "\n".toList ++
  "    case $level in\n".toList ++
  "        \"INFO\")\n".toList ++
  "            echo -e \"\\033[0;34m[INFO]\\033[0m $msg\"\n".toList ++
  "            ;;\n".toList ++
  "        \"WARNING\")\n".toList ++
  "            echo -e \"\\033[0;33m[WARNING]\\033[0m $msg\"\n".toList ++
  "            ;;\n".toList ++
  "        \"ERROR\")\n".toList ++
  "            echo -e \"\\033[0;31m[ERROR]\\033[0m $msg\"\n".toList ++
  "            ;;\n".toList ++
  "        \"SUCCESS\")\n".toList ++
  "            echo -e \"\\033[0;32m[SUCCESS]\\033[0m $msg\"\n".toList ++
  "            ;;\n".toList ++
  "        *)\n".toList ++
  "            echo -e \"$msg\"\n".toList ++
  "            ;;\n".toList ++
  "    esac\n".toList ++
  "\x7d\n".toList ++
  "\n".toList ++
  "# Função para criar backup de um arquivo\n".toList ++
  "function backup_file() \x7b\n".toList ++
  "    local file=$1\n".toList ++
  "    local backup=\"$\x7bfile\x7d.bak.$(date +%Y%m%d%H%M%S)\"\n".toList ++
  "\n".toList ++
  "    if [ -f \"$file\" ]; then\n".toList ++
  "        cp \"$file\" \"$backup\"\n".toList ++
  "        if [ $? -eq 0 ]; then\n".toList ++
  "            log \"INFO\" \"Backup criado: $backup\"\n".toList ++
  "            return 0\n".toList ++
  "        else\n".toList ++
  "            log \"ERROR\" \"Falha ao criar backup de $file\"\n".toList ++
  "            return 1\n".toList ++
  "        fi\n".toList ++
  "    else\n".toList ++
  "        log \"WARNING\" \"Arquivo não encontrado: $file\"\n".toList ++
  "        return 1\n".toList ++
  "    fi\n".toList ++
  "\x7d\n".toList ++
  "\n".toList ++
  "# Verifica se o script está sendo executado como root\n".toList ++
  "if [ \"$EUID\" -ne 0 ]; then\n".toList ++
  "    log \"ERROR\" \"Este script precisa ser executado como root.\"\n".toList ++
  "    exit 1\n".toList ++
  "fi\n".toList ++
  "\n".toList ++
  "log \"INFO\" \"Iniciando aplicação de correções de segurança...\"\n".toList ++
  "\n".toList

/-- The head of the script: shebang, banner, date line and support functions; `now` is
the formatted result of `time.Now()`. -/
def scriptHead (now : GoString) : GoString :=
  "#!/bin/bash\n\n".toList ++ "# Script de correção gerado pelo Hardshell\n".toList ++
    ("# Data: ".toList ++ now ++ "\n\n".toList) ++ supportFunctions

/-- The foot of the script. -/
def scriptFoot : GoString :=
  "\nlog \"INFO\" \"Todas as correções foram aplicadas.\"\n".toList ++
    ("log \"WARNING\" \"Reinicie os serviços ou o sistema para aplicar todas as " ++
      "alterações.\"\n").toList

/-- The two lines that open the section of a category; `toUpper` is Go's
`strings.ToUpper`, whose case table is not reproduced here. -/
def sectionHead (toUpper : GoString → GoString) (category : GoString) : GoString :=
  ("\n# Correções para ".toList ++ toUpper category ++ "\n".toList) ++
    ("log \"INFO\" \"Aplicando correções para ".toList ++ toUpper category ++
      "...\"\n\n".toList)

/-- The `switch category` of `GenerateScript`: the backup of the configuration file of the
categories `ssh` and `sysctl`, nothing for any other category. -/
def backupLines (category : GoString) : GoString :=
  if category = "ssh".toList then
    "# Backup do arquivo de configuração SSH\n".toList ++
      "backup_file /etc/ssh/sshd_config\n\n".toList
  else if category = "sysctl".toList then
    "# Backup do arquivo de configuração sysctl\n".toList ++
      "backup_file /etc/sysctl.conf\n\n".toList
  else []

/-- The text the inner loop of `GenerateScript` writes for one issue: the description
comment, the log line, the command, and the check of its exit status. -/
def Generator.remediationBlock (g : Generator) (issue : report.Issue) : GoString :=
  let command :=
    if g.mountPoint ≠ [] then g.adaptCommandForMountPoint issue.FixCommand
    else issue.FixCommand
  ("# ".toList ++ issue.Description ++ " (".toList ++ issue.Severity ++ ")\n".toList) ++
    ("log \"INFO\" \"Corrigindo: ".toList ++ issue.Description ++ "\"\n".toList) ++
    (command ++ "\n".toList) ++
    "if [ $? -eq 0 ]; then\n".toList ++
    ("    log \"SUCCESS\" \"Correção aplicada com sucesso: ".toList ++ issue.Description ++
      "\"\n".toList) ++
    "else\n".toList ++
    ("    log \"ERROR\" \"Falha ao aplicar correção: ".toList ++ issue.Description ++
      "\"\n".toList) ++
    "fi\n\n".toList

/-- The grouping loop of `GenerateScript`: the map from a category to its issues, in
the order of the collection; a category that does not occur is mapped to the empty list. -/
def groupByCategory (issues : List report.Issue) : GoString → List report.Issue :=
  issues.foldl
    (fun categories issue =>
      fun category =>
        if category = issue.Category then categories category ++ [issue]
        else categories category)
    (fun _ => [])

/-- The text `GenerateScript` builds for a non-empty collection.  `order` is the order in
which the `range` over the map of categories visits its keys, which Go leaves
unspecified. -/
def Generator.scriptContent (g : Generator) (issues : List report.Issue) (now : GoString)
    (toUpper : GoString → GoString) (order : List GoString) : GoString :=
  let categories := groupByCategory issues
  let body := order.foldl
    (fun sb category =>
      let sb1 := sb ++ sectionHead toUpper category
      let sb2 := sb1 ++ backupLines category
      (categories category).foldl (fun sb3 issue => sb3 ++ g.remediationBlock issue) sb2)
    (scriptHead now)
  body ++ scriptFoot

/-- The errors of `GenerateScript`. -/
inductive GenerateError where
  | noIssues
  | writeFile
  deriving DecidableEq

/-- The method `GenerateScript`: the content written to `outputPath`, or an error;
`writeFails` tells whether `os.WriteFile` fails. -/
def Generator.GenerateScript (g : Generator) (issues : List report.Issue) (now : GoString)
    (toUpper : GoString → GoString) (order : List GoString) (writeFails : Bool) :
    Except GenerateError GoString :=
  if issues.length = 0 then .error .noIssues
  else
    let content := g.scriptContent issues now toUpper order
    if writeFails then .error .writeFile
    else .ok content

end fixer

namespace services

/-- The rule record `ServiceRule`. -/
structure ServiceRule where
  Name : GoString
  Description : GoString
  Severity : report.Severity
  CheckFunc : GoString → Bool

/-- The rule table `getDefaultRules` of the services analyzer. -/
def getDefaultRules : List ServiceRule :=
  [ { Name := "telnet".toList
      Description := "Serviço Telnet oferece comunicação não criptografada".toList
      Severity := report.SeverityCritical
      CheckFunc := fun service =>
        service == "telnet".toList || service == "telnetd".toList ||
        service == "inetd".toList },
    { Name := "rsh".toList
      Description := "Serviço RSH é inseguro e deve ser desabilitado".toList
      Severity := report.SeverityCritical
      CheckFunc := fun service =>
        service == "rsh".toList || service == "rsh-server".toList ||
        service == "rshd".toList },
    { Name := "rlogin".toList
      Description := "Serviço RLogin é inseguro e deve ser desabilitado".toList
      Severity := report.SeverityCritical
      CheckFunc := fun service =>
        service == "rlogin".toList || service == "rlogind".toList },
    { Name := "rexec".toList
      Description := "Serviço RExec é inseguro e deve ser desabilitado".toList
      Severity := report.SeverityCritical
      CheckFunc := fun service =>
        service == "rexec".toList || service == "rexecd".toList },
    { Name := "ftp".toList
      Description := "Serviço FTP transfere credenciais sem criptografia".toList
      Severity := report.SeverityWarning
      CheckFunc := fun service =>
        service == "ftp".toList || service == "ftpd".toList ||
        service == "vsftpd".toList || service == "proftpd".toList ||
        strings.Contains service "ftp".toList },
    { Name := "tftp".toList
      Description := "Serviço TFTP é inseguro e não deve ser usado em produção".toList
      Severity := report.SeverityCritical
      CheckFunc := fun service =>
        service == "tftp".toList || service == "tftpd".toList ||
        service == "atftpd".toList || service == "tftpd-hpa".toList },
    { Name := "finger".toList
      Description := "Serviço Finger pode revelar informações sobre usuários".toList
      Severity := report.SeverityWarning
      CheckFunc := fun service =>
        service == "finger".toList || service == "fingerd".toList },
    { Name := "talk".toList
      Description := "Serviço Talk não é criptografado e é raramente usado".toList
      Severity := report.SeverityWarning
      CheckFunc := fun service =>
        service == "talk".toList || service == "talkd".toList ||
        service == "ntalk".toList || service == "ntalkd".toList },
    { Name := "nis".toList
      Description := "NIS é considerado inseguro para autenticação".toList
      Severity := report.SeverityWarning
      CheckFunc := fun service =>
        service == "nis".toList || service == "yp".toList ||
        strings.Contains service "ypserv".toList || strings.Contains service "ypbind".toList },
    { Name := "snmpd".toList
      Description := "SNMP pode estar configurado com community strings padrão".toList
      Severity := report.SeverityWarning
      CheckFunc := fun service =>
        service == "snmpd".toList || service == "snmp".toList },
    { Name := "portmap".toList
      Description := "Portmap/RPC pode expor serviços desnecessários".toList
      Severity := report.SeverityWarning
      CheckFunc := fun service =>
        service == "portmap".toList || service == "rpcbind".toList },
    { Name := "sendmail".toList
      Description := "Servidores de email podem precisar de configuração adicional de segurança".toList
      Severity := report.SeverityInfo
      CheckFunc := fun service =>
        service == "sendmail".toList || service == "postfix".toList ||
        service == "exim".toList || service == "exim4".toList },
    { Name := "xserver".toList
      Description := "Servidor X não deve estar executando em servidores".toList
      Severity := report.SeverityWarning
      CheckFunc := fun service =>
        service == "xorg".toList || service == "xserver".toList ||
        service == "xorg-server".toList || service == "gdm".toList ||
        service == "lightdm".toList || service == "kdm".toList || service == "sddm".toList },
    { Name := "avahi".toList
      Description := "Avahi (mDNS) não é necessário em servidores".toList
      Severity := report.SeverityInfo
      CheckFunc := fun service =>
        service == "avahi".toList || service == "avahi-daemon".toList },
    { Name := "cups".toList
      Description := "CUPS não é necessário em servidores sem impressoras".toList
      Severity := report.SeverityInfo
      CheckFunc := fun service =>
        service == "cups".toList || service == "cupsd".toList },
    { Name := "dhcpd".toList
      Description := "Servidor DHCP pode precisar de revisão de segurança".toList
      Severity := report.SeverityInfo
      CheckFunc := fun service =>
        service == "dhcpd".toList || service == "isc-dhcp-server".toList } ]

/-- The services analyzer. -/
structure Analyzer where
  mountPoint : GoString
  rules : List ServiceRule

/-- The constructor `NewAnalyzer` of the services analyzer. -/
def NewAnalyzer (mountPoint : GoString) : Analyzer :=
  { mountPoint := mountPoint
    rules := getDefaultRules }

/-- What the host reports to the services analyzer. -/
structure Host where
  /-- The state of the directory at a path, for `os.Stat` and `os.ReadDir`. -/
  dirAt : GoString → DirState
  /-- Whether `exec.LookPath` finds the command. -/
  hasCommand : GoString → Bool
  /-- The output of `systemctl list-units ...`, `none` when the command fails. -/
  systemctlOutput : Option GoString
  /-- The combined output of `service <name> status`. -/
  serviceStatus : GoString → GoString

/-- The errors of the services analyzer, one per `fmt.Errorf` site. -/
inductive AnalyzeError where
  | unsupported
  | systemdDirNotFound
  | systemdDirRead
  | systemctlExec
  | initDirRead
  deriving DecidableEq

/-- The name tested against the rules by the two service-manager strategies: a trailing
`.service` is removed. -/
def unitName (serviceName : GoString) : GoString :=
  if strings.HasSuffix serviceName ".service".toList then
    strings.TrimSuffix serviceName ".service".toList
  else serviceName

/-- The issue `analyzeSystemdDir` appends for a service and a rule that matches it. -/
def enabledIssue (rule : ServiceRule) (serviceName : GoString) : report.Issue :=
  { Category := "services".toList
    Severity := rule.Severity
    Description := rule.Description ++ " (".toList ++ serviceName ++ " está habilitado)".toList
    CurrentValue := []
    RecommendedValue := []
    FixCommand := "systemctl disable ".toList ++ serviceName ++ " && systemctl stop ".toList ++
      serviceName }

/-- The issue `analyzeSystemctl` appends for a service and a rule that matches it. -/
def activeIssue (rule : ServiceRule) (serviceName : GoString) : report.Issue :=
  { Category := "services".toList
    Severity := rule.Severity
    Description := rule.Description ++ " (".toList ++ serviceName ++ " está ativo)".toList
    CurrentValue := []
    RecommendedValue := []
    FixCommand := "systemctl disable ".toList ++ serviceName ++ " && systemctl stop ".toList ++
      serviceName }

/-- The issue `analyzeServiceCommand` appends for a service and a rule that matches it. -/
def legacyIssue (rule : ServiceRule) (serviceName : GoString) : report.Issue :=
  { Category := "services".toList
    Severity := rule.Severity
    Description := rule.Description ++ " (".toList ++ serviceName ++ " está ativo)".toList
    CurrentValue := []
    RecommendedValue := []
    FixCommand := "service ".toList ++ serviceName ++ " stop && update-rc.d ".toList ++
      serviceName ++ " disable".toList }

/-- The rule loop shared by the three strategies: every rule whose `CheckFunc` accepts the
name appends the issue `mk` builds. -/
def checkService (rules : List ServiceRule) (mk : ServiceRule → GoString → report.Issue)
    (issues : List report.Issue) (serviceName : GoString) : List report.Issue :=
  rules.foldl
    (fun acc rule => if rule.CheckFunc serviceName then acc ++ [mk rule serviceName] else acc)
    issues

/-- The method `analyzeSystemdDir`, given the state of the directory `dir`. -/
def Analyzer.analyzeSystemdDir (a : Analyzer) (dir : DirState) :
    Except AnalyzeError (List report.Issue) :=
  match dir with
  | .notExist => .error .systemdDirNotFound
  | .readFails => .error .systemdDirRead
  | .entries files =>
    .ok (files.foldl
      (fun issues file =>
        if file.IsDir then issues
        else checkService a.rules enabledIssue issues (unitName file.Name))
      [])

/-- The method `analyzeSystemctl`, given the outcome of the `systemctl` query. -/
def Analyzer.analyzeSystemctl (a : Analyzer) (output : Option GoString) :
    Except AnalyzeError (List report.Issue) :=
  match output with
  | none => .error .systemctlExec
  | some out =>
    .ok ((strings.Split out "\n".toList).foldl
      (fun issues service =>
        if service = [] then issues
        else
          match strings.Fields service with
          | [] => issues
          | field :: _ => checkService a.rules activeIssue issues (unitName field))
      [])

/-- The loop of `analyzeServiceCommand` over the entries of one init directory; `toLower`
is Go's `strings.ToLower`, whose case table is not reproduced here. -/
def Analyzer.checkInitScripts (a : Analyzer) (toLower : GoString → GoString)
    (serviceStatus : GoString → GoString) (files : List DirEntry)
    (issues : List report.Issue) : List report.Issue :=
  files.foldl
    (fun acc file =>
      if file.IsDir then acc
      else
        let serviceName := file.Name
        let output := serviceStatus serviceName
        if !strings.Contains (toLower output) "stopped".toList &&
            !strings.Contains (toLower output) "not running".toList then
          checkService a.rules legacyIssue acc serviceName
        else acc)
    issues

/-- The loop of `analyzeServiceCommand` over the init directories. -/
def Analyzer.checkInitDirs (a : Analyzer) (toLower : GoString → GoString) (host : Host) :
    List GoString → List report.Issue → Except AnalyzeError (List report.Issue)
  | [], issues => .ok issues
  | dir :: dirs, issues =>
    match host.dirAt dir with
    | .notExist => a.checkInitDirs toLower host dirs issues
    | .readFails => .error .initDirRead
    | .entries files =>
      a.checkInitDirs toLower host dirs
        (a.checkInitScripts toLower host.serviceStatus files issues)

/-- The method `analyzeServiceCommand`. -/
def Analyzer.analyzeServiceCommand (a : Analyzer) (toLower : GoString → GoString)
    (host : Host) : Except AnalyzeError (List report.Issue) :=
  a.checkInitDirs toLower host ["/etc/init.d".toList, "/etc/rc.d".toList] []

/-- The method `Analyze` of the services analyzer. -/
def Analyzer.Analyze (a : Analyzer) (toLower : GoString → GoString) (host : Host) :
    Except AnalyzeError (List report.Issue) :=
  if a.mountPoint ≠ [] then
    let systemdDir :=
      filepath.Join a.mountPoint "etc/systemd/system/multi-user.target.wants".toList
    a.analyzeSystemdDir (host.dirAt systemdDir)
  else if host.hasCommand "systemctl".toList then a.analyzeSystemctl host.systemctlOutput
  else if host.hasCommand "service".toList then a.analyzeServiceCommand toLower host
  else .error .unsupported

end services

namespace fixer

/-- The section of a category as the specification describes it: the section head, the
backup call for the categories `ssh` and `sysctl`, then one remediation block per issue of
the category, in the order of the collection. -/
def Generator.sectionText (g : Generator) (issues : List report.Issue)
    (toUpper : GoString → GoString) (category : GoString) : GoString :=
  sectionHead toUpper category ++ backupLines category ++
    ((issues.filter (fun issue => issue.Category == category)).map g.remediationBlock).flatten

end fixer

namespace services

/-- The issues the specification describes for a list of discovered names: one issue per
pair of a name and a rule that accepts it, names in discovery order, rules in table
order. -/
def matchingIssues (rules : List ServiceRule) (mk : ServiceRule → GoString → report.Issue)
    (names : List GoString) : List report.Issue :=
  (names.map fun name =>
    (rules.filter fun rule => rule.CheckFunc name).map fun rule => mk rule name).flatten

/-- The names the legacy strategy discovers in one init directory: the entries that are not
directories and whose status output, lower-cased, holds neither `stopped` nor
`not running`. -/
def legacyNames (toLower : GoString → GoString) (host : Host) (dir : GoString) :
    List GoString :=
  match host.dirAt dir with
  | .entries files =>
    (files.filter fun file =>
      !file.IsDir &&
        (!strings.Contains (toLower (host.serviceStatus file.Name)) "stopped".toList &&
          !strings.Contains (toLower (host.serviceStatus file.Name)) "not running".toList)).map
      fun file => file.Name
  | _ => []

end services

namespace utf8

/-- Go's `utf8.RuneLen` on a valid code point: the number of bytes of its encoding. -/
def RuneLen (r : Char) : Nat :=
  if r.toNat < 0x80 then 1
  else if r.toNat < 0x800 then 2
  else if r.toNat < 0x10000 then 3
  else 4

end utf8

namespace bufio

/-- Go's `bufio.MaxScanTokenSize`, the size the buffer of a `Scanner` may grow to. -/
def MaxScanTokenSize : Nat := 64 * 1024

/-- Go's `len(s)`: the number of bytes of the string. -/
def byteLen (s : GoString) : Nat :=
  (s.map utf8.RuneLen).sum

/-- Go's `dropCR`: a terminal `\r` is removed from a token. -/
def dropCR (data : GoString) : GoString :=
  if data.getLast? = some '\r' then data.dropLast else data

/-- The tokens a `Scanner` with `ScanLines` and the default buffer yields for the pieces
between the newlines of its input, and whether it stops with `ErrTooLong`.  A piece followed
by a newline is a token when it fits the buffer together with its newline; the last piece is
a token when it is not empty and leaves room in the buffer for the read that meets the end
of the input. -/
def scanPieces : List GoString → List GoString × Bool
  | [] => ([], false)
  | piece :: rest =>
    match rest with
    | [] =>
      if piece = [] then ([], false)
      else if byteLen piece ≥ MaxScanTokenSize then ([], true)
      else ([dropCR piece], false)
    | _ :: _ =>
      if byteLen piece + 1 > MaxScanTokenSize then ([], true)
      else (dropCR piece :: (scanPieces rest).1, (scanPieces rest).2)

/-- The run of `bufio.NewScanner(file)` with `scanner.Scan()` until it returns false, on a
file of the given content that is read without an I/O error: the tokens of `scanner.Text()`
and whether `scanner.Err()` is non-nil. -/
def scanLines (content : GoString) : List GoString × Bool :=
  scanPieces (strings.Split content "\n".toList)

end bufio

/-- The state of a file that exists, opens and is read without an I/O error, with the given
content. -/
def FileState.ofContent (content : GoString) : FileState :=
  .readable (bufio.scanLines content).1 (bufio.scanLines content).2

namespace ssh

/-- Whether a rule is missing or violated in a mapping, as the specification words it. -/
def ruleFails (config : Config) (rule : SSHRule) : Bool :=
  match config rule.Key with
  | none => true
  | some value => !rule.ComparisonFunc value rule.RecommendedValue

/-- The issue of a rule that is missing or violated in a mapping. -/
def ruleIssue (config : Config) (rule : SSHRule) : report.Issue :=
  match config rule.Key with
  | none =>
    { Category := "ssh".toList
      Severity := rule.Severity
      Description := rule.Description
      CurrentValue := []
      RecommendedValue := rule.RecommendedValue
      FixCommand := "echo '".toList ++ rule.Key ++ " ".toList ++
        rule.RecommendedValue ++ "' >> /etc/ssh/sshd_config".toList }
  | some value =>
    { Category := "ssh".toList
      Severity := rule.Severity
      Description := rule.Description
      CurrentValue := value
      RecommendedValue := rule.RecommendedValue
      FixCommand := "sed -i 's/^".toList ++ rule.Key ++ ".*/".toList ++
        rule.Key ++ " ".toList ++ rule.RecommendedValue ++
        "/' /etc/ssh/sshd_config".toList }

end ssh

namespace sysctl

/-- Whether a rule is missing or violated in a mapping, as the specification words it. -/
def ruleFails (config : Config) (rule : SysctlRule) : Bool :=
  match config rule.Key with
  | none => true
  | some value => !rule.ComparisonFunc value rule.RecommendedValue

/-- The issue of a rule that is missing or violated in a mapping. -/
def ruleIssue (config : Config) (rule : SysctlRule) : report.Issue :=
  match config rule.Key with
  | none =>
    { Category := "sysctl".toList
      Severity := rule.Severity
      Description := rule.Description
      CurrentValue := []
      RecommendedValue := rule.RecommendedValue
      FixCommand := "echo '".toList ++ rule.Key ++ " = ".toList ++
        rule.RecommendedValue ++ "' >> /etc/sysctl.conf && sysctl -p".toList }
  | some value =>
    { Category := "sysctl".toList
      Severity := rule.Severity
      Description := rule.Description
      CurrentValue := value
      RecommendedValue := rule.RecommendedValue
      FixCommand := "sed -i 's/^".toList ++ rule.Key ++ ".*/".toList ++
        rule.Key ++ " = ".toList ++ rule.RecommendedValue ++
        "/' /etc/sysctl.conf && sysctl -p".toList }

end sysctl

namespace report

/-- The grouping loop of `generateText`: the map from a category to its issues, in the
order of the collection; a category that does not occur is mapped to the empty list. -/
def groupByCategory (issues : List Issue) : GoString → List Issue :=
  issues.foldl
    (fun categories issue =>
      fun category =>
        if category = issue.Category then categories category ++ [issue]
        else categories category)
    (fun _ => [])

/-- The text the inner loop of `generateText` writes for the issue at index `i` of its
category: the numbered line, the lines of the fields that are not empty, and an empty
line. -/
def textEntry (i : Nat) (issue : Issue) : GoString :=
  (Nat.toDigits 10 (i + 1) ++ ". [".toList ++ issue.Severity ++ "] ".toList ++
    issue.Description ++ "\n".toList) ++
  (if issue.CurrentValue ≠ [] then
    "   Valor atual: ".toList ++ issue.CurrentValue ++ "\n".toList
   else []) ++
  (if issue.RecommendedValue ≠ [] then
    "   Valor recomendado: ".toList ++ issue.RecommendedValue ++ "\n".toList
   else []) ++
  (if issue.FixCommand ≠ [] then
    "   Correção: ".toList ++ issue.FixCommand ++ "\n".toList
   else []) ++
  "\n".toList

/-- The head line of the text report. -/
def textHead : GoString :=
  "=== RELATÓRIO DE SEGURANÇA HARDSHELL ===\n\n".toList

/-- The method `generateText`.  `toUpper` is Go's `strings.ToUpper`; `order` is the order
in which the `range` over the map of categories visits its keys, which Go leaves
unspecified. -/
def generateText (issues : List Issue) (toUpper : GoString → GoString)
    (order : List GoString) : GoString :=
  let categories := groupByCategory issues
  order.foldl
    (fun sb category =>
      let sb1 := sb ++ ("== ".toList ++ toUpper category ++ " ==\n".toList)
      let sb2 := (categories category).enum.foldl
        (fun sb3 entry => sb3 ++ textEntry entry.1 entry.2) sb1
      sb2 ++ "\n".toList)
    textHead

/-- The section of a category in the text report, as the specification describes it: the
title line, then the issues of the category in the order of the collection, numbered from
1, then an empty line. -/
def textSection (issues : List Issue) (toUpper : GoString → GoString)
    (category : GoString) : GoString :=
  ("== ".toList ++ toUpper category ++ " ==\n".toList) ++
    ((issues.filter fun issue => issue.Category == category).enum.map
      fun entry => textEntry entry.1 entry.2).flatten ++
    "\n".toList

end report


namespace report

/-- The head of the styled document: the text `generateHTML` writes first. -/
def htmlHead : GoString :=
  "<!DOCTYPE html>\n".toList ++
  "<html>\n".toList ++
  "<head>\n".toList ++
  "    <meta charset=\"UTF-8\">\n".toList ++
  "    <meta name=\"viewport\" content=\"width=device-width, initial-scale=1.0\">\n".toList ++
  "    <title>Relatório de Segurança Hardshell</title>\n".toList ++
  "    <style>\n".toList ++
  "        body \x7b\n".toList ++
  "            font-family: 'Courier New', monospace;\n".toList ++
  "            line-height: 1.6;\n".toList ++
  "            max-width: 960px;\n".toList ++
  "            margin: 0 auto;\n".toList ++
  "            padding: 20px;\n".toList ++
  "            background-color: #1e1e1e;\n".toList ++
  "            color: #f0f0f0;\n".toList ++
  "        \x7d\n".toList ++
  "        h1, h2 \x7b\n".toList ++
  "            color: #00cc00;\n".toList ++
  "            border-bottom: 1px solid #444;\n".toList ++
  "            padding-bottom: 5px;\n".toList ++
  "        \x7d\n".toList ++
  "        .issue \x7b\n".toList ++
  "            margin-bottom: 20px;\n".toList ++
  "            padding: 10px;\n".toList ++
  "            border-left: 5px solid #555;\n".toList ++
  "            background-color: #2a2a2a;\n".toList ++
  "        \x7d\n".toList ++
  "        .CRITICAL \x7b\n".toList ++
  "            border-left-color: #ff3333;\n".toList ++
  "        \x7d\n".toList ++
  "        .WARNING \x7b\n".toList ++
  "            border-left-color: #ffcc00;\n".toList ++
  "        \x7d\n".toList ++
  "        .INFO \x7b\n".toList ++
  "            border-left-color: #3399ff;\n".toList ++
  "        \x7d\n".toList ++
  "        .severity \x7b\n".toList ++
  "            font-weight: bold;\n".toList ++
  "            padding: 2px 8px;\n".toList ++
  "            border-radius: 3px;\n".toList ++
  "            display: inline-block;\n".toList ++
  "        \x7d\n".toList ++
  "        .severity.CRITICAL \x7b\n".toList ++
  "            background-color: #ff3333;\n".toList ++
  "            color: white;\n".toList ++
  "        \x7d\n".toList ++
  "        .severity.WARNING \x7b\n".toList ++
  "            background-color: #ffcc00;\n".toList ++
  "            color: black;\n".toList ++
  "        \x7d\n".toList ++
  "        .severity.INFO \x7b\n".toList ++
  "            background-color: #3399ff;\n".toList ++
  "            color: white;\n".toList ++
  "        \x7d\n".toList ++
  "        .summary \x7b\n".toList ++
  "            display: flex;\n".toList ++
  "            margin: 20px 0;\n".toList ++
  "        \x7d\n".toList ++
  "        .summary-item \x7b\n".toList ++
  "            flex: 1;\n".toList ++
  "            text-align: center;\n".toList ++
  "            padding: 10px;\n".toList ++
  "            margin: 5px;\n".toList ++
  "            background-color: #2a2a2a;\n".toList ++
  "            border-radius: 5px;\n".toList ++
  "        \x7d\n".toList ++
  "        .summary-item.critical \x7b\n".toList ++
  "            border-bottom: 3px solid #ff3333;\n".toList ++
  "        \x7d\n".toList ++
  "        .summary-item.warning \x7b\n".toList ++
  "            border-bottom: 3px solid #ffcc00;\n".toList ++
  "        \x7d\n".toList ++
  "        .summary-item.info \x7b\n".toList ++
  "            border-bottom: 3px solid #3399ff;\n".toList ++
  "        \x7d\n".toList ++
  "        .summary-item.total \x7b\n".toList ++
  "            border-bottom: 3px solid #00cc00;\n".toList ++
  "        \x7d\n".toList ++
  "        .summary-number \x7b\n".toList ++
  "            font-size: 2em;\n".toList ++
  "            font-weight: bold;\n".toList ++
  "        \x7d\n".toList ++
  "        .fix \x7b\n".toList ++
  "            background-color: #333;\n".toList ++
  "            padding: 8px;\n".toList ++
  "            border-radius: 3px;\n".toList ++
  "            font-family: monospace;\n".toList ++
  "            overflow-x: auto;\n".toList ++
  "        \x7d\n".toList ++
  "    </style>\n".toList ++
  "</head>\n".toList ++
  "<body>\n".toList ++
  "    <h1>Relatório de Segurança Hardshell</h1>\n".toList

/-- The summary block of the styled document, with the four counters printed by
`%d`. -/
def htmlSummary (critical warning info total : Nat) : GoString :=
  ("    <div class=\"summary\">\n".toList ++
    "        <div class=\"summary-item critical\">\n".toList ++
    "            <div class=\"summary-number\">".toList) ++
  Nat.toDigits 10 critical ++
  ("</div>\n".toList ++
    "            <div>Críticos</div>\n".toList ++
    "        </div>\n".toList ++
    "        <div class=\"summary-item warning\">\n".toList ++
    "            <div class=\"summary-number\">".toList) ++
  Nat.toDigits 10 warning ++
  ("</div>\n".toList ++
    "            <div>Avisos</div>\n".toList ++
    "        </div>\n".toList ++
    "        <div class=\"summary-item info\">\n".toList ++
    "            <div class=\"summary-number\">".toList) ++
  Nat.toDigits 10 info ++
  ("</div>\n".toList ++
    "            <div>Informações</div>\n".toList ++
    "        </div>\n".toList ++
    "        <div class=\"summary-item total\">\n".toList ++
    "            <div class=\"summary-number\">".toList) ++
  Nat.toDigits 10 total ++
  ("</div>\n".toList ++
    "            <div>Total</div>\n".toList ++
    "        </div>\n".toList ++
    "    </div>\n".toList)

/-- The text the inner loop of `generateHTML` writes for one issue: the opening of the
block, the lines of the fields that are not empty, and the closing line. -/
def htmlIssue (issue : Issue) : GoString :=
  (("    <div class=\"issue ".toList) ++ issue.Severity ++
    ("\">\n".toList ++
    "        <span class=\"severity ".toList) ++ issue.Severity ++
    ("\">".toList) ++ issue.Severity ++
    ("</span>\n".toList ++
    "        <p><strong>".toList) ++ issue.Description ++
    ("</strong></p>\n".toList)) ++
  (if issue.CurrentValue ≠ [] then
    "        <p>Valor atual: <code>".toList ++ issue.CurrentValue ++ "</code></p>\n".toList
   else []) ++
  (if issue.RecommendedValue ≠ [] then
    "        <p>Valor recomendado: <code>".toList ++ issue.RecommendedValue ++
      "</code></p>\n".toList
   else []) ++
  (if issue.FixCommand ≠ [] then
    "        <p>Correção:</p>\n        <pre class=\"fix\">".toList ++ issue.FixCommand ++
      "</pre>\n".toList
   else []) ++
  "    </div>\n".toList

/-- The foot of the styled document. -/
def htmlFoot : GoString :=
  "</body>\n".toList ++
  "</html>".toList

/-- The method `generateHTML`.  Its counting loop has the `switch` of `generateJSON`
(`countSeverity`); `toUpper` is Go's `strings.ToUpper`, and `order` is the order in which
the `range` over the map of categories visits its keys. -/
def generateHTML (issues : List Issue) (toUpper : GoString → GoString)
    (order : List GoString) : GoString :=
  let sb0 := htmlHead
  let counts := issues.foldl countSeverity ⟨0, 0, 0, 0⟩
  let sb1 := sb0 ++ htmlSummary counts.Critical counts.Warning counts.Info issues.length
  let categories := groupByCategory issues
  let sb2 := order.foldl
    (fun sb category =>
      let sb3 := sb ++ ("    <h2>".toList ++ toUpper category ++ "</h2>\n".toList)
      (categories category).foldl (fun sb4 issue => sb4 ++ htmlIssue issue) sb3)
    sb1
  sb2 ++ htmlFoot

/-- The report generator: the format it was built with. -/
structure Generator where
  format : GoString

/-- The constructor `NewGenerator` of the report generator. -/
def NewGenerator (format : GoString) : Generator :=
  { format := format }

/-- The error `Generate` can return: the one `json.MarshalIndent` reported. -/
inductive GenerateError where
  | marshal
  deriving DecidableEq

/-- The method `generateJSON`.  `marshalIndent` is Go's `json.MarshalIndent` with the
indentation of the source, `none` when it reports an error; the encoder of the standard
library is not reproduced here. -/
def Generator.generateJSON (_g : Generator) (marshalIndent : Report → Option GoString)
    (issues : List Issue) : Except GenerateError GoString :=
  match marshalIndent (jsonReport issues) with
  | none => .error .marshal
  | some jsonData => .ok jsonData

/-- The method `Generate`: the `switch` on the lower-cased format.  `toLower` is Go's
`strings.ToLower`. -/
def Generator.Generate (g : Generator) (toLower : GoString → GoString)
    (marshalIndent : Report → Option GoString) (toUpper : GoString → GoString)
    (order : List GoString) (issues : List Issue) : Except GenerateError GoString :=
  if toLower g.format = "json".toList then g.generateJSON marshalIndent issues
  else if toLower g.format = "html".toList then .ok (generateHTML issues toUpper order)
  else .ok (generateText issues toUpper order)

end report

namespace shell

/-- The content of a file after the shell has run `echo '<text>' >> <file>`, the form of the
fix command of a missing key: `echo` writes the text and a newline, and `>>` puts them
after the last byte the file holds. -/
def echoAppend (content text : GoString) : GoString :=
  content ++ text ++ "\n".toList

end shell


namespace strings

/-- The text made of the given lines, each followed by a newline. -/
def unlines (lines : List GoString) : GoString :=
  (lines.map fun l => l ++ "\n".toList).flatten

end strings


/-! ## Auxiliary facts about the string functions -/

namespace strings

theorem cutFirst_single_of_not_mem (c : Char) (s : GoString) (h : c ∉ s) :
    cutFirst [c] s = none := by
  induction s with
  | nil => simp [cutFirst, List.isPrefixOf]
  | cons x xs ih =>
    have hx : ¬ c = x := fun e => h (by simp [e])
    have hxs : c ∉ xs := fun e => h (by simp [e])
    simp [cutFirst, List.isPrefixOf, hx, ih hxs]

theorem cutFirst_single_of_mem (c : Char) (s : GoString) (h : c ∈ s) :
    ∃ before after, s = before ++ c :: after ∧ c ∉ before ∧
      cutFirst [c] s = some (before, after) := by
  induction s with
  | nil => simp at h
  | cons x xs ih =>
    by_cases hx : c = x
    · subst hx
      exact ⟨[], xs, by simp, by simp, by simp [cutFirst, List.isPrefixOf]⟩
    · have hxs : c ∈ xs := by
        rcases List.mem_cons.mp h with e | e
        · exact absurd e hx
        · exact e
      obtain ⟨b, a, hs, hb, hc⟩ := ih hxs
      refine ⟨x :: b, a, by simp [hs], ?_, ?_⟩
      · intro hm
        rcases List.mem_cons.mp hm with e | e
        · exact hx e
        · exact hb e
      · simp [cutFirst, List.isPrefixOf, hx, hc]

theorem SplitN_two_of_not_mem (c : Char) (s : GoString) (h : c ∉ s) :
    SplitN s [c] 2 = [s] := by
  simp [SplitN, cutFirst_single_of_not_mem c s h]

theorem SplitN_two_of_mem (c : Char) (s : GoString) (h : c ∈ s) :
    ∃ before after, s = before ++ c :: after ∧ c ∉ before ∧
      SplitN s [c] 2 = [before, after] := by
  obtain ⟨b, a, hs, hb, hc⟩ := cutFirst_single_of_mem c s h
  exact ⟨b, a, hs, hb, by simp [SplitN, hc]⟩

theorem TrimLeftSpace_head (s : GoString) (c : Char)
    (h : (TrimLeftSpace s).head? = some c) : unicode.IsSpace c = false := by
  have := List.head?_dropWhile_not unicode.IsSpace s
  unfold TrimLeftSpace at h
  rw [h] at this
  exact this

theorem TrimRightSpace_getLast (s : GoString) (c : Char)
    (h : (TrimRightSpace s).getLast? = some c) : unicode.IsSpace c = false := by
  have := List.head?_dropWhile_not unicode.IsSpace s.reverse
  unfold TrimRightSpace at h
  rw [List.getLast?_reverse] at h
  rw [h] at this
  exact this

theorem TrimRightSpace_prefix (s : GoString) : TrimRightSpace s <+: s := by
  unfold TrimRightSpace
  have h := List.dropWhile_suffix (l := s.reverse) unicode.IsSpace
  have h2 := List.reverse_prefix.mpr h
  simpa using h2

theorem TrimRightSpace_head (s : GoString) (c : Char)
    (h : (TrimRightSpace s).head? = some c) : s.head? = some c := by
  obtain ⟨t, ht⟩ := TrimRightSpace_prefix s
  cases hr : TrimRightSpace s with
  | nil => rw [hr] at h; simp at h
  | cons x xs =>
    rw [hr] at h ht
    rw [← ht]
    simpa using h

/-- The result of `TrimSpace` neither starts nor ends with white space. -/
theorem TrimSpace_head (s : GoString) (c : Char) (h : (TrimSpace s).head? = some c) :
    unicode.IsSpace c = false :=
  TrimLeftSpace_head s c (TrimRightSpace_head _ c h)

theorem TrimSpace_getLast (s : GoString) (c : Char) (h : (TrimSpace s).getLast? = some c) :
    unicode.IsSpace c = false :=
  TrimRightSpace_getLast _ c h

theorem TrimLeftSpace_of_head (s : GoString) (c : Char) (h : s.head? = some c)
    (hc : unicode.IsSpace c = false) : TrimLeftSpace s = s := by
  cases s with
  | nil => simp at h
  | cons x xs =>
    simp at h
    subst h
    simp [TrimLeftSpace, List.dropWhile, hc]

theorem TrimRightSpace_ne_nil (s : GoString) (c : Char) (hm : c ∈ s)
    (hc : unicode.IsSpace c = false) : TrimRightSpace s ≠ [] := by
  unfold TrimRightSpace
  intro h
  have h1 : List.dropWhile unicode.IsSpace s.reverse = [] := by
    simpa using h
  rw [List.dropWhile_eq_nil_iff] at h1
  have := h1 c (by simpa using hm)
  simp [hc] at this

/-- A string whose first code point is not white space does not trim to the empty
string. -/
theorem TrimSpace_ne_nil_of_head (s : GoString) (c : Char) (h : s.head? = some c)
    (hc : unicode.IsSpace c = false) : TrimSpace s ≠ [] := by
  unfold TrimSpace
  rw [TrimLeftSpace_of_head s c h hc]
  exact TrimRightSpace_ne_nil s c (List.mem_of_mem_head? (by simp [h])) hc

/-- A string whose last code point is not white space does not trim to the empty
string. -/
theorem TrimSpace_ne_nil_of_getLast (s : GoString) (c : Char) (h : s.getLast? = some c)
    (hc : unicode.IsSpace c = false) : TrimSpace s ≠ [] := by
  unfold TrimSpace
  have hm : c ∈ s := List.mem_of_getLast?_eq_some h
  have hne : TrimLeftSpace s ≠ [] := by
    unfold TrimLeftSpace
    intro h0
    rw [List.dropWhile_eq_nil_iff] at h0
    have := h0 c hm
    simp [hc] at this
  have hsuf : TrimLeftSpace s <:+ s := List.dropWhile_suffix _
  obtain ⟨t, ht⟩ := hsuf
  have hl : (TrimLeftSpace s).getLast? = some c := by
    rw [← ht, List.getLast?_append] at h
    cases hq : (TrimLeftSpace s).getLast? with
    | none => simp [List.getLast?_eq_none_iff] at hq; exact absurd hq hne
    | some d => rw [hq] at h; simpa using h
  exact TrimRightSpace_ne_nil _ c (List.mem_of_getLast?_eq_some hl) hc

end strings

/-! ## Auxiliary facts about the parsers -/

theorem Config.set_apply (config : Config) (key value k : GoString) :
    config.set key value k = if k = key then some value else config k := rfl

namespace ssh

theorem ssh_parseLine_of_not_mem (config : Config) (text : GoString)
    (h : ' ' ∉ strings.TrimSpace text) : parseLine config text = config := by
  unfold parseLine
  simp only [show " ".toList = [' '] from rfl, strings.SplitN_two_of_not_mem _ _ h]
  simp

theorem ssh_parseLine_of_mem (config : Config) (text : GoString)
    (h1 : strings.TrimSpace text ≠ [])
    (h2 : strings.HasPrefix (strings.TrimSpace text) "#".toList = false)
    (h : ' ' ∈ strings.TrimSpace text) :
    ∃ before after, strings.TrimSpace text = before ++ ' ' :: after ∧ ' ' ∉ before ∧
      parseLine config text = config.set (strings.TrimSpace before) (strings.TrimSpace after) := by
  obtain ⟨b, a, hs, hb, hc⟩ := strings.SplitN_two_of_mem _ _ h
  refine ⟨b, a, hs, hb, ?_⟩
  unfold parseLine
  simp only [show " ".toList = [' '] from rfl, hc, h2]
  simp [h1]

/-- A line either leaves the mapping alone or assigns one key, and which of the two it does
is independent of the mapping. -/
theorem ssh_parseLine_apply (config : Config) (text k : GoString) :
    parseLine config text k =
      match parseLine Config.empty text k with
      | some v => some v
      | none => config k := by
  unfold parseLine
  simp only []
  split
  · simp [Config.empty]
  · split
    · simp [Config.empty]
    · simp only [Config.set_apply]
      split <;> simp [Config.empty]

end ssh

namespace sysctl

theorem sysctl_parseLine_of_not_mem (config : Config) (text : GoString)
    (h : '=' ∉ strings.TrimSpace text) : parseLine config text = config := by
  unfold parseLine
  simp only [show "=".toList = ['='] from rfl, strings.SplitN_two_of_not_mem _ _ h]
  simp

theorem sysctl_parseLine_of_mem (config : Config) (text : GoString)
    (h1 : strings.TrimSpace text ≠ [])
    (h2 : strings.HasPrefix (strings.TrimSpace text) "#".toList = false)
    (h : '=' ∈ strings.TrimSpace text) :
    ∃ before after, strings.TrimSpace text = before ++ '=' :: after ∧ '=' ∉ before ∧
      parseLine config text = config.set (strings.TrimSpace before) (strings.TrimSpace after) := by
  obtain ⟨b, a, hs, hb, hc⟩ := strings.SplitN_two_of_mem _ _ h
  refine ⟨b, a, hs, hb, ?_⟩
  unfold parseLine
  simp only [show "=".toList = ['='] from rfl, hc, h2]
  simp [h1]

theorem sysctl_parseLine_apply (config : Config) (text k : GoString) :
    parseLine config text k =
      match parseLine Config.empty text k with
      | some v => some v
      | none => config k := by
  unfold parseLine
  simp only []
  split
  · simp [Config.empty]
  · split
    · simp [Config.empty]
    · simp only [Config.set_apply]
      split <;> simp [Config.empty]

end sysctl

/-- The two halves of a trimmed line split at a space both keep a code point that is not
white space. -/
theorem strings.trimmed_halves_ne_nil (text before after : GoString)
    (hs : strings.TrimSpace text = before ++ ' ' :: after) :
    strings.TrimSpace before ≠ [] ∧ strings.TrimSpace after ≠ [] := by
  constructor
  · cases before with
    | nil =>
      have := strings.TrimSpace_head text ' ' (by rw [hs]; rfl)
      exact absurd this (by decide)
    | cons b bs =>
      have hb := strings.TrimSpace_head text b (by rw [hs]; rfl)
      exact strings.TrimSpace_ne_nil_of_head (b :: bs) b rfl hb
  · cases hl : after.getLast? with
    | none =>
      have ha : after = [] := List.getLast?_eq_none_iff.mp hl
      subst ha
      have := strings.TrimSpace_getLast text ' ' (by rw [hs]; simp)
      exact absurd this (by decide)
    | some c =>
      have hc := strings.TrimSpace_getLast text c (by
        rw [hs, List.getLast?_append]
        cases after with
        | nil => simp at hl
        | cons a as => rw [List.getLast?_cons_cons, hl]; rfl)
      exact strings.TrimSpace_ne_nil_of_getLast after c hl hc

/-- Lines that leave a key alone leave it alone in the whole loop. -/
theorem foldl_apply_of_noop (step : Config → GoString → Config)
    (hstep : ∀ c t k, step c t k =
      match step Config.empty t k with
      | some v => some v
      | none => c k)
    (lines : List GoString) (k : GoString)
    (h : ∀ l ∈ lines, step Config.empty l k = none) (c : Config) :
    lines.foldl step c k = c k := by
  induction lines generalizing c with
  | nil => rfl
  | cons l ls ih =>
    rw [List.foldl_cons, ih (fun x hx => h x (List.mem_cons_of_mem _ hx)), hstep,
      h l (List.mem_cons_self _ _)]

/-- The last line that assigns a key decides its value. -/
theorem foldl_last_assignment (step : Config → GoString → Config)
    (hstep : ∀ c t k, step c t k =
      match step Config.empty t k with
      | some v => some v
      | none => c k)
    (before after : List GoString) (line k v : GoString)
    (hline : step Config.empty line k = some v)
    (hafter : ∀ l ∈ after, step Config.empty l k = none) (c : Config) :
    (before ++ line :: after).foldl step c k = some v := by
  rw [List.foldl_append, List.foldl_cons, foldl_apply_of_noop step hstep after k hafter,
    hstep, hline]

namespace ssh

theorem ssh_parseLine_skip (config : Config) (text : GoString)
    (h : strings.TrimSpace text = [] ∨
      strings.HasPrefix (strings.TrimSpace text) "#".toList = true) :
    parseLine config text = config := by
  unfold parseLine
  rcases h with h | h
  · simp [h]
  · simp only [h]
    simp

/-- The SSH grammar never records an empty value. -/
theorem ssh_parseLine_value_ne_nil (config : Config) (text k v : GoString)
    (h : parseLine config text k = some v) : v ≠ [] ∨ config k = some v := by
  by_cases h1 : strings.TrimSpace text = []
  · rw [ssh_parseLine_skip config text (Or.inl h1)] at h; exact Or.inr h
  by_cases h2 : strings.HasPrefix (strings.TrimSpace text) "#".toList = true
  · rw [ssh_parseLine_skip config text (Or.inr h2)] at h; exact Or.inr h
  by_cases h3 : ' ' ∈ strings.TrimSpace text
  · obtain ⟨b, a, hs, _, hp⟩ := ssh_parseLine_of_mem config text h1 (by simpa using h2) h3
    rw [hp, Config.set_apply] at h
    split at h
    · left
      have := (strings.trimmed_halves_ne_nil text b a hs).2
      simp at h
      rw [← h]; exact this
    · exact Or.inr h
  · rw [ssh_parseLine_of_not_mem config text h3] at h; exact Or.inr h

theorem ssh_parseConfig_value_ne_nil (lines : List GoString) (k v : GoString)
    (h : parseConfig lines k = some v) : v ≠ [] := by
  unfold parseConfig at h
  have key : ∀ (ls : List GoString) (c : Config), (∀ w, c k = some w → w ≠ []) →
      ∀ w, ls.foldl parseLine c k = some w → w ≠ [] := by
    intro ls
    induction ls with
    | nil => intro c hc w hw; exact hc w hw
    | cons l ls ih =>
      intro c hc w hw
      refine ih (parseLine c l) ?_ w hw
      intro u hu
      rcases ssh_parseLine_value_ne_nil c l k u hu with h1 | h1
      · exact h1
      · exact hc u h1
  exact key lines Config.empty (by intro w hw; simp [Config.empty] at hw) v h

theorem ssh_recommended_ne_nil (rule : SSHRule) (h : rule ∈ getDefaultRules) :
    rule.RecommendedValue ≠ [] := by
  simp only [getDefaultRules, List.mem_cons, List.mem_singleton, List.not_mem_nil,
    or_false] at h
  rcases h with rfl | rfl | rfl | rfl | rfl | rfl | rfl | rfl | rfl | rfl <;> decide

end ssh

namespace sysctl

theorem sysctl_recommended_ne_nil (rule : SysctlRule) (h : rule ∈ getDefaultRules) :
    rule.RecommendedValue ≠ [] := by
  simp only [getDefaultRules, List.mem_cons, List.mem_singleton, List.not_mem_nil,
    or_false] at h
  rcases h with rfl | rfl | rfl | rfl | rfl | rfl | rfl | rfl | rfl | rfl | rfl | rfl | rfl |
    rfl | rfl <;> decide

end sysctl

/-! ## Auxiliary facts about the rule loops -/

namespace ssh

theorem ssh_checkRule_append (config : Config) (issues : List report.Issue) (rule : SSHRule) :
    checkRule config issues rule = issues ++ checkRule config [] rule := by
  unfold checkRule
  split
  · simp
  · split <;> simp

theorem ssh_mem_foldl_checkRule (config : Config) (rules : List SSHRule)
    (acc : List report.Issue) (issue : report.Issue) :
    issue ∈ rules.foldl (checkRule config) acc ↔
      issue ∈ acc ∨ ∃ rule ∈ rules, issue ∈ checkRule config [] rule := by
  induction rules generalizing acc with
  | nil => simp
  | cons r rs ih =>
    rw [List.foldl_cons, ih, ssh_checkRule_append config acc r]
    simp only [List.mem_append, List.mem_cons, exists_eq_or_imp]
    tauto

theorem ssh_checkRule_present (config : Config) (issues : List report.Issue) (rule : SSHRule)
    (v : GoString) (hv : config rule.Key = some v) :
    checkRule config issues rule =
      if rule.ComparisonFunc v rule.RecommendedValue = true then issues
      else issues ++ [{ Category := "ssh".toList
                        Severity := rule.Severity
                        Description := rule.Description
                        CurrentValue := v
                        RecommendedValue := rule.RecommendedValue
                        FixCommand := "sed -i 's/^".toList ++ rule.Key ++ ".*/".toList ++
                          rule.Key ++ " ".toList ++ rule.RecommendedValue ++
                          "/' /etc/ssh/sshd_config".toList }] := by
  unfold checkRule
  rw [hv]
  simp only []
  cases rule.ComparisonFunc v rule.RecommendedValue <;> rfl

/-- The issues of the rule loop are the issues of its rules. -/
theorem ssh_mem_checkRules (config : Config) (rules : List SSHRule) (issue : report.Issue) :
    issue ∈ checkRules rules config ↔ ∃ rule ∈ rules, issue ∈ checkRule config [] rule := by
  unfold checkRules
  rw [ssh_mem_foldl_checkRule]
  simp

end ssh

namespace sysctl

theorem sysctl_checkRule_append (config : Config) (issues : List report.Issue) (rule : SysctlRule) :
    checkRule config issues rule = issues ++ checkRule config [] rule := by
  unfold checkRule
  split
  · simp
  · split <;> simp

theorem sysctl_mem_foldl_checkRule (config : Config) (rules : List SysctlRule)
    (acc : List report.Issue) (issue : report.Issue) :
    issue ∈ rules.foldl (checkRule config) acc ↔
      issue ∈ acc ∨ ∃ rule ∈ rules, issue ∈ checkRule config [] rule := by
  induction rules generalizing acc with
  | nil => simp
  | cons r rs ih =>
    rw [List.foldl_cons, ih, sysctl_checkRule_append config acc r]
    simp only [List.mem_append, List.mem_cons, exists_eq_or_imp]
    tauto

theorem sysctl_checkRule_present (config : Config) (issues : List report.Issue) (rule : SysctlRule)
    (v : GoString) (hv : config rule.Key = some v) :
    checkRule config issues rule =
      if rule.ComparisonFunc v rule.RecommendedValue = true then issues
      else issues ++ [{ Category := "sysctl".toList
                        Severity := rule.Severity
                        Description := rule.Description
                        CurrentValue := v
                        RecommendedValue := rule.RecommendedValue
                        FixCommand := "sed -i 's/^".toList ++ rule.Key ++ ".*/".toList ++
                          rule.Key ++ " = ".toList ++ rule.RecommendedValue ++
                          "/' /etc/sysctl.conf && sysctl -p".toList }] := by
  unfold checkRule
  rw [hv]
  simp only []
  cases rule.ComparisonFunc v rule.RecommendedValue <;> rfl

theorem sysctl_mem_checkRules (config : Config) (rules : List SysctlRule) (issue : report.Issue) :
    issue ∈ checkRules rules config ↔ ∃ rule ∈ rules, issue ∈ checkRule config [] rule := by
  unfold checkRules
  rw [sysctl_mem_foldl_checkRule]
  simp

theorem parseDropInLine_keeps (config : Config) (text k v : GoString)
    (h : config k = some v) : parseDropInLine config text k = some v := by
  unfold parseDropInLine
  simp only []
  split
  · exact h
  · split
    · exact h
    · generalize strings.TrimSpace
        ((strings.SplitN (strings.TrimSpace text) "=".toList 2).getD 0 []) = key
      generalize strings.TrimSpace
        ((strings.SplitN (strings.TrimSpace text) "=".toList 2).getD 1 []) = value
      cases hk : config key with
      | none =>
        simp only [Config.set_apply]
        split
        · rename_i e
          rw [e, hk] at h
          simp at h
        · exact h
      | some w => exact h

theorem parseDropInLine_changes (config : Config) (text k : GoString)
    (h : parseDropInLine config text k ≠ config k) : config k = none := by
  cases hk : config k with
  | none => rfl
  | some v => exact absurd ((parseDropInLine_keeps config text k v hk).trans hk.symm) h

theorem foldl_parseDropInLine_keeps (tokens : List GoString) (config : Config)
    (k v : GoString) (h : config k = some v) :
    tokens.foldl parseDropInLine config k = some v := by
  induction tokens generalizing config with
  | nil => exact h
  | cons t ts ih => exact ih _ (parseDropInLine_keeps config t k v h)

theorem readDropIns_keeps (files : List DirEntry) (config merged : Config) (k v : GoString)
    (h : config k = some v) (hr : readDropIns files config = .ok merged) :
    merged k = some v := by
  induction files generalizing config with
  | nil =>
    simp only [readDropIns, Except.ok.injEq] at hr
    rw [← hr]; exact h
  | cons f fs ih =>
    unfold readDropIns at hr
    split at hr
    · split at hr
      · simp at hr
      · simp at hr
      · split at hr
        · simp at hr
        · exact ih _ (foldl_parseDropInLine_keeps _ config k v h) hr
    · exact ih config h hr

theorem readDropIns_ok (files : List DirEntry) (config : Config)
    (h : ∀ f ∈ files, ∃ tokens, f.file = .readable tokens false) :
    ∃ merged, readDropIns files config = .ok merged := by
  induction files generalizing config with
  | nil => exact ⟨config, rfl⟩
  | cons f fs ih =>
    obtain ⟨tokens, ht⟩ := h f (List.mem_cons_self _ _)
    have hfs : ∀ g ∈ fs, ∃ tokens, g.file = .readable tokens false :=
      fun g hg => h g (List.mem_cons_of_mem _ hg)
    unfold readDropIns
    split
    · rw [ht]
      simpa using ih _ hfs
    · exact ih _ hfs

/-- A drop-in line keeps what the mapping has and otherwise acts as on the empty mapping. -/
theorem parseDropInLine_apply (config : Config) (text k : GoString) :
    parseDropInLine config text k =
      match config k with
      | some w => some w
      | none => parseDropInLine Config.empty text k := by
  cases hk : config k with
  | some w => exact parseDropInLine_keeps config text k w hk
  | none =>
    simp only []
    unfold parseDropInLine
    simp only []
    split
    · simp [hk, Config.empty]
    · split
      · simp [hk, Config.empty]
      · generalize strings.TrimSpace
          ((strings.SplitN (strings.TrimSpace text) "=".toList 2).getD 0 []) = key
        generalize strings.TrimSpace
          ((strings.SplitN (strings.TrimSpace text) "=".toList 2).getD 1 []) = value
        have he : Config.empty key = none := rfl
        rw [he]
        simp only []
        by_cases e : k = key
        · subst e
          rw [hk]
          simp [Config.set_apply]
        · cases hkey : config key with
          | none => simp [Config.set_apply, e, hk, Config.empty]
          | some w => simp [Config.set_apply, e, hk, Config.empty]

theorem foldl_parseDropInLine_noop (tokens : List GoString) (config : Config) (k : GoString)
    (hk : config k = none)
    (h : ∀ l ∈ tokens, parseDropInLine Config.empty l k = none) :
    tokens.foldl parseDropInLine config k = none := by
  induction tokens generalizing config with
  | nil => exact hk
  | cons t ts ih =>
    refine ih _ ?_ (fun l hl => h l (List.mem_cons_of_mem _ hl))
    rw [parseDropInLine_apply, hk]
    exact h t (List.mem_cons_self _ _)

/-- Within one drop-in file the first line that assigns an absent key decides its value. -/
theorem foldl_parseDropInLine_first (before after : List GoString) (line k v : GoString)
    (config : Config) (hk : config k = none)
    (hbefore : ∀ l ∈ before, parseDropInLine Config.empty l k = none)
    (hline : parseDropInLine Config.empty line k = some v) :
    (before ++ line :: after).foldl parseDropInLine config k = some v := by
  rw [List.foldl_append, List.foldl_cons]
  apply foldl_parseDropInLine_keeps
  rw [parseDropInLine_apply, foldl_parseDropInLine_noop before config k hk hbefore]
  exact hline

end sysctl

/-- Go's `<=` on strings is the lexicographic order of the code points. -/
theorem stringLE_iff_lex (a b : GoString) :
    stringLE a b = true ↔ a = b ∨ List.Lex (fun x y : Char => x.toNat < y.toNat) a b := by
  induction a generalizing b with
  | nil =>
    cases b with
    | nil => simp [stringLE]
    | cons y ys => simp [stringLE, List.Lex.nil]
  | cons x xs ih =>
    cases b with
    | nil =>
      simp only [stringLE]
      constructor
      · intro h; simp at h
      · intro h
        rcases h with h | h
        · simp at h
        · cases h
    | cons y ys =>
      simp only [stringLE]
      by_cases h1 : x.toNat < y.toNat
      · simp only [h1, if_true, true_iff]
        exact Or.inr (List.Lex.rel h1)
      · by_cases h2 : y.toNat < x.toNat
        · simp only [h1, h2, if_true, if_false]
          constructor
          · intro h; simp at h
          · intro h
            rcases h with h | h
            · simp only [List.cons.injEq] at h
              rw [h.1] at h2
              exact absurd h2 (Nat.lt_irrefl _)
            · cases h with
              | cons h' => exact absurd h2 (Nat.lt_irrefl _)
              | rel h' => exact absurd h' h1
        · have hxy : x = y := by
            apply Char.ext
            apply UInt32.ext
            have : x.toNat = y.toNat := Nat.le_antisymm (Nat.not_lt.mp h2) (Nat.not_lt.mp h1)
            exact this
          subst hxy
          simp only [h1, if_false, ih ys]
          constructor
          · intro h
            rcases h with h | h
            · exact Or.inl (by rw [h])
            · exact Or.inr (List.Lex.cons h)
          · intro h
            rcases h with h | h
            · simp only [List.cons.injEq, true_and] at h
              exact Or.inl h
            · cases h with
              | cons h' => exact Or.inr h'
              | rel h' => exact absurd h' h1

/-! ## Auxiliary facts about `strconv.Atoi` -/

namespace strconv

theorem digitFold_ge (cs : GoString) (n : Nat) :
    n ≤ cs.foldl (fun acc c => acc * 10 + (c.toNat - 48)) n := by
  induction cs generalizing n with
  | nil => exact Nat.le_refl _
  | cons c cs ih =>
    rw [List.foldl_cons]
    exact Nat.le_trans (by omega) (ih _)

theorem digitFold_lt (cs : GoString) (n : Nat) (h : ∀ c ∈ cs, IsDigit c) :
    cs.foldl (fun acc c => acc * 10 + (c.toNat - 48)) n < (n + 1) * 10 ^ cs.length := by
  induction cs generalizing n with
  | nil => simp
  | cons c cs ih =>
    rw [List.foldl_cons]
    have hc := h c (List.mem_cons_self _ _)
    unfold IsDigit at hc
    have := ih (n * 10 + (c.toNat - 48)) (fun x hx => h x (List.mem_cons_of_mem _ hx))
    refine Nat.lt_of_lt_of_le this ?_
    rw [List.length_cons, Nat.pow_succ, Nat.mul_comm (10 ^ cs.length) 10, ← Nat.mul_assoc]
    apply Nat.mul_le_mul_right
    omega

theorem parseUintLoop_ok_iff (cs : GoString) (n m : Nat) (hn : n < 2 ^ 64) :
    parseUintLoop cs n = .ok m ↔
      (∀ c ∈ cs, IsDigit c) ∧ cs.foldl (fun acc c => acc * 10 + (c.toNat - 48)) n = m ∧
        m < 2 ^ 64 := by
  induction cs generalizing n with
  | nil =>
    simp only [parseUintLoop, Except.ok.injEq, List.not_mem_nil, false_implies, implies_true,
      List.foldl_nil, true_and]
    constructor
    · intro h; subst h; exact ⟨rfl, hn⟩
    · intro h; exact h.1
  | cons c cs ih =>
    unfold parseUintLoop
    by_cases hd : 48 ≤ c.toNat ∧ c.toNat ≤ 57
    · rw [if_pos hd]
      by_cases hov : n * 10 + (c.toNat - 48) < 2 ^ 64
      · have hcut : ¬ n ≥ (2 ^ 64 - 1) / 10 + 1 := by
          norm_num
          omega
        have hmod : (n * 10 + (c.toNat - 48)) % 2 ^ 64 = n * 10 + (c.toNat - 48) :=
          Nat.mod_eq_of_lt hov
        simp only [hcut, if_false, hmod]
        have hno : ¬ (n * 10 + (c.toNat - 48) < n * 10 ∨
            n * 10 + (c.toNat - 48) > 2 ^ 64 - 1) := by
          norm_num at hov ⊢
          omega
        rw [if_neg hno, ih _ hov, List.foldl_cons]
        constructor
        · rintro ⟨h1, h2, h3⟩
          refine ⟨?_, h2, h3⟩
          intro x hx
          rcases List.mem_cons.mp hx with e | e
          · rw [e]; exact hd
          · exact h1 x e
        · rintro ⟨h1, h2, h3⟩
          exact ⟨fun x hx => h1 x (List.mem_cons_of_mem _ hx), h2, h3⟩
      · have hfalse : ¬ ((∀ x ∈ c :: cs, IsDigit x) ∧
            (c :: cs).foldl (fun acc c => acc * 10 + (c.toNat - 48)) n = m ∧ m < 2 ^ 64) := by
          rintro ⟨_, h2, h3⟩
          rw [List.foldl_cons] at h2
          have := digitFold_ge cs (n * 10 + (c.toNat - 48))
          rw [h2] at this
          omega
        simp only [hfalse, iff_false]
        by_cases hcut : n ≥ (2 ^ 64 - 1) / 10 + 1
        · simp only [hcut, if_true]
          intro h; cases h
        · simp only [hcut, if_false]
          have hwrap : (n * 10 + (c.toNat - 48)) % 2 ^ 64 < n * 10 := by
            norm_num at hov hcut ⊢
            omega
          simp only [hwrap, true_or, if_true]
          intro h; cases h
    · rw [if_neg hd]
      constructor
      · intro h; cases h
      · rintro ⟨h1, _⟩
        exact absurd (h1 c (List.mem_cons_self _ _)) hd


theorem atoiFastLoop_ok_iff (cs : GoString) (n : Nat) (k : Int) :
    atoiFastLoop cs (n : Int) = .ok k ↔
      (∀ c ∈ cs, IsDigit c) ∧
        k = ((cs.foldl (fun acc c => acc * 10 + (c.toNat - 48)) n : Nat) : Int) := by
  induction cs generalizing n with
  | nil =>
    simp only [atoiFastLoop, Except.ok.injEq, List.not_mem_nil, false_implies, implies_true,
      List.foldl_nil, true_and]
    exact eq_comm
  | cons c cs ih =>
    unfold atoiFastLoop
    by_cases hd : 48 ≤ c.toNat ∧ c.toNat ≤ 57
    · rw [if_pos hd]
      have hcast : (n : Int) * 10 + ((c.toNat - 48 : Nat) : Int) =
          ((n * 10 + (c.toNat - 48) : Nat) : Int) := by
        push_cast
        rfl
      rw [hcast, ih, List.foldl_cons]
      constructor
      · rintro ⟨h1, h2⟩
        refine ⟨?_, h2⟩
        intro x hx
        rcases List.mem_cons.mp hx with e | e
        · rw [e]; exact hd
        · exact h1 x e
      · rintro ⟨h1, h2⟩
        exact ⟨fun x hx => h1 x (List.mem_cons_of_mem _ hx), h2⟩
    · rw [if_neg hd]
      constructor
      · intro h; cases h
      · rintro ⟨h1, _⟩
        exact absurd (h1 c (List.mem_cons_self _ _)) hd

theorem ParseUint_ok_iff (cs : GoString) (un : Nat) :
    ParseUint cs = .ok un ↔
      cs ≠ [] ∧ (∀ c ∈ cs, IsDigit c) ∧ decimalValue cs = un ∧ un < 2 ^ 64 := by
  unfold ParseUint decimalValue
  by_cases h : cs = []
  · rw [if_pos h]
    constructor
    · intro h'; cases h'
    · intro h'; exact absurd h h'.1
  · rw [if_neg h, parseUintLoop_ok_iff cs 0 un (by norm_num)]
    simp [h]

theorem decimalValue_lt (cs : GoString) (h : ∀ c ∈ cs, IsDigit c) (hl : cs.length < 19) :
    decimalValue cs < 10 ^ 18 := by
  have h1 := digitFold_lt cs 0 h
  have h2 : 10 ^ cs.length ≤ 10 ^ 18 := Nat.pow_le_pow_right (by norm_num) (by omega)
  unfold decimalValue
  omega


/-- The fast path of `Atoi` on a string of fewer than 19 digits. -/
theorem atoiFast_ok_iff (cs : GoString) (k : Int) :
    atoiFastLoop cs 0 = .ok k ↔ (∀ c ∈ cs, IsDigit c) ∧ k = (decimalValue cs : Int) := by
  have := atoiFastLoop_ok_iff cs 0 k
  simpa [decimalValue] using this

theorem Atoi_minus (cs : GoString) (n : Int) :
    Atoi ('-' :: cs) = .ok n ↔
      cs ≠ [] ∧ (∀ c ∈ cs, IsDigit c) ∧ n = - (decimalValue cs : Int) ∧
        decimalValue cs ≤ 2 ^ 63 := by
  unfold Atoi
  by_cases hlen : 0 < ('-' :: cs).length ∧ ('-' :: cs).length < 19
  · rw [if_pos hlen]
    simp only [List.head?_cons, true_or, if_true, List.tail_cons, true_and]
    by_cases hcs : cs = []
    · subst hcs
      simp
    · have hl : ¬ cs.length < 1 := by
        cases cs with
        | nil => exact absurd rfl hcs
        | cons x xs => simp
      rw [if_neg hl]
      cases hA : atoiFastLoop cs 0 with
      | error e =>
        simp only []
        constructor
        · intro h; cases h
        · rintro ⟨_, hd, _, _⟩
          have := (atoiFast_ok_iff cs (decimalValue cs)).mpr ⟨hd, rfl⟩
          rw [hA] at this
          cases this
      | ok k =>
        obtain ⟨hd, hk⟩ := (atoiFast_ok_iff cs k).mp hA
        have hlt := decimalValue_lt cs hd (by simp at hlen; omega)
        simp only [Except.ok.injEq]
        constructor
        · intro h
          refine ⟨hcs, hd, ?_, by omega⟩
          rw [← h, hk]
        · rintro ⟨_, _, h, _⟩
          rw [h, hk]
  · rw [if_neg hlen]
    unfold ParseInt
    simp only [List.head?_cons, or_true, if_true, List.tail_cons, true_and, reduceCtorEq,
      if_false, not_true_eq_false, false_and]
    cases hU : ParseUint cs with
    | error e =>
      have hno : ¬ (cs ≠ [] ∧ (∀ c ∈ cs, IsDigit c) ∧ n = - (decimalValue cs : Int) ∧
          decimalValue cs ≤ 2 ^ 63) := by
        rintro ⟨h1, h2, _, h4⟩
        have := (ParseUint_ok_iff cs (decimalValue cs)).mpr ⟨h1, h2, rfl, by omega⟩
        rw [hU] at this
        cases this
      cases e <;> simp only [hno, iff_false] <;> intro h <;> cases h
    | ok un =>
      obtain ⟨h1, h2, h3, h4⟩ := (ParseUint_ok_iff cs un).mp hU
      simp only []
      by_cases hr : un > 2 ^ 63
      · rw [if_pos hr]
        constructor
        · intro h; cases h
        · rintro ⟨_, _, _, h⟩
          omega
      · rw [if_neg hr]
        simp only [Except.ok.injEq]
        constructor
        · intro h
          refine ⟨h1, h2, ?_, by omega⟩
          rw [← h, h3]
        · rintro ⟨_, _, h, _⟩
          rw [h, h3]


theorem Atoi_plus (cs : GoString) (n : Int) :
    Atoi ('+' :: cs) = .ok n ↔
      cs ≠ [] ∧ (∀ c ∈ cs, IsDigit c) ∧ n = (decimalValue cs : Int) ∧
        decimalValue cs < 2 ^ 63 := by
  have hpm : ¬ ('+' = '-') := by decide
  unfold Atoi
  by_cases hlen : 0 < ('+' :: cs).length ∧ ('+' :: cs).length < 19
  · rw [if_pos hlen]
    simp only [List.head?_cons, Option.some.injEq, hpm, or_true, if_true, List.tail_cons,
      true_and, if_false]
    by_cases hcs : cs = []
    · subst hcs
      simp
    · have hl : ¬ cs.length < 1 := by
        cases cs with
        | nil => exact absurd rfl hcs
        | cons x xs => simp
      rw [if_neg hl]
      cases hA : atoiFastLoop cs 0 with
      | error e =>
        simp only []
        constructor
        · intro h; cases h
        · rintro ⟨_, hd, _, _⟩
          have := (atoiFast_ok_iff cs (decimalValue cs)).mpr ⟨hd, rfl⟩
          rw [hA] at this
          cases this
      | ok k =>
        obtain ⟨hd, hk⟩ := (atoiFast_ok_iff cs k).mp hA
        have hlt := decimalValue_lt cs hd (by simp at hlen; omega)
        simp only [Except.ok.injEq]
        constructor
        · intro h
          refine ⟨hcs, hd, ?_, by omega⟩
          rw [← h, hk]
        · rintro ⟨_, _, h, _⟩
          rw [h, hk]
  · rw [if_neg hlen]
    unfold ParseInt
    simp only [List.head?_cons, Option.some.injEq, hpm, true_or, if_true, List.tail_cons,
      reduceCtorEq, if_false, not_false_eq_true, true_and, false_and]
    cases hU : ParseUint cs with
    | error e =>
      have hno : ¬ (cs ≠ [] ∧ (∀ c ∈ cs, IsDigit c) ∧ n = (decimalValue cs : Int) ∧
          decimalValue cs < 2 ^ 63) := by
        rintro ⟨h1, h2, _, h4⟩
        have := (ParseUint_ok_iff cs (decimalValue cs)).mpr ⟨h1, h2, rfl, by omega⟩
        rw [hU] at this
        cases this
      cases e <;> simp only [hno, iff_false] <;> intro h <;> cases h
    | ok un =>
      obtain ⟨h1, h2, h3, h4⟩ := (ParseUint_ok_iff cs un).mp hU
      simp only []
      by_cases hr : un ≥ 2 ^ 63
      · rw [if_pos hr]
        constructor
        · intro h; cases h
        · rintro ⟨_, _, _, h⟩
          omega
      · rw [if_neg hr]
        simp only [Except.ok.injEq]
        constructor
        · intro h
          refine ⟨h1, h2, ?_, by omega⟩
          rw [← h, h3]
        · rintro ⟨_, _, h, _⟩
          rw [h, h3]

theorem Atoi_unsigned (c : Char) (cs : GoString) (n : Int) (hm : c ≠ '-') (hp : c ≠ '+') :
    Atoi (c :: cs) = .ok n ↔
      (∀ x ∈ c :: cs, IsDigit x) ∧ n = (decimalValue (c :: cs) : Int) ∧
        decimalValue (c :: cs) < 2 ^ 63 := by
  unfold Atoi
  by_cases hlen : 0 < (c :: cs).length ∧ (c :: cs).length < 19
  · rw [if_pos hlen]
    simp only [List.head?_cons, Option.some.injEq, hm, hp, or_self, if_false, false_and]
    cases hA : atoiFastLoop (c :: cs) 0 with
    | error e =>
      simp only []
      constructor
      · intro h; cases h
      · rintro ⟨hd, _, _⟩
        have := (atoiFast_ok_iff (c :: cs) (decimalValue (c :: cs))).mpr ⟨hd, rfl⟩
        rw [hA] at this
        cases this
    | ok k =>
      obtain ⟨hd, hk⟩ := (atoiFast_ok_iff (c :: cs) k).mp hA
      have hlt := decimalValue_lt (c :: cs) hd hlen.2
      simp only [Except.ok.injEq]
      constructor
      · intro h
        refine ⟨hd, ?_, by omega⟩
        rw [← h, hk]
      · rintro ⟨_, h, _⟩
        rw [h, hk]
  · rw [if_neg hlen]
    unfold ParseInt
    simp only [List.head?_cons, Option.some.injEq, hm, hp, or_self, if_false, reduceCtorEq,
      not_false_eq_true, true_and, false_and]
    cases hU : ParseUint (c :: cs) with
    | error e =>
      have hno : ¬ ((∀ x ∈ c :: cs, IsDigit x) ∧ n = (decimalValue (c :: cs) : Int) ∧
          decimalValue (c :: cs) < 2 ^ 63) := by
        rintro ⟨h2, _, h4⟩
        have := (ParseUint_ok_iff (c :: cs) (decimalValue (c :: cs))).mpr
          ⟨by simp, h2, rfl, by omega⟩
        rw [hU] at this
        cases this
      cases e <;> simp only [hno, iff_false] <;> intro h <;> cases h
    | ok un =>
      obtain ⟨h1, h2, h3, h4⟩ := (ParseUint_ok_iff (c :: cs) un).mp hU
      simp only []
      by_cases hr : un ≥ 2 ^ 63
      · rw [if_pos hr]
        constructor
        · intro h; cases h
        · rintro ⟨_, _, h⟩
          omega
      · rw [if_neg hr]
        simp only [Except.ok.injEq]
        constructor
        · intro h
          refine ⟨h2, ?_, by omega⟩
          rw [← h, h3]
        · rintro ⟨_, h, _⟩
          rw [h, h3]

/-- What `Atoi` accepts: an optional sign followed by one or more decimal digits, denoting
an integer of the 64-bit range; the result is that integer. -/
theorem Atoi_ok_iff (s : GoString) (n : Int) :
    Atoi s = .ok n ↔
      ∃ digits : GoString, digits ≠ [] ∧ (∀ c ∈ digits, 48 ≤ c.toNat ∧ c.toNat ≤ 57) ∧
        ((s = digits ∨ s = '+' :: digits) ∧ n = (decimalValue digits : Int) ∨
          s = '-' :: digits ∧ n = - (decimalValue digits : Int)) ∧
        - 2 ^ 63 ≤ n ∧ n < 2 ^ 63 := by
  have hdm : ¬ IsDigit '-' := by decide
  have hdp : ¬ IsDigit '+' := by decide
  cases s with
  | nil =>
    constructor
    · intro h; cases h
    · rintro ⟨d, hd, _, h | h, _⟩
      · rcases h.1 with e | e
        · exact absurd e.symm hd
        · cases e
      · cases h.1
  | cons c cs =>
    by_cases hm : c = '-'
    · subst hm
      rw [Atoi_minus]
      constructor
      · rintro ⟨h1, h2, h3, h4⟩
        exact ⟨cs, h1, h2, Or.inr ⟨rfl, h3⟩, by omega, by omega⟩
      · rintro ⟨d, hd, hall, h | h, hlo, hhi⟩
        · rcases h.1 with e | e
          · exact absurd (hall '-' (by rw [← e]; simp)) hdm
          · simp at e
        · have e : cs = d := by simpa using h.1
          subst e
          exact ⟨hd, hall, h.2, by omega⟩
    · by_cases hp : c = '+'
      · subst hp
        rw [Atoi_plus]
        constructor
        · rintro ⟨h1, h2, h3, h4⟩
          exact ⟨cs, h1, h2, Or.inl ⟨Or.inr rfl, h3⟩, by omega, by omega⟩
        · rintro ⟨d, hd, hall, h | h, hlo, hhi⟩
          · rcases h.1 with e | e
            · exact absurd (hall '+' (by rw [← e]; simp)) hdp
            · have e' : cs = d := by simpa using e
              subst e'
              exact ⟨hd, hall, h.2, by omega⟩
          · simp at h
      · rw [Atoi_unsigned c cs n hm hp]
        constructor
        · rintro ⟨h2, h3, h4⟩
          exact ⟨c :: cs, by simp, h2, Or.inl ⟨Or.inl rfl, h3⟩, by omega, by omega⟩
        · rintro ⟨d, hd, hall, h | h, hlo, hhi⟩
          · rcases h.1 with e | e
            · subst e
              exact ⟨hall, h.2, by omega⟩
            · simp at e
              exact absurd e.1 hp
          · simp at h
            exact absurd h.1.1 hm

end strconv

/-! ## Auxiliary facts for the SSH rules -/

/-- A key is absent after the loop exactly when it was absent before and no line assigns
it. -/
theorem foldl_eq_none_iff (step : Config → GoString → Config)
    (hstep : ∀ c t k, step c t k =
      match step Config.empty t k with
      | some v => some v
      | none => c k)
    (lines : List GoString) (k : GoString) (c : Config) :
    lines.foldl step c k = none ↔
      c k = none ∧ ∀ l ∈ lines, step Config.empty l k = none := by
  induction lines generalizing c with
  | nil => simp
  | cons l ls ih =>
    rw [List.foldl_cons, ih, hstep]
    cases hl : step Config.empty l k with
    | none => simp [hl]
    | some v => simp [hl]

namespace ssh

theorem ssh_parseConfig_eq_none_iff (lines : List GoString) (k : GoString) :
    parseConfig lines k = none ↔ ∀ l ∈ lines, parseLine Config.empty l k = none := by
  unfold parseConfig
  rw [foldl_eq_none_iff parseLine ssh_parseLine_apply]
  simp [Config.empty]

theorem ssh_checkRule_description (config : Config) (rule : SSHRule) (issue : report.Issue)
    (h : issue ∈ checkRule config [] rule) : issue.Description = rule.Description := by
  unfold checkRule at h
  split at h
  · simp only [List.nil_append, List.mem_singleton] at h
    rw [h]
  · split at h
    · simp only [List.nil_append, List.mem_singleton] at h
      rw [h]
    · simp at h

theorem ssh_foldl_checkRule_append (config : Config) (rules : List SSHRule)
    (acc : List report.Issue) :
    rules.foldl (checkRule config) acc = acc ++ rules.foldl (checkRule config) [] := by
  induction rules generalizing acc with
  | nil => simp
  | cons r rs ih =>
    rw [List.foldl_cons, List.foldl_cons, ih (checkRule config acc r),
      ih (checkRule config [] r), ssh_checkRule_append config acc r, List.append_assoc]

/-- The rule loop, rule by rule. -/
theorem ssh_checkRules_cons (config : Config) (rule : SSHRule) (rules : List SSHRule) :
    checkRules (rule :: rules) config = checkRule config [] rule ++ checkRules rules config := by
  unfold checkRules
  rw [List.foldl_cons, ssh_foldl_checkRule_append]

/-- The description of the rule `ClientAliveInterval` belongs to no other SSH rule. -/
theorem ssh_rule_of_description_six (rule : SSHRule) (h : rule ∈ getDefaultRules)
    (hd : rule.Description = (getDefaultRules[6]).Description) :
    rule = getDefaultRules[6] := by
  simp only [getDefaultRules, List.mem_cons, List.mem_singleton, List.not_mem_nil,
    or_false] at h
  rcases h with rfl | rfl | rfl | rfl | rfl | rfl | rfl | rfl | rfl | rfl
  all_goals first
    | rfl
    | exact absurd hd (by decide)

end ssh

/-! ## Auxiliary facts for the report summary -/

namespace report

theorem foldl_countSeverity (issues : List Issue) (s : Summary) :
    (issues.foldl countSeverity s).Critical =
        s.Critical + issues.countP (fun i => i.Severity == SeverityCritical) ∧
      (issues.foldl countSeverity s).Warning =
        s.Warning + issues.countP (fun i => i.Severity == SeverityWarning) ∧
      (issues.foldl countSeverity s).Info =
        s.Info + issues.countP (fun i => i.Severity == SeverityInfo) := by
  have hcw : SeverityCritical ≠ SeverityWarning := by decide
  have hci : SeverityCritical ≠ SeverityInfo := by decide
  have hwi : SeverityWarning ≠ SeverityInfo := by decide
  induction issues generalizing s with
  | nil => simp
  | cons i is ih =>
    rw [List.foldl_cons]
    obtain ⟨h1, h2, h3⟩ := ih (countSeverity s i)
    rw [h1, h2, h3]
    simp only [List.countP_cons]
    unfold countSeverity
    by_cases hc : i.Severity = SeverityCritical
    · simp [hc, hcw, hci]
      omega
    · by_cases hw : i.Severity = SeverityWarning
      · simp [hw, hcw.symm, hwi]
        omega
      · by_cases hi : i.Severity = SeverityInfo
        · simp [hi, hci.symm, hwi.symm]
          omega
        · simp [hc, hw, hi]

theorem length_eq_countP_severities (issues : List Issue) :
    issues.length =
      issues.countP (fun i => i.Severity == SeverityCritical) +
        issues.countP (fun i => i.Severity == SeverityWarning) +
        issues.countP (fun i => i.Severity == SeverityInfo) +
        issues.countP otherSeverity := by
  have hcw : SeverityCritical ≠ SeverityWarning := by decide
  have hci : SeverityCritical ≠ SeverityInfo := by decide
  have hwi : SeverityWarning ≠ SeverityInfo := by decide
  induction issues with
  | nil => simp
  | cons i is ih =>
    simp only [List.length_cons, List.countP_cons, ih, otherSeverity]
    by_cases hc : i.Severity = SeverityCritical
    · simp [hc, hcw, hci]
      omega
    · by_cases hw : i.Severity = SeverityWarning
      · simp [hw, hcw.symm, hwi]
        omega
      · by_cases hi : i.Severity = SeverityInfo
        · simp [hi, hci.symm, hwi.symm]
          omega
        · simp [hc, hw, hi]
          omega

end report

/-! ## Auxiliary facts for the fix script -/

namespace fixer

theorem foldl_group_apply (issues : List report.Issue)
    (init : GoString → List report.Issue) (category : GoString) :
    issues.foldl
        (fun categories issue =>
          fun c =>
            if c = issue.Category then categories c ++ [issue]
            else categories c)
        init category =
      init category ++ issues.filter (fun issue => issue.Category == category) := by
  induction issues generalizing init with
  | nil => simp
  | cons i is ih =>
    rw [List.foldl_cons, ih, List.filter_cons]
    by_cases h : category = i.Category
    · simp [h]
    · have h' : ¬ i.Category = category := fun e => h e.symm
      simp [h, h']

/-- The grouping map holds, for each category, the issues of that category in the order of
the collection. -/
theorem groupByCategory_eq_filter (issues : List report.Issue) (category : GoString) :
    groupByCategory issues category =
      issues.filter (fun issue => issue.Category == category) := by
  unfold groupByCategory
  rw [foldl_group_apply]
  rfl

theorem foldl_append_blocks {α : Type} (block : α → GoString) (l : List α) (sb : GoString) :
    l.foldl (fun acc x => acc ++ block x) sb = sb ++ (l.map block).flatten := by
  induction l generalizing sb with
  | nil => simp
  | cons x xs ih =>
    rw [List.foldl_cons, ih, List.map_cons, List.flatten_cons, List.append_assoc]

/-- The script, section by section. -/
theorem scriptContent_eq (g : Generator) (issues : List report.Issue) (now : GoString)
    (toUpper : GoString → GoString) (order : List GoString) :
    g.scriptContent issues now toUpper order =
      scriptHead now ++ (order.map (g.sectionText issues toUpper)).flatten ++ scriptFoot := by
  unfold Generator.scriptContent
  simp only []
  have hstep : ∀ (sb category : GoString),
      (groupByCategory issues category).foldl
          (fun sb3 issue => sb3 ++ g.remediationBlock issue)
          (sb ++ sectionHead toUpper category ++ backupLines category) =
        sb ++ g.sectionText issues toUpper category := by
    intro sb category
    rw [foldl_append_blocks, groupByCategory_eq_filter]
    unfold Generator.sectionText
    simp only [List.append_assoc]
  simp only [hstep]
  rw [foldl_append_blocks (g.sectionText issues toUpper) order (scriptHead now)]

theorem sum_map_indicator_of_not_mem (order : List GoString) (c : GoString)
    (h : c ∉ order) : (order.map (fun x => if c = x then 1 else 0)).sum = 0 := by
  induction order with
  | nil => simp
  | cons x xs ih =>
    have hx : ¬ c = x := fun e => h (by simp [e])
    have hxs : c ∉ xs := fun e => h (List.mem_cons_of_mem _ e)
    rw [List.map_cons, List.sum_cons, ih hxs, if_neg hx]

theorem sum_map_indicator (order : List GoString) (hnodup : order.Nodup) (c : GoString)
    (h : c ∈ order) : (order.map (fun x => if c = x then 1 else 0)).sum = 1 := by
  induction order with
  | nil => simp at h
  | cons x xs ih =>
    have hx := (List.nodup_cons.mp hnodup)
    rw [List.map_cons, List.sum_cons]
    by_cases e : c = x
    · subst e
      rw [if_pos rfl, sum_map_indicator_of_not_mem xs c hx.1]
    · rw [if_neg e, ih hx.2 (by
        rcases List.mem_cons.mp h with h' | h'
        · exact absurd h' e
        · exact h')]

/-- The sections of an iteration order that visits every category once hold as many issues
as the collection. -/
theorem sum_filter_length (order : List GoString) (hnodup : order.Nodup)
    (issues : List report.Issue) (hcov : ∀ i ∈ issues, i.Category ∈ order) :
    (order.map
      (fun c => (issues.filter (fun issue => issue.Category == c)).length)).sum =
        issues.length := by
  induction issues with
  | nil => simp
  | cons i is ih =>
    have hrest := ih (fun x hx => hcov x (List.mem_cons_of_mem _ hx))
    have hmem := hcov i (List.mem_cons_self _ _)
    have hfun : (fun c => ((i :: is).filter (fun issue => issue.Category == c)).length) =
        fun c => (is.filter (fun issue => issue.Category == c)).length +
          (if i.Category = c then 1 else 0) := by
      funext c
      rw [List.filter_cons]
      by_cases h : i.Category = c
      · simp [h]
      · simp [h]
    rw [hfun, List.sum_map_add, hrest, sum_map_indicator order hnodup _ hmem,
      List.length_cons]

end fixer

/-! ## Auxiliary facts for the services analyzer -/

namespace services

/-- The rule loop appends the issues of the rules that accept the name, in table order. -/
theorem checkService_eq (rules : List ServiceRule)
    (mk : ServiceRule → GoString → report.Issue) (issues : List report.Issue)
    (name : GoString) :
    checkService rules mk issues name =
      issues ++ (rules.filter fun rule => rule.CheckFunc name).map fun rule => mk rule name := by
  unfold checkService
  induction rules generalizing issues with
  | nil => simp
  | cons r rs ih =>
    rw [List.foldl_cons, ih, List.filter_cons]
    by_cases h : r.CheckFunc name = true
    · simp [h]
    · simp [h]

theorem matchingIssues_nil (rules : List ServiceRule)
    (mk : ServiceRule → GoString → report.Issue) : matchingIssues rules mk [] = [] := rfl

theorem matchingIssues_cons (rules : List ServiceRule)
    (mk : ServiceRule → GoString → report.Issue) (name : GoString) (names : List GoString) :
    matchingIssues rules mk (name :: names) =
      ((rules.filter fun rule => rule.CheckFunc name).map fun rule => mk rule name) ++
        matchingIssues rules mk names := by
  unfold matchingIssues
  rw [List.map_cons, List.flatten_cons]

theorem matchingIssues_append (rules : List ServiceRule)
    (mk : ServiceRule → GoString → report.Issue) (xs ys : List GoString) :
    matchingIssues rules mk (xs ++ ys) =
      matchingIssues rules mk xs ++ matchingIssues rules mk ys := by
  unfold matchingIssues
  rw [List.map_append, List.flatten_append]

theorem matchingIssues_length (rules : List ServiceRule)
    (mk : ServiceRule → GoString → report.Issue) (names : List GoString) :
    (matchingIssues rules mk names).length =
      (names.map fun name => rules.countP fun rule => rule.CheckFunc name).sum := by
  induction names with
  | nil => rfl
  | cons n ns ih =>
    rw [matchingIssues_cons, List.length_append, ih, List.map_cons, List.sum_cons,
      List.length_map, List.countP_eq_length_filter]

theorem foldl_systemdDir (rules : List ServiceRule) (files : List DirEntry)
    (acc : List report.Issue) :
    files.foldl
        (fun issues file =>
          if file.IsDir then issues
          else checkService rules enabledIssue issues (unitName file.Name))
        acc =
      acc ++ matchingIssues rules enabledIssue
        ((files.filter fun file => !file.IsDir).map fun file => unitName file.Name) := by
  induction files generalizing acc with
  | nil => simp [matchingIssues_nil]
  | cons f fs ih =>
    rw [List.foldl_cons, ih, List.filter_cons]
    cases hd : f.IsDir with
    | true => simp
    | false =>
      simp only [Bool.false_eq_true, if_false, Bool.not_false, if_true, List.map_cons]
      rw [checkService_eq, matchingIssues_cons, List.append_assoc]

theorem foldl_systemctl (rules : List ServiceRule) (lines : List GoString)
    (acc : List report.Issue) :
    lines.foldl
        (fun issues service =>
          if service = [] then issues
          else
            match strings.Fields service with
            | [] => issues
            | field :: _ => checkService rules activeIssue issues (unitName field))
        acc =
      acc ++ matchingIssues rules activeIssue
        ((lines.filterMap fun line => (strings.Fields line).head?).map unitName) := by
  induction lines generalizing acc with
  | nil => simp [matchingIssues_nil]
  | cons l ls ih =>
    rw [List.foldl_cons, ih, List.filterMap_cons]
    by_cases hl : l = []
    · subst hl
      have hf : strings.Fields [] = [] := rfl
      simp [hf]
    · rw [if_neg hl]
      cases hf : strings.Fields l with
      | nil => simp
      | cons field rest =>
        simp only [List.head?_cons, List.map_cons]
        rw [checkService_eq, matchingIssues_cons, List.append_assoc]

theorem checkInitScripts_eq (a : Analyzer) (toLower : GoString → GoString)
    (serviceStatus : GoString → GoString) (files : List DirEntry)
    (acc : List report.Issue) :
    a.checkInitScripts toLower serviceStatus files acc =
      acc ++ matchingIssues a.rules legacyIssue
        ((files.filter fun file =>
          !file.IsDir &&
            (!strings.Contains (toLower (serviceStatus file.Name)) "stopped".toList &&
              !strings.Contains (toLower (serviceStatus file.Name))
                "not running".toList)).map
          fun file => file.Name) := by
  unfold Analyzer.checkInitScripts
  induction files generalizing acc with
  | nil => simp [matchingIssues_nil]
  | cons f fs ih =>
    rw [List.foldl_cons, ih, List.filter_cons]
    cases hd : f.IsDir with
    | true => simp
    | false =>
      simp only [Bool.false_eq_true, if_false, Bool.not_false, Bool.true_and]
      by_cases hact : (!strings.Contains (toLower (serviceStatus f.Name)) "stopped".toList &&
          !strings.Contains (toLower (serviceStatus f.Name)) "not running".toList) = true
      · rw [if_pos hact, if_pos hact, List.map_cons, checkService_eq, matchingIssues_cons,
          List.append_assoc]
      · rw [if_neg hact, if_neg hact]

/-- The loop over the init directories, when no directory fails to be read. -/
theorem checkInitDirs_eq (a : Analyzer) (toLower : GoString → GoString) (host : Host)
    (dirs : List GoString) (acc : List report.Issue)
    (h : ∀ d ∈ dirs, host.dirAt d ≠ .readFails) :
    a.checkInitDirs toLower host dirs acc =
      .ok (acc ++ matchingIssues a.rules legacyIssue
        (dirs.map (legacyNames toLower host)).flatten) := by
  induction dirs generalizing acc with
  | nil => simp [Analyzer.checkInitDirs, matchingIssues_nil]
  | cons d ds ih =>
    have hd := h d (List.mem_cons_self _ _)
    have hds : ∀ x ∈ ds, host.dirAt x ≠ .readFails :=
      fun x hx => h x (List.mem_cons_of_mem _ hx)
    unfold Analyzer.checkInitDirs
    rw [List.map_cons, List.flatten_cons, matchingIssues_append]
    cases hs : host.dirAt d with
    | notExist =>
      simp only []
      rw [ih acc hds]
      simp [legacyNames, hs, matchingIssues_nil]
    | readFails => exact absurd hs hd
    | entries files =>
      simp only []
      rw [ih _ hds, checkInitScripts_eq]
      simp [legacyNames, hs, List.append_assoc]

theorem checkInitDirs_ne_unsupported (a : Analyzer) (toLower : GoString → GoString)
    (host : Host) (dirs : List GoString) (acc : List report.Issue) :
    a.checkInitDirs toLower host dirs acc ≠ .error .unsupported := by
  induction dirs generalizing acc with
  | nil => simp [Analyzer.checkInitDirs]
  | cons d ds ih =>
    unfold Analyzer.checkInitDirs
    cases host.dirAt d with
    | notExist => exact ih acc
    | readFails => simp
    | entries files => exact ih _

end services

/-! ## Auxiliary facts about skipped lines and drop-in files -/

/-- A line that leaves every mapping alone can be removed from the input of the loop. -/
theorem foldl_insert_noop {σ : Type} (step : σ → GoString → σ) (line : GoString)
    (h : ∀ c, step c line = c) (before after : List GoString) (c : σ) :
    (before ++ line :: after).foldl step c = (before ++ after).foldl step c := by
  rw [List.foldl_append, List.foldl_cons, h, List.foldl_append]

namespace sysctl

theorem sysctl_parseLine_skip (config : Config) (text : GoString)
    (h : strings.TrimSpace text = [] ∨
      strings.HasPrefix (strings.TrimSpace text) "#".toList = true) :
    parseLine config text = config := by
  unfold parseLine
  rcases h with h | h
  · simp [h]
  · simp only [h]
    simp

theorem parseDropInLine_skip (config : Config) (text : GoString)
    (h : strings.TrimSpace text = [] ∨
      strings.HasPrefix (strings.TrimSpace text) "#".toList = true) :
    parseDropInLine config text = config := by
  unfold parseDropInLine
  rcases h with h | h
  · simp [h]
  · simp only [h]
    simp

theorem parseDropInLine_of_not_mem (config : Config) (text : GoString)
    (h : '=' ∉ strings.TrimSpace text) : parseDropInLine config text = config := by
  unfold parseDropInLine
  simp only [show "=".toList = ['='] from rfl, strings.SplitN_two_of_not_mem _ _ h]
  simp

/-- The loop over a drop-in file keeps what the mapping has and otherwise acts as on the
empty mapping. -/
theorem foldl_parseDropInLine_apply (tokens : List GoString) (config : Config)
    (k : GoString) :
    tokens.foldl parseDropInLine config k =
      match config k with
      | some w => some w
      | none => tokens.foldl parseDropInLine Config.empty k := by
  cases hk : config k with
  | some w => exact foldl_parseDropInLine_keeps tokens config k w hk
  | none =>
    simp only []
    induction tokens generalizing config with
    | nil => simpa [Config.empty] using hk
    | cons t ts ih =>
      rw [List.foldl_cons, List.foldl_cons]
      cases ht : parseDropInLine Config.empty t k with
      | none =>
        have h1 : parseDropInLine config t k = none := by
          rw [parseDropInLine_apply, hk]; exact ht
        rw [ih _ h1, ih _ ht]
      | some v =>
        have h1 : parseDropInLine config t k = some v := by
          rw [parseDropInLine_apply, hk]; exact ht
        rw [foldl_parseDropInLine_keeps ts _ k v h1,
          foldl_parseDropInLine_keeps ts _ k v ht]

theorem readDropIns_cons (file : DirEntry) (files : List DirEntry) (config : Config) :
    readDropIns (file :: files) config =
      if !file.IsDir && strings.HasSuffix file.Name ".conf".toList then
        match file.file with
        | .notExist => .error .dropInOpen
        | .openFails => .error .dropInOpen
        | .readable tokens scanFails =>
          if scanFails then .error .dropInRead
          else readDropIns files (tokens.foldl parseDropInLine config)
      else readDropIns files config := by
  rw [readDropIns]

theorem readDropIns_append (xs ys : List DirEntry) (config : Config) :
    readDropIns (xs ++ ys) config =
      match readDropIns xs config with
      | .error e => .error e
      | .ok mid => readDropIns ys mid := by
  induction xs generalizing config with
  | nil => rfl
  | cons f fs ih =>
    rw [List.cons_append, readDropIns_cons, readDropIns_cons]
    split
    · cases f.file with
      | notExist => rfl
      | openFails => rfl
      | readable tokens scanFails =>
        simp only []
        cases scanFails with
        | true => rfl
        | false => simpa using ih _
    · exact ih config

/-- An entry that is a directory, or whose name does not end in `.conf`, is passed over. -/
theorem readDropIns_skip (entry : DirEntry) (files : List DirEntry) (config : Config)
    (h : entry.IsDir = true ∨ strings.HasSuffix entry.Name ".conf".toList = false) :
    readDropIns (entry :: files) config = readDropIns files config := by
  have hc : (!entry.IsDir && strings.HasSuffix entry.Name ".conf".toList) = false := by
    rcases h with h | h
    · rw [h]; rfl
    · rw [h]; exact Bool.and_false _
  rw [readDropIns_cons, hc]
  simp

/-- Files that do not assign a key leave it absent. -/
theorem readDropIns_none (files : List DirEntry) (config mid : Config) (k : GoString)
    (hk : config k = none)
    (hfiles : ∀ f ∈ files, f.IsDir = false → strings.HasSuffix f.Name ".conf".toList = true →
      ∀ tokens scanFails, f.file = .readable tokens scanFails →
      ∀ l ∈ tokens, parseDropInLine Config.empty l k = none)
    (hr : readDropIns files config = .ok mid) : mid k = none := by
  induction files generalizing config with
  | nil =>
    simp only [readDropIns, Except.ok.injEq] at hr
    rw [← hr]; exact hk
  | cons f fs ih =>
    have hfs : ∀ g ∈ fs, g.IsDir = false → strings.HasSuffix g.Name ".conf".toList = true →
        ∀ tokens scanFails, g.file = .readable tokens scanFails →
        ∀ l ∈ tokens, parseDropInLine Config.empty l k = none :=
      fun g hg => hfiles g (List.mem_cons_of_mem _ hg)
    rw [readDropIns_cons] at hr
    split at hr
    · rename_i hcond
      have hc : f.IsDir = false ∧ strings.HasSuffix f.Name ".conf".toList = true := by
        simpa using hcond
      cases hf : f.file with
      | notExist => rw [hf] at hr; simp at hr
      | openFails => rw [hf] at hr; simp at hr
      | readable tokens scanFails =>
        rw [hf] at hr
        simp only [] at hr
        cases scanFails with
        | true => simp at hr
        | false =>
          simp only [Bool.false_eq_true, if_false] at hr
          refine ih _ ?_ hfs hr
          exact foldl_parseDropInLine_noop tokens config k hk
            (hfiles f (List.mem_cons_self _ _) hc.1 hc.2 tokens false hf)
    · exact ih config hk hfs hr

/-- A directory whose `.conf` files all open and scan yields a merged mapping. -/
theorem readDropIns_ok_conf (files : List DirEntry) (config : Config)
    (h : ∀ f ∈ files, f.IsDir = false → strings.HasSuffix f.Name ".conf".toList = true →
      ∃ tokens, f.file = .readable tokens false) :
    ∃ merged, readDropIns files config = .ok merged := by
  induction files generalizing config with
  | nil => exact ⟨config, rfl⟩
  | cons f fs ih =>
    have hfs : ∀ g ∈ fs, g.IsDir = false → strings.HasSuffix g.Name ".conf".toList = true →
        ∃ tokens, g.file = .readable tokens false :=
      fun g hg => h g (List.mem_cons_of_mem _ hg)
    rw [readDropIns_cons]
    split
    · rename_i hcond
      have hc : f.IsDir = false ∧ strings.HasSuffix f.Name ".conf".toList = true := by
        simpa using hcond
      obtain ⟨tokens, ht⟩ := h f (List.mem_cons_self _ _) hc.1 hc.2
      rw [ht]
      simpa using ih _ hfs
    · exact ih _ hfs

end sysctl

/-! ## Auxiliary facts about the line scanner -/

theorem strings.SplitN_of_not_mem (c : Char) (s : GoString) (n : Nat) (h : c ∉ s) :
    strings.SplitN s [c] (n + 1) = [s] := by
  cases n with
  | zero => rfl
  | succ m => simp [strings.SplitN, strings.cutFirst_single_of_not_mem c s h]

namespace bufio

theorem byteLen_replicate (n : Nat) (c : Char) :
    byteLen (List.replicate n c) = n * utf8.RuneLen c := by
  unfold byteLen
  rw [List.map_replicate, List.sum_replicate]
  rfl

/-- The scanner does not fail when every piece is shorter than its buffer. -/
theorem scanPieces_ok (pieces : List GoString)
    (h : ∀ piece ∈ pieces, byteLen piece < MaxScanTokenSize) :
    (scanPieces pieces).2 = false := by
  induction pieces with
  | nil => rfl
  | cons p rest ih =>
    have hp := h p (List.mem_cons_self _ _)
    have hrest := ih (fun q hq => h q (List.mem_cons_of_mem _ hq))
    cases rest with
    | nil =>
      unfold scanPieces
      simp only []
      by_cases he : p = []
      · rw [if_pos he]
      · rw [if_neg he, if_neg (by omega)]
    | cons q qs =>
      rw [scanPieces]
      rw [if_neg (by omega)]
      exact hrest

/-- One line of at least `MaxScanTokenSize` bytes, without a newline, stops the scanner with
`ErrTooLong`. -/
theorem scanLines_too_long (n : Nat) (c : Char) (hc : c ≠ '\n')
    (hlen : utf8.RuneLen c = 1) (hn : n ≥ MaxScanTokenSize) :
    scanLines (List.replicate n c) = ([], true) := by
  have hmem : '\n' ∉ List.replicate n c := by
    intro hm
    exact hc (List.eq_of_mem_replicate hm).symm
  have hne : List.replicate n c ≠ [] := by
    intro he
    have hl := congrArg List.length he
    rw [List.length_replicate] at hl
    have : MaxScanTokenSize = 65536 := rfl
    rw [List.length_nil] at hl
    omega
  unfold scanLines strings.Split
  rw [show "\n".toList = ['\n'] from rfl, strings.SplitN_of_not_mem '\n' _ _ hmem]
  unfold scanPieces
  simp only []
  rw [if_neg hne, if_pos (by rw [byteLen_replicate, hlen]; omega)]

end bufio

/-! ## Auxiliary facts about the order of lines and of rules -/

/-- A value found after the loop was there before or is assigned by one of the lines. -/
theorem foldl_some_mem (step : Config → GoString → Config)
    (hstep : ∀ c t k, step c t k =
      match step Config.empty t k with
      | some v => some v
      | none => c k)
    (lines : List GoString) (k v : GoString) (c : Config)
    (h : lines.foldl step c k = some v) :
    c k = some v ∨ ∃ l ∈ lines, step Config.empty l k = some v := by
  induction lines generalizing c with
  | nil => exact Or.inl h
  | cons l ls ih =>
    rw [List.foldl_cons] at h
    rcases ih _ h with h1 | ⟨x, hx, hxv⟩
    · rw [hstep] at h1
      cases hl : step Config.empty l k with
      | none => rw [hl] at h1; exact Or.inl h1
      | some w =>
        rw [hl] at h1
        exact Or.inr ⟨l, List.mem_cons_self _ _, by rw [hl]; exact h1⟩
    · exact Or.inr ⟨x, List.mem_cons_of_mem _ hx, hxv⟩

/-- When no two lines assign the same key, every assignment of a line is in the mapping. -/
theorem foldl_of_unique (step : Config → GoString → Config)
    (hstep : ∀ c t k, step c t k =
      match step Config.empty t k with
      | some v => some v
      | none => c k)
    (lines : List GoString)
    (hpw : lines.Pairwise fun l1 l2 =>
      ∀ k, step Config.empty l1 k = none ∨ step Config.empty l2 k = none)
    (l : GoString) (hl : l ∈ lines) (k v : GoString)
    (hv : step Config.empty l k = some v) :
    lines.foldl step Config.empty k = some v := by
  obtain ⟨s, t, hst⟩ := List.append_of_mem hl
  subst hst
  have h1 := (List.pairwise_append.mp hpw).2.1
  have h2 := (List.pairwise_cons.mp h1).1
  apply foldl_last_assignment step hstep s t l k v hv
  intro x hx
  rcases h2 x hx k with h | h
  · rw [hv] at h; cases h
  · exact h

/-- When no two lines assign the same key, the mapping does not depend on the order of the
lines. -/
theorem foldl_perm (step : Config → GoString → Config)
    (hstep : ∀ c t k, step c t k =
      match step Config.empty t k with
      | some v => some v
      | none => c k)
    (lines1 lines2 : List GoString) (hperm : lines1.Perm lines2)
    (hpw : lines1.Pairwise fun l1 l2 =>
      ∀ k, step Config.empty l1 k = none ∨ step Config.empty l2 k = none) :
    lines1.foldl step Config.empty = lines2.foldl step Config.empty := by
  have hpw2 : lines2.Pairwise fun l1 l2 =>
      ∀ k, step Config.empty l1 k = none ∨ step Config.empty l2 k = none :=
    (List.Perm.pairwise_iff (fun h k => (h k).symm) hperm).mp hpw
  funext k
  cases h : lines1.foldl step Config.empty k with
  | none =>
    have h1 := (foldl_eq_none_iff step hstep lines1 k Config.empty).mp h
    symm
    rw [foldl_eq_none_iff step hstep]
    exact ⟨rfl, fun l hl => h1.2 l (hperm.mem_iff.mpr hl)⟩
  | some v =>
    rcases foldl_some_mem step hstep lines1 k v Config.empty h with h0 | ⟨l, hl, hlv⟩
    · cases h0
    · exact (foldl_of_unique step hstep lines2 hpw2 l (hperm.mem_iff.mp hl) k v hlv).symm

namespace ssh

/-- The check of one rule adds its issue when the rule is missing or violated, and nothing
otherwise. -/
theorem ssh_checkRule_eq (config : Config) (rule : SSHRule) :
    checkRule config [] rule =
      if ruleFails config rule then [ruleIssue config rule] else [] := by
  unfold checkRule ruleFails ruleIssue
  cases config rule.Key with
  | none => rfl
  | some v =>
    simp only []
    cases rule.ComparisonFunc v rule.RecommendedValue <;> rfl

/-- The rule loop is the rule table filtered to the rules that are missing or violated. -/
theorem ssh_checkRules_eq (rules : List SSHRule) (config : Config) :
    checkRules rules config = (rules.filter (ruleFails config)).map (ruleIssue config) := by
  induction rules with
  | nil => rfl
  | cons r rs ih =>
    rw [ssh_checkRules_cons, ih, ssh_checkRule_eq, List.filter_cons]
    cases ruleFails config r <;> simp

theorem ssh_ruleIssue_fields (config : Config) (rule : SSHRule) :
    (ruleIssue config rule).Category = "ssh".toList ∧
      (ruleIssue config rule).Severity = rule.Severity := by
  unfold ruleIssue
  cases config rule.Key <;> exact ⟨rfl, rfl⟩

theorem ssh_rule_severity (rule : SSHRule) (h : rule ∈ getDefaultRules) :
    rule.Severity = report.SeverityCritical ∨ rule.Severity = report.SeverityWarning ∨
      rule.Severity = report.SeverityInfo := by
  simp only [getDefaultRules, List.mem_cons, List.mem_singleton, List.not_mem_nil,
    or_false] at h
  rcases h with rfl | rfl | rfl | rfl | rfl | rfl | rfl | rfl | rfl | rfl <;> decide

/-- What `Analyze` returns when it succeeds. -/
theorem ssh_Analyze_ok (a : Analyzer) (file : FileState) (found : List report.Issue)
    (h : a.Analyze file = .ok found) :
    ∃ tokens, file = .readable tokens false ∧
      found = checkRules a.rules (parseConfig tokens) := by
  cases file with
  | notExist => simp [Analyzer.Analyze] at h
  | openFails => simp [Analyzer.Analyze] at h
  | readable tokens scanFails =>
    cases scanFails with
    | true => simp [Analyzer.Analyze] at h
    | false =>
      simp only [Analyzer.Analyze, Bool.false_eq_true, if_false, Except.ok.injEq] at h
      exact ⟨tokens, rfl, h.symm⟩

end ssh

namespace sysctl

theorem sysctl_foldl_checkRule_append (config : Config) (rules : List SysctlRule)
    (acc : List report.Issue) :
    rules.foldl (checkRule config) acc = acc ++ rules.foldl (checkRule config) [] := by
  induction rules generalizing acc with
  | nil => simp
  | cons r rs ih =>
    rw [List.foldl_cons, List.foldl_cons, ih (checkRule config acc r),
      ih (checkRule config [] r), sysctl_checkRule_append config acc r, List.append_assoc]

theorem sysctl_checkRules_cons (config : Config) (rule : SysctlRule)
    (rules : List SysctlRule) :
    checkRules (rule :: rules) config = checkRule config [] rule ++ checkRules rules config := by
  unfold checkRules
  rw [List.foldl_cons, sysctl_foldl_checkRule_append]

theorem sysctl_checkRule_eq (config : Config) (rule : SysctlRule) :
    checkRule config [] rule =
      if ruleFails config rule then [ruleIssue config rule] else [] := by
  unfold checkRule ruleFails ruleIssue
  cases config rule.Key with
  | none => rfl
  | some v =>
    simp only []
    cases rule.ComparisonFunc v rule.RecommendedValue <;> rfl

theorem sysctl_checkRules_eq (rules : List SysctlRule) (config : Config) :
    checkRules rules config = (rules.filter (ruleFails config)).map (ruleIssue config) := by
  induction rules with
  | nil => rfl
  | cons r rs ih =>
    rw [sysctl_checkRules_cons, ih, sysctl_checkRule_eq, List.filter_cons]
    cases ruleFails config r <;> simp

theorem sysctl_ruleIssue_fields (config : Config) (rule : SysctlRule) :
    (ruleIssue config rule).Category = "sysctl".toList ∧
      (ruleIssue config rule).Severity = rule.Severity := by
  unfold ruleIssue
  cases config rule.Key <;> exact ⟨rfl, rfl⟩

theorem sysctl_rule_severity (rule : SysctlRule) (h : rule ∈ getDefaultRules) :
    rule.Severity = report.SeverityCritical ∨ rule.Severity = report.SeverityWarning ∨
      rule.Severity = report.SeverityInfo := by
  simp only [getDefaultRules, List.mem_cons, List.mem_singleton, List.not_mem_nil,
    or_false] at h
  rcases h with rfl | rfl | rfl | rfl | rfl | rfl | rfl | rfl | rfl | rfl | rfl | rfl | rfl |
    rfl | rfl <;> decide

theorem sysctl_eq_none_iff (lines : List GoString) (k : GoString) :
    parseConfig lines k = none ↔ ∀ l ∈ lines, parseLine Config.empty l k = none := by
  unfold parseConfig
  rw [foldl_eq_none_iff parseLine sysctl_parseLine_apply]
  simp [Config.empty]

/-- What `Analyze` returns when it succeeds. -/
theorem sysctl_Analyze_ok (a : Analyzer) (file : FileState) (dir : DirState)
    (found : List report.Issue) (h : a.Analyze file dir = .ok found) :
    ∃ tokens merged, file = .readable tokens false ∧
      readSysctlDFromPath dir (parseConfig tokens) = .ok merged ∧
      found = checkRules a.rules merged := by
  cases file with
  | notExist => simp [Analyzer.Analyze] at h
  | openFails => simp [Analyzer.Analyze] at h
  | readable tokens scanFails =>
    cases scanFails with
    | true => simp [Analyzer.Analyze] at h
    | false =>
      simp only [Analyzer.Analyze, readSysctlD, Bool.false_eq_true, if_false, ite_self] at h
      cases hr : readSysctlDFromPath dir (parseConfig tokens) with
      | error e => rw [hr] at h; simp at h
      | ok merged =>
        rw [hr] at h
        simp only [Except.ok.injEq] at h
        exact ⟨tokens, merged, rfl, hr, h.symm⟩

end sysctl

namespace services

theorem mem_matchingIssues (rules : List ServiceRule)
    (mk : ServiceRule → GoString → report.Issue) (names : List GoString)
    (issue : report.Issue) (h : issue ∈ matchingIssues rules mk names) :
    ∃ rule ∈ rules, ∃ name ∈ names, issue = mk rule name := by
  unfold matchingIssues at h
  rw [List.mem_flatten] at h
  obtain ⟨l, hl, hil⟩ := h
  rw [List.mem_map] at hl
  obtain ⟨name, hname, rfl⟩ := hl
  rw [List.mem_map] at hil
  obtain ⟨rule, hrule, rfl⟩ := hil
  exact ⟨rule, (List.mem_filter.mp hrule).1, name, hname, rfl⟩

/-- Every issue of a successful `Analyze` is built from a rule of the analyzer by one of the
three strategies. -/
theorem services_Analyze_ok (a : Analyzer) (toLower : GoString → GoString) (host : Host)
    (found : List report.Issue) (h : a.Analyze toLower host = .ok found)
    (issue : report.Issue) (hmem : issue ∈ found) :
    ∃ rule ∈ a.rules, ∃ name,
      issue = enabledIssue rule name ∨ issue = activeIssue rule name ∨
        issue = legacyIssue rule name := by
  have hdirs : ∀ (dirs : List GoString) (acc res : List report.Issue),
      (∀ i ∈ acc, ∃ rule ∈ a.rules, ∃ name, i = legacyIssue rule name) →
      a.checkInitDirs toLower host dirs acc = .ok res →
      ∀ i ∈ res, ∃ rule ∈ a.rules, ∃ name, i = legacyIssue rule name := by
    intro dirs
    induction dirs with
    | nil =>
      intro acc res hacc hres
      simp only [Analyzer.checkInitDirs, Except.ok.injEq] at hres
      rw [← hres]; exact hacc
    | cons d ds ih =>
      intro acc res hacc hres
      unfold Analyzer.checkInitDirs at hres
      cases hd : host.dirAt d with
      | notExist => rw [hd] at hres; exact ih acc res hacc hres
      | readFails => rw [hd] at hres; simp at hres
      | entries files =>
        rw [hd] at hres
        refine ih _ res ?_ hres
        intro i hi
        rw [checkInitScripts_eq, List.mem_append] at hi
        rcases hi with hi | hi
        · exact hacc i hi
        · obtain ⟨rule, hrule, name, _, hin⟩ := mem_matchingIssues _ _ _ i hi
          exact ⟨rule, hrule, name, hin⟩
  have hsd : ∀ (dir : DirState), a.analyzeSystemdDir dir = .ok found →
      ∃ rule ∈ a.rules, ∃ name, issue = enabledIssue rule name := by
    intro dir hdir
    cases dir with
    | notExist => simp [Analyzer.analyzeSystemdDir] at hdir
    | readFails => simp [Analyzer.analyzeSystemdDir] at hdir
    | entries files =>
      simp only [Analyzer.analyzeSystemdDir, Except.ok.injEq] at hdir
      rw [foldl_systemdDir, List.nil_append] at hdir
      rw [← hdir] at hmem
      obtain ⟨rule, hrule, name, _, hin⟩ := mem_matchingIssues _ _ _ issue hmem
      exact ⟨rule, hrule, name, hin⟩
  have hsc : ∀ (output : Option GoString), a.analyzeSystemctl output = .ok found →
      ∃ rule ∈ a.rules, ∃ name, issue = activeIssue rule name := by
    intro output hout
    cases output with
    | none => simp [Analyzer.analyzeSystemctl] at hout
    | some out =>
      simp only [Analyzer.analyzeSystemctl, Except.ok.injEq] at hout
      rw [foldl_systemctl, List.nil_append] at hout
      rw [← hout] at hmem
      obtain ⟨rule, hrule, name, _, hin⟩ := mem_matchingIssues _ _ _ issue hmem
      exact ⟨rule, hrule, name, hin⟩
  unfold Analyzer.Analyze at h
  split at h
  · obtain ⟨rule, hrule, name, hin⟩ := hsd _ h
    exact ⟨rule, hrule, name, Or.inl hin⟩
  · split at h
    · obtain ⟨rule, hrule, name, hin⟩ := hsc _ h
      exact ⟨rule, hrule, name, Or.inr (Or.inl hin)⟩
    · split at h
      · obtain ⟨rule, hrule, name, hin⟩ :=
          hdirs _ [] found (by simp) h issue hmem
        exact ⟨rule, hrule, name, Or.inr (Or.inr hin)⟩
      · simp at h

theorem services_rule_severity (rule : ServiceRule) (h : rule ∈ getDefaultRules) :
    rule.Severity = report.SeverityCritical ∨ rule.Severity = report.SeverityWarning ∨
      rule.Severity = report.SeverityInfo := by
  simp only [getDefaultRules, List.mem_cons, List.mem_singleton, List.not_mem_nil,
    or_false] at h
  rcases h with rfl | rfl | rfl | rfl | rfl | rfl | rfl | rfl | rfl | rfl | rfl | rfl | rfl |
    rfl | rfl | rfl <;> decide

end services

/-- The total of the summary is the sum of its three counts when every severity is one of the
three named ones. -/
theorem report.total_of_named (issues : List report.Issue)
    (hall : ∀ i ∈ issues, i.Severity = report.SeverityCritical ∨
      i.Severity = report.SeverityWarning ∨ i.Severity = report.SeverityInfo) :
    (report.jsonReport issues).Summary.Total =
      (report.jsonReport issues).Summary.Critical +
        (report.jsonReport issues).Summary.Warning +
        (report.jsonReport issues).Summary.Info := by
  obtain ⟨h1, h2, h3⟩ := report.foldl_countSeverity issues ⟨0, 0, 0, 0⟩
  have hlen := report.length_eq_countP_severities issues
  simp only [Nat.zero_add] at h1 h2 h3
  have hT : (report.jsonReport issues).Summary.Total = issues.length := rfl
  have hC : (report.jsonReport issues).Summary.Critical =
      (issues.foldl report.countSeverity ⟨0, 0, 0, 0⟩).Critical := rfl
  have hW : (report.jsonReport issues).Summary.Warning =
      (issues.foldl report.countSeverity ⟨0, 0, 0, 0⟩).Warning := rfl
  have hI : (report.jsonReport issues).Summary.Info =
      (issues.foldl report.countSeverity ⟨0, 0, 0, 0⟩).Info := rfl
  have hother : issues.countP report.otherSeverity = 0 := by
    rw [List.countP_eq_zero]
    intro i hi
    have := hall i hi
    unfold report.otherSeverity
    rcases this with e | e | e <;> simp [e]
  rw [hT, hC, hW, hI, h1, h2, h3]
  omega

/-- What `Analyze` returns once the drop-in directory has been merged. -/
theorem sysctl.sysctl_Analyze_of_merged (a : sysctl.Analyzer) (tokens : List GoString)
    (dir : DirState) (merged : Config)
    (h : sysctl.readSysctlDFromPath dir (sysctl.parseConfig tokens) = .ok merged) :
    a.Analyze (.readable tokens false) dir = .ok (sysctl.checkRules a.rules merged) := by
  simp only [sysctl.Analyzer.Analyze, sysctl.readSysctlD, Bool.false_eq_true, if_false,
    ite_self]
  rw [h]


namespace report

/-- The grouping loop maps a category to the issues of that category, in the order of the
collection. -/
theorem report_groupByCategory_eq (issues : List Issue) (category : GoString) :
    groupByCategory issues category =
      issues.filter (fun issue => issue.Category == category) := by
  unfold groupByCategory
  rw [fixer.foldl_group_apply]
  rfl

/-- The text report, section by section. -/
theorem generateText_eq (issues : List Issue) (toUpper : GoString → GoString)
    (order : List GoString) :
    generateText issues toUpper order =
      textHead ++ (order.map (textSection issues toUpper)).flatten := by
  unfold generateText
  simp only []
  have hstep : ∀ (sb category : GoString),
      (groupByCategory issues category).enum.foldl
          (fun sb3 entry => sb3 ++ textEntry entry.1 entry.2)
          (sb ++ ("== ".toList ++ toUpper category ++ " ==\n".toList)) ++ "\n".toList =
        sb ++ textSection issues toUpper category := by
    intro sb category
    rw [fixer.foldl_append_blocks (fun entry : Nat × Issue => textEntry entry.1 entry.2),
      report_groupByCategory_eq]
    unfold textSection
    simp only [List.append_assoc]
  simp only [hstep]
  exact fixer.foldl_append_blocks (textSection issues toUpper) order textHead

/-- The groups of the categories of a duplicate-free list hold, together, the issues whose
category is in the list. -/
theorem groups_perm_filter (order : List GoString) (hnodup : order.Nodup)
    (issues : List Issue) :
    ((order.map fun c => issues.filter fun issue => issue.Category == c).flatten).Perm
      (issues.filter fun issue => decide (issue.Category ∈ order)) := by
  induction order with
  | nil => simp
  | cons c cs ih =>
    have hc := List.nodup_cons.mp hnodup
    rw [List.map_cons, List.flatten_cons]
    have hsplit := List.filter_append_perm (fun issue : Issue => issue.Category == c)
      (issues.filter fun issue => decide (issue.Category ∈ c :: cs))
    rw [List.filter_filter, List.filter_filter] at hsplit
    have e1 : issues.filter (fun a => (a.Category == c) && decide (a.Category ∈ c :: cs)) =
        issues.filter (fun issue => issue.Category == c) := by
      apply List.filter_congr
      intro x _
      by_cases hx : x.Category = c
      · simp [hx]
      · simp [hx]
    have e2 : issues.filter
          (fun a => (!(a.Category == c)) && decide (a.Category ∈ c :: cs)) =
        issues.filter (fun issue => decide (issue.Category ∈ cs)) := by
      apply List.filter_congr
      intro x _
      by_cases hx : x.Category = c
      · have hn : c ∉ cs := hc.1
        simp [hx, hn]
      · simp [hx]
    rw [e1, e2] at hsplit
    exact (List.Perm.append (List.Perm.refl _) (ih hc.2)).trans hsplit

/-- When every category that occurs is visited once, the groups hold every issue once. -/
theorem groups_perm (order : List GoString) (hnodup : order.Nodup) (issues : List Issue)
    (hcov : ∀ i ∈ issues, i.Category ∈ order) :
    ((order.map fun c => issues.filter fun issue => issue.Category == c).flatten).Perm
      issues := by
  have h := groups_perm_filter order hnodup issues
  have e : issues.filter (fun issue => decide (issue.Category ∈ order)) = issues := by
    rw [List.filter_eq_self]
    intro i hi
    simp [hcov i hi]
  rw [e] at h
  exact h

/-- The entries of a section are numbered from 1 in the order of the group. -/
theorem entries_getElem? (l : List Issue) (k : Nat) :
    (l.enum.map fun entry => textEntry entry.1 entry.2)[k]? =
      l[k]?.map (textEntry k) := by
  rw [List.getElem?_map, List.getElem?_enum]
  cases l[k]? <;> rfl

end report


/-! ## Auxiliary facts about the recommended values -/

namespace ssh

theorem ssh_recommended_passes : ∀ rule ∈ getDefaultRules,
    rule.ComparisonFunc rule.RecommendedValue rule.RecommendedValue = true := by decide

theorem ssh_recommended_line : ∀ rule ∈ getDefaultRules,
    parseLine Config.empty (rule.Key ++ " ".toList ++ rule.RecommendedValue) rule.Key =
      some rule.RecommendedValue := by decide

theorem ssh_ruleFails_of_recommended (config : Config) (rule : SSHRule)
    (hrule : rule ∈ getDefaultRules) (h : config rule.Key = some rule.RecommendedValue) :
    ruleFails config rule = false := by
  unfold ruleFails
  rw [h]
  simp only []
  rw [ssh_recommended_passes rule hrule]
  rfl

theorem ssh_checkRule_of_recommended (config : Config) (rule : SSHRule)
    (hrule : rule ∈ getDefaultRules) (h : config rule.Key = some rule.RecommendedValue)
    (issues : List report.Issue) : checkRule config issues rule = issues := by
  rw [ssh_checkRule_present config issues rule _ h,
    if_pos (ssh_recommended_passes rule hrule)]

end ssh

namespace sysctl

theorem sysctl_recommended_passes : ∀ rule ∈ getDefaultRules,
    rule.ComparisonFunc rule.RecommendedValue rule.RecommendedValue = true := by decide

theorem sysctl_recommended_line : ∀ rule ∈ getDefaultRules,
    parseLine Config.empty (rule.Key ++ " = ".toList ++ rule.RecommendedValue) rule.Key =
      some rule.RecommendedValue := by decide

theorem sysctl_ruleFails_of_recommended (config : Config) (rule : SysctlRule)
    (hrule : rule ∈ getDefaultRules) (h : config rule.Key = some rule.RecommendedValue) :
    ruleFails config rule = false := by
  unfold ruleFails
  rw [h]
  simp only []
  rw [sysctl_recommended_passes rule hrule]
  rfl

theorem sysctl_checkRule_of_recommended (config : Config) (rule : SysctlRule)
    (hrule : rule ∈ getDefaultRules) (h : config rule.Key = some rule.RecommendedValue)
    (issues : List report.Issue) : checkRule config issues rule = issues := by
  rw [sysctl_checkRule_present config issues rule _ h,
    if_pos (sysctl_recommended_passes rule hrule)]

/-- A key the primary file assigns keeps its value when the drop-in directory is merged. -/
theorem readSysctlDFromPath_keeps (dir : DirState) (config merged : Config)
    (k v : GoString) (h : config k = some v)
    (hr : readSysctlDFromPath dir config = .ok merged) : merged k = some v := by
  cases dir with
  | notExist =>
    simp only [readSysctlDFromPath, Except.ok.injEq] at hr
    rw [← hr]
    exact h
  | readFails => simp [readSysctlDFromPath] at hr
  | entries files => exact readDropIns_keeps files config merged k v h hr

end sysctl


/-! ## Auxiliary facts about the renderers of the report -/

namespace report

/-- The styled document, part by part. -/
theorem generateHTML_eq (issues : List Issue) (toUpper : GoString → GoString)
    (order : List GoString) :
    generateHTML issues toUpper order =
      htmlHead ++
        htmlSummary (issues.foldl countSeverity ⟨0, 0, 0, 0⟩).Critical
          (issues.foldl countSeverity ⟨0, 0, 0, 0⟩).Warning
          (issues.foldl countSeverity ⟨0, 0, 0, 0⟩).Info issues.length ++
        (order.map fun category =>
          ("    <h2>".toList ++ toUpper category ++ "</h2>\n".toList) ++
            ((issues.filter fun issue => issue.Category == category).map
              htmlIssue).flatten).flatten ++
        htmlFoot := by
  unfold generateHTML
  simp only []
  have hstep : ∀ (sb category : GoString),
      (groupByCategory issues category).foldl (fun sb4 issue => sb4 ++ htmlIssue issue)
          (sb ++ ("    <h2>".toList ++ toUpper category ++ "</h2>\n".toList)) =
        sb ++ (("    <h2>".toList ++ toUpper category ++ "</h2>\n".toList) ++
          ((issues.filter fun issue => issue.Category == category).map
            htmlIssue).flatten) := by
    intro sb category
    rw [fixer.foldl_append_blocks htmlIssue, report_groupByCategory_eq, List.append_assoc]
  simp only [hstep]
  rw [fixer.foldl_append_blocks (fun category =>
    ("    <h2>".toList ++ toUpper category ++ "</h2>\n".toList) ++
      ((issues.filter fun issue => issue.Category == category).map htmlIssue).flatten)]

theorem generateText_head (issues : List Issue) (toUpper : GoString → GoString)
    (order : List GoString) : (generateText issues toUpper order).head? = some '=' := by
  rw [generateText_eq, List.head?_append_of_ne_nil _ (by decide)]
  decide

theorem generateHTML_head (issues : List Issue) (toUpper : GoString → GoString)
    (order : List GoString) : (generateHTML issues toUpper order).head? = some '<' := by
  rw [generateHTML_eq, List.append_assoc, List.append_assoc,
    List.head?_append_of_ne_nil _ (by decide)]
  decide

end report


/-- What `TrimSpace` removes and what it leaves: the string is white space, then the trimmed
text, then white space, and the trimmed text neither begins nor ends with white space. -/
theorem strings.TrimSpace_decompose (s : GoString) :
    ∃ l r, s = l ++ strings.TrimSpace s ++ r ∧
      (∀ c ∈ l, unicode.IsSpace c = true) ∧ (∀ c ∈ r, unicode.IsSpace c = true) ∧
      (∀ c, (strings.TrimSpace s).head? = some c → unicode.IsSpace c = false) ∧
      (∀ c, (strings.TrimSpace s).getLast? = some c → unicode.IsSpace c = false) := by
  refine ⟨s.takeWhile unicode.IsSpace,
    (((s.dropWhile unicode.IsSpace).reverse).takeWhile unicode.IsSpace).reverse, ?_,
    fun c hc => List.mem_takeWhile_imp hc,
    fun c hc => List.mem_takeWhile_imp (List.mem_reverse.mp hc),
    strings.TrimSpace_head s, strings.TrimSpace_getLast s⟩
  have h1 := List.takeWhile_append_dropWhile unicode.IsSpace s
  have h2 := List.takeWhile_append_dropWhile unicode.IsSpace
    (s.dropWhile unicode.IsSpace).reverse
  have h3 : (((s.dropWhile unicode.IsSpace).reverse).dropWhile unicode.IsSpace).reverse ++
      (((s.dropWhile unicode.IsSpace).reverse).takeWhile unicode.IsSpace).reverse =
      s.dropWhile unicode.IsSpace := by
    rw [← List.reverse_append, h2, List.reverse_reverse]
  unfold strings.TrimSpace strings.TrimRightSpace strings.TrimLeftSpace
  rw [List.append_assoc, h3, h1]


/-! ## Auxiliary facts about the lines of a file -/

namespace strings

theorem cutFirst_single_append (c : Char) (before after : GoString) (h : c ∉ before) :
    cutFirst [c] (before ++ c :: after) = some (before, after) := by
  induction before with
  | nil => simp [cutFirst, List.isPrefixOf]
  | cons x xs ih =>
    have hx : ¬ c = x := fun e => h (by simp [e])
    have hxs : c ∉ xs := fun e => h (List.mem_cons_of_mem _ e)
    simp [cutFirst, List.isPrefixOf, hx, ih hxs]

theorem Join_singleton (p sep : GoString) : Join [p] sep = p := by
  simp [Join, List.intercalate]

theorem Join_cons_cons (p q : GoString) (qs : List GoString) (sep : GoString) :
    Join (p :: q :: qs) sep = p ++ sep ++ Join (q :: qs) sep := by
  simp [Join, List.intercalate, List.intersperse]

theorem Join_length_ge (p : GoString) (pieces : List GoString) (c : Char) :
    pieces.length ≤ (Join (p :: pieces) [c]).length := by
  induction pieces generalizing p with
  | nil => exact Nat.zero_le _
  | cons q qs ih =>
    rw [Join_cons_cons, List.length_append, List.length_append, List.length_cons,
      List.length_singleton]
    have := ih q
    omega

/-- Splitting the join of pieces that are free of the separator gives the pieces back. -/
theorem SplitN_Join (c : Char) (pieces : List GoString) (p : GoString) (n : Nat)
    (h : ∀ q ∈ p :: pieces, c ∉ q) (hn : pieces.length + 1 ≤ n) :
    SplitN (Join (p :: pieces) [c]) [c] n = p :: pieces := by
  induction pieces generalizing p n with
  | nil =>
    rw [Join_singleton]
    obtain ⟨m, rfl⟩ : ∃ m, n = m + 1 := ⟨n - 1, by simp at hn; omega⟩
    exact SplitN_of_not_mem c p m (h p (List.mem_cons_self _ _))
  | cons q qs ih =>
    obtain ⟨m, rfl⟩ : ∃ m, n = m + 2 := ⟨n - 2, by simp at hn; omega⟩
    rw [Join_cons_cons, List.append_assoc, List.singleton_append]
    unfold SplitN
    rw [cutFirst_single_append c p _ (h p (List.mem_cons_self _ _))]
    simp only []
    rw [ih q (m + 1) (fun x hx => h x (List.mem_cons_of_mem _ hx))
      (by simp at hn; simp; omega)]

theorem Split_Join (c : Char) (pieces : List GoString) (p : GoString)
    (h : ∀ q ∈ p :: pieces, c ∉ q) :
    Split (Join (p :: pieces) [c]) [c] = p :: pieces := by
  unfold Split
  exact SplitN_Join c pieces p _ h (by have := Join_length_ge p pieces c; omega)

/-- A terminal `\r` does not change what a line trims to. -/
theorem TrimSpace_concat_space (s : GoString) (c : Char) (hc : unicode.IsSpace c = true) :
    TrimSpace (s ++ [c]) = TrimSpace s := by
  unfold TrimSpace TrimLeftSpace
  rw [List.dropWhile_append]
  by_cases he : (s.dropWhile unicode.IsSpace).isEmpty = true
  · rw [if_pos he]
    have hnil : s.dropWhile unicode.IsSpace = [] := List.isEmpty_iff.mp he
    rw [hnil, List.dropWhile_cons, if_pos hc]
    rfl
  · rw [if_neg he]
    unfold TrimRightSpace
    rw [List.reverse_append, List.reverse_singleton, List.singleton_append,
      List.dropWhile_cons, if_pos hc]

end strings

namespace bufio

theorem TrimSpace_dropCR (s : GoString) :
    strings.TrimSpace (dropCR s) = strings.TrimSpace s := by
  unfold dropCR
  by_cases h : s.getLast? = some '\r'
  · rw [if_pos h]
    obtain ⟨ys, hys⟩ := List.getLast?_eq_some_iff.mp h
    rw [hys, List.dropLast_concat, strings.TrimSpace_concat_space ys '\r' (by decide)]
  · rw [if_neg h]

/-- The scanner on the join of newline-free pieces sees exactly these pieces. -/
theorem scanLines_Join (pieces : List GoString) (h : ∀ q ∈ pieces, '\n' ∉ q) :
    scanLines (strings.Join pieces "\n".toList) = scanPieces pieces := by
  cases pieces with
  | nil => rfl
  | cons p ps =>
    unfold scanLines
    rw [show "\n".toList = ['\n'] from rfl, strings.Split_Join '\n' ps p h]

theorem scanPieces_cons_cons (p q : GoString) (qs : List GoString) :
    scanPieces (p :: q :: qs) =
      if byteLen p + 1 > MaxScanTokenSize then ([], true)
      else (dropCR p :: (scanPieces (q :: qs)).1, (scanPieces (q :: qs)).2) := by
  rw [scanPieces]

theorem scanPieces_singleton (p : GoString) :
    scanPieces [p] =
      if p = [] then ([], false)
      else if byteLen p ≥ MaxScanTokenSize then ([], true)
      else ([dropCR p], false) := by
  rw [scanPieces]

/-- A piece shorter than the buffer that the loop body skips can be inserted among the
pieces of a file: the scanner fails with it exactly when it fails without it, and the loop
over the tokens ends in the same state. -/
theorem scanPieces_insert {σ : Type} (step : σ → GoString → σ) (s : GoString)
    (hshort : byteLen s < MaxScanTokenSize) (hskip : ∀ c, step c (dropCR s) = c)
    (hblank : ∀ c, step c [] = c) (before after : List GoString) :
    (scanPieces (before ++ s :: after)).2 = (scanPieces (before ++ after)).2 ∧
    ∀ c, (scanPieces (before ++ s :: after)).1.foldl step c =
      (scanPieces (before ++ after)).1.foldl step c := by
  have hs1 : ¬ byteLen s + 1 > MaxScanTokenSize := by omega
  have hs2 : ¬ byteLen s ≥ MaxScanTokenSize := by omega
  induction before with
  | nil =>
    rw [List.nil_append, List.nil_append]
    cases after with
    | nil =>
      rw [scanPieces_singleton]
      by_cases he : s = []
      · rw [if_pos he]
        exact ⟨rfl, fun c => rfl⟩
      · rw [if_neg he, if_neg hs2]
        refine ⟨rfl, fun c => ?_⟩
        show step c (dropCR s) = c
        exact hskip c
    | cons q qs =>
      rw [scanPieces_cons_cons, if_neg hs1]
      refine ⟨rfl, fun c => ?_⟩
      show ((scanPieces (q :: qs)).1).foldl step (step c (dropCR s)) = _
      rw [hskip]
  | cons p ps ih =>
    rw [List.cons_append, List.cons_append]
    have hrest1 : ∃ x xs, ps ++ s :: after = x :: xs := by
      cases ps with
      | nil => exact ⟨s, after, rfl⟩
      | cons y ys => exact ⟨y, ys ++ s :: after, rfl⟩
    obtain ⟨x, xs, hx⟩ := hrest1
    rw [hx, scanPieces_cons_cons]
    rw [hx] at ih
    by_cases hp : byteLen p + 1 > MaxScanTokenSize
    · rw [if_pos hp]
      cases hrest2 : ps ++ after with
      | nil =>
        rw [scanPieces_singleton]
        have hne : p ≠ [] := by
          intro he
          rw [he] at hp
          have : byteLen ([] : GoString) = 0 := rfl
          have hm : MaxScanTokenSize = 65536 := rfl
          omega
        rw [if_neg hne, if_pos (by omega)]
        exact ⟨rfl, fun c => rfl⟩
      | cons y ys =>
        rw [scanPieces_cons_cons, if_pos hp]
        exact ⟨rfl, fun c => rfl⟩
    · rw [if_neg hp]
      cases hrest2 : ps ++ after with
      | nil =>
        have hps : ps = [] := (List.append_eq_nil.mp hrest2).1
        have haf : after = [] := (List.append_eq_nil.mp hrest2).2
        rw [hps, haf, List.nil_append] at hx
        have hx1 : x = s := (List.cons.inj hx).1.symm
        have hx2 : xs = [] := (List.cons.inj hx).2.symm
        rw [hx1, hx2, scanPieces_singleton p, scanPieces_singleton s]
        by_cases he : p = []
        · rw [if_pos he, he]
          by_cases hse : s = []
          · rw [if_pos hse]
            refine ⟨rfl, fun c => ?_⟩
            show step c (dropCR []) = c
            exact hblank c
          · rw [if_neg hse, if_neg hs2]
            refine ⟨rfl, fun c => ?_⟩
            show step (step c (dropCR [])) (dropCR s) = c
            rw [hskip]
            exact hblank c
        · rw [if_neg he, if_neg (show ¬ byteLen p ≥ MaxScanTokenSize by omega)]
          by_cases hse : s = []
          · rw [if_pos hse]
            exact ⟨rfl, fun c => rfl⟩
          · rw [if_neg hse, if_neg hs2]
            refine ⟨rfl, fun c => ?_⟩
            show step (step c (dropCR p)) (dropCR s) = step c (dropCR p)
            rw [hskip]
      | cons y ys =>
        rw [hrest2] at ih
        rw [scanPieces_cons_cons, if_neg hp]
        refine ⟨ih.1, fun c => ?_⟩
        show ((scanPieces (x :: xs)).1).foldl step (step c (dropCR p)) =
          ((scanPieces (y :: ys)).1).foldl step (step c (dropCR p))
        exact ih.2 _

end bufio


/-- The results of the two scans of `scanPieces_insert`, for the SSH file. -/
theorem ssh.ssh_Analyze_congr (a : ssh.Analyzer) (tokens1 tokens2 : List GoString)
    (fails1 fails2 : Bool) (hf : fails1 = fails2)
    (hc : ssh.parseConfig tokens1 = ssh.parseConfig tokens2) :
    a.Analyze (.readable tokens1 fails1) = a.Analyze (.readable tokens2 fails2) := by
  simp only [ssh.Analyzer.Analyze, hc, hf]

theorem sysctl.sysctl_Analyze_congr (a : sysctl.Analyzer) (tokens1 tokens2 : List GoString)
    (fails1 fails2 : Bool) (dir : DirState) (hf : fails1 = fails2)
    (hc : sysctl.parseConfig tokens1 = sysctl.parseConfig tokens2) :
    a.Analyze (.readable tokens1 fails1) dir = a.Analyze (.readable tokens2 fails2) dir := by
  simp only [sysctl.Analyzer.Analyze, hc, hf]

theorem sysctl.readDropIns_congr (earlier later : List DirEntry) (name : GoString)
    (isDir : Bool) (tokens1 tokens2 : List GoString) (fails1 fails2 : Bool)
    (hf : fails1 = fails2)
    (hc : ∀ config : Config, tokens1.foldl sysctl.parseDropInLine config =
      tokens2.foldl sysctl.parseDropInLine config) (config : Config) :
    sysctl.readSysctlDFromPath
        (.entries (earlier ++ ⟨name, isDir, .readable tokens1 fails1⟩ :: later)) config =
      sysctl.readSysctlDFromPath
        (.entries (earlier ++ ⟨name, isDir, .readable tokens2 fails2⟩ :: later)) config := by
  simp only [sysctl.readSysctlDFromPath]
  rw [sysctl.readDropIns_append, sysctl.readDropIns_append]
  cases sysctl.readDropIns earlier config with
  | error e => rfl
  | ok mid =>
    simp only []
    rw [sysctl.readDropIns_cons, sysctl.readDropIns_cons]
    simp only [hc, hf]

/-- What a string trims to is made of code points of the string. -/
theorem strings.mem_of_mem_TrimSpace (s : GoString) (c : Char)
    (h : c ∈ strings.TrimSpace s) : c ∈ s := by
  obtain ⟨l, r, hs, _⟩ := strings.TrimSpace_decompose s
  rw [hs]
  exact List.mem_append_left _ (List.mem_append_right _ h)

/-- A line made of `#` alone is a comment line. -/
theorem strings.comment_of_replicate (n : Nat) :
    strings.HasPrefix (strings.TrimSpace (List.replicate (n + 1) '#')) "#".toList = true := by
  have hne : strings.TrimSpace (List.replicate (n + 1) '#') ≠ [] :=
    strings.TrimSpace_ne_nil_of_head _ '#' rfl (by decide)
  cases ht : strings.TrimSpace (List.replicate (n + 1) '#') with
  | nil => exact absurd ht hne
  | cons x xs =>
    have hx : x ∈ List.replicate (n + 1) '#' :=
      strings.mem_of_mem_TrimSpace _ x (by rw [ht]; exact List.mem_cons_self _ _)
    have hx2 : x = '#' := List.eq_of_mem_replicate hx
    rw [hx2]
    simp [strings.HasPrefix, List.isPrefixOf]


/-! ## Auxiliary facts about the lines of a text -/

namespace strings

theorem unlines_nil : unlines [] = [] := rfl

theorem unlines_cons (l : GoString) (ls : List GoString) :
    unlines (l :: ls) = l ++ '\n' :: unlines ls := by
  simp [unlines]

theorem unlines_append (a b : List GoString) : unlines (a ++ b) = unlines a ++ unlines b := by
  simp [unlines]

theorem Join_unlines (ls : List GoString) : Join (ls ++ [[]]) ['\n'] = unlines ls := by
  induction ls with
  | nil => rfl
  | cons l ls ih =>
    rw [unlines_cons, ← ih]
    cases ls with
    | nil => simp [Join, List.intercalate, List.intersperse]
    | cons x xs =>
      rw [List.cons_append, List.cons_append, Join_cons_cons, List.append_assoc,
        List.singleton_append]

/-- The pieces between the newlines of a text made of lines are its lines and a last,
empty piece. -/
theorem Split_unlines (ls : List GoString) (h : ∀ l ∈ ls, '\n' ∉ l) :
    Split (unlines ls) ['\n'] = ls ++ [[]] := by
  rw [← Join_unlines]
  cases ls with
  | nil => rfl
  | cons l ls =>
    rw [List.cons_append]
    apply Split_Join
    intro q hq
    rw [← List.cons_append, List.mem_append, List.mem_singleton] at hq
    rcases hq with hq | hq
    · exact h q hq
    · rw [hq]
      exact List.not_mem_nil _

/-- Two texts made of lines, one after the other: the lines add up, and so does the number
of lines equal to `m`. -/
theorem lines_append (m t1 t2 : GoString) (k1 k2 : Nat)
    (h1 : ∃ ls, t1 = unlines ls ∧ (∀ l ∈ ls, '\n' ∉ l) ∧
      (ls.filter fun l => decide (l = m)).length = k1)
    (h2 : ∃ ls, t2 = unlines ls ∧ (∀ l ∈ ls, '\n' ∉ l) ∧
      (ls.filter fun l => decide (l = m)).length = k2) :
    ∃ ls, t1 ++ t2 = unlines ls ∧ (∀ l ∈ ls, '\n' ∉ l) ∧
      (ls.filter fun l => decide (l = m)).length = k1 + k2 := by
  obtain ⟨a, ha, hna, hka⟩ := h1
  obtain ⟨b, hb, hnb, hkb⟩ := h2
  refine ⟨a ++ b, ?_, ?_, ?_⟩
  · rw [unlines_append, ha, hb]
  · intro l hl
    rcases List.mem_append.mp hl with hl | hl
    · exact hna l hl
    · exact hnb l hl
  · rw [List.filter_append, List.length_append, hka, hkb]

theorem lines_flatten {α : Type} (m : GoString) (f : α → GoString) (k : α → Nat)
    (xs : List α)
    (h : ∀ x ∈ xs, ∃ ls, f x = unlines ls ∧ (∀ l ∈ ls, '\n' ∉ l) ∧
      (ls.filter fun l => decide (l = m)).length = k x) :
    ∃ ls, (xs.map f).flatten = unlines ls ∧ (∀ l ∈ ls, '\n' ∉ l) ∧
      (ls.filter fun l => decide (l = m)).length = (xs.map k).sum := by
  induction xs with
  | nil => exact ⟨[], rfl, fun l hl => absurd hl (List.not_mem_nil _), rfl⟩
  | cons x xs ih =>
    rw [List.map_cons, List.flatten_cons, List.map_cons, List.sum_cons]
    exact lines_append m _ _ _ _ (h x (List.mem_cons_self _ _))
      (ih fun y hy => h y (List.mem_cons_of_mem _ hy))

/-- The number of lines of a text that are equal to a non-empty `m`, counted on the pieces
between its newlines. -/
theorem lines_count (m t : GoString) (k : Nat) (hm : m ≠ [])
    (h : ∃ ls, t = unlines ls ∧ (∀ l ∈ ls, '\n' ∉ l) ∧
      (ls.filter fun l => decide (l = m)).length = k) :
    ((Split t "\n".toList).filter fun l => decide (l = m)).length = k := by
  obtain ⟨ls, ht, hn, hk⟩ := h
  rw [ht, show "\n".toList = ['\n'] from rfl, Split_unlines ls hn, List.filter_append,
    List.length_append, hk]
  have : ([[]] : List GoString).filter (fun l => decide (l = m)) = [] := by
    rw [List.filter_cons, if_neg (by simpa using fun e : [] = m => hm e.symm)]
    rfl
  rw [this]
  rfl

theorem ne_of_head (l m : GoString) (c : Char) (hl : l.head? = some c)
    (hm : m.head? ≠ some c) : l ≠ m := by
  intro e
  rw [e] at hl
  exact hm hl

end strings


/-! ## Auxiliary facts about the lines of the fix script -/

namespace fixer

theorem supportFunctions_lines :
    supportFunctions =
      strings.unlines (strings.Split supportFunctions "\n".toList).dropLast := by
  decide!

theorem supportFunctions_lines_free :
    ∀ l ∈ (strings.Split supportFunctions "\n".toList).dropLast, '\n' ∉ l := by
  decide!

/-- The head of the script is made of lines, none of them equal to `m`. -/
theorem scriptHead_lines (m now : GoString) (hnow : '\n' ∉ now)
    (hd : ∃ d, m.head? = some d ∧ d ≠ '#' ∧ d ≠ 'l' ∧ d ≠ ' ')
    (hsup : m ∉ (strings.Split supportFunctions "\n".toList).dropLast) :
    ∃ ls, scriptHead now = strings.unlines ls ∧ (∀ l ∈ ls, '\n' ∉ l) ∧
      (ls.filter fun l => decide (l = m)).length = 0 := by
  obtain ⟨d, hmd, hd1, hd2, hd3⟩ := hd
  have hhash : m.head? ≠ some '#' := by
    rw [hmd]
    intro e
    exact hd1 (Option.some.inj e)
  have hnil : ([] : GoString) ≠ m := by
    intro e
    rw [← e] at hmd
    cases hmd
  refine ⟨["#!/bin/bash".toList, [], "# Script de correção gerado pelo Hardshell".toList,
    "# Data: ".toList ++ now, []] ++ (strings.Split supportFunctions "\n".toList).dropLast,
    ?_, ?_, ?_⟩
  · rw [strings.unlines_append, ← supportFunctions_lines]
    unfold scriptHead
    simp [strings.unlines_cons, strings.unlines_nil]
  · intro l hl
    rcases List.mem_append.mp hl with hl | hl
    · simp only [List.mem_cons, List.mem_singleton, List.not_mem_nil, or_false] at hl
      rcases hl with rfl | rfl | rfl | rfl | rfl
      · decide
      · decide
      · decide
      · intro h
        rcases List.mem_append.mp h with h | h
        · exact absurd h (by decide)
        · exact hnow h
      · decide
    · exact supportFunctions_lines_free l hl
  · rw [List.length_eq_zero, List.filter_eq_nil_iff]
    intro l hl
    rw [decide_eq_true_eq]
    intro e
    subst e
    rcases List.mem_append.mp hl with hl | hl
    · simp only [List.mem_cons, List.mem_singleton, List.not_mem_nil, or_false] at hl
      rcases hl with h | h | h | h | h
      · exact hhash (by rw [h]; rfl)
      · exact hnil h.symm
      · exact hhash (by rw [h]; rfl)
      · exact hhash (by rw [h]; rfl)
      · exact hnil h.symm
    · exact hsup hl

/-- The foot of the script is made of lines, none of them equal to `m`. -/
theorem scriptFoot_lines (m : GoString)
    (hd : ∃ d, m.head? = some d ∧ d ≠ '#' ∧ d ≠ 'l' ∧ d ≠ ' ') :
    ∃ ls, scriptFoot = strings.unlines ls ∧ (∀ l ∈ ls, '\n' ∉ l) ∧
      (ls.filter fun l => decide (l = m)).length = 0 := by
  obtain ⟨d, hmd, hd1, hd2, hd3⟩ := hd
  have hlog : m.head? ≠ some 'l' := by
    rw [hmd]
    intro e
    exact hd2 (Option.some.inj e)
  have hnil : ([] : GoString) ≠ m := by
    intro e
    rw [← e] at hmd
    cases hmd
  refine ⟨[[], "log \"INFO\" \"Todas as correções foram aplicadas.\"".toList,
    ("log \"WARNING\" \"Reinicie os serviços ou o sistema para aplicar todas as " ++
      "alterações.\"").toList], by decide, by decide, ?_⟩
  rw [List.length_eq_zero, List.filter_eq_nil_iff]
  intro l hl
  rw [decide_eq_true_eq]
  intro e
  subst e
  simp only [List.mem_cons, List.mem_singleton, List.not_mem_nil, or_false] at hl
  rcases hl with h | h | h
  · exact hnil h.symm
  · exact hlog (by rw [h]; rfl)
  · exact hlog (by rw [h]; rfl)

/-- The head of a section is made of lines, none of them equal to `m`. -/
theorem sectionHead_lines (m : GoString) (toUpper : GoString → GoString)
    (category : GoString) (hup : '\n' ∉ toUpper category)
    (hd : ∃ d, m.head? = some d ∧ d ≠ '#' ∧ d ≠ 'l' ∧ d ≠ ' ') :
    ∃ ls, sectionHead toUpper category = strings.unlines ls ∧ (∀ l ∈ ls, '\n' ∉ l) ∧
      (ls.filter fun l => decide (l = m)).length = 0 := by
  obtain ⟨d, hmd, hd1, hd2, hd3⟩ := hd
  have hhash : m.head? ≠ some '#' := by
    rw [hmd]
    intro e
    exact hd1 (Option.some.inj e)
  have hlog : m.head? ≠ some 'l' := by
    rw [hmd]
    intro e
    exact hd2 (Option.some.inj e)
  have hnil : ([] : GoString) ≠ m := by
    intro e
    rw [← e] at hmd
    cases hmd
  refine ⟨[[], "# Correções para ".toList ++ toUpper category,
    "log \"INFO\" \"Aplicando correções para ".toList ++ toUpper category ++
      "...\"".toList, []], ?_, ?_, ?_⟩
  · unfold sectionHead
    simp [strings.unlines_cons, strings.unlines_nil]
  · intro l hl
    simp only [List.mem_cons, List.mem_singleton, List.not_mem_nil, or_false] at hl
    rcases hl with rfl | rfl | rfl | rfl
    · decide
    · intro h
      rcases List.mem_append.mp h with h | h
      · exact absurd h (by decide)
      · exact hup h
    · intro h
      rcases List.mem_append.mp h with h | h
      · rcases List.mem_append.mp h with h | h
        · exact absurd h (by decide)
        · exact hup h
      · exact absurd h (by decide)
    · decide
  · rw [List.length_eq_zero, List.filter_eq_nil_iff]
    intro l hl
    rw [decide_eq_true_eq]
    intro e
    subst e
    simp only [List.mem_cons, List.mem_singleton, List.not_mem_nil, or_false] at hl
    rcases hl with h | h | h | h
    · exact hnil h.symm
    · exact hhash (by rw [h]; rfl)
    · exact hlog (by rw [h]; rfl)
    · exact hnil h.symm

end fixer


namespace fixer

/-- The backup lines of a category are made of lines; the call for the file of `ssh` or of
`sysctl` is among them once, for that category alone. -/
theorem backupLines_lines (m category : GoString)
    (hd : ∃ d, m.head? = some d ∧ d ≠ '#' ∧ d ≠ 'l' ∧ d ≠ ' ') :
    ∃ ls, backupLines category = strings.unlines ls ∧ (∀ l ∈ ls, '\n' ∉ l) ∧
      (ls.filter fun l => decide (l = m)).length =
        if category = "ssh".toList then
          (if m = "backup_file /etc/ssh/sshd_config".toList then 1 else 0)
        else if category = "sysctl".toList then
          (if m = "backup_file /etc/sysctl.conf".toList then 1 else 0)
        else 0 := by
  obtain ⟨d, hmd, hd1, hd2, hd3⟩ := hd
  have hhash : m.head? ≠ some '#' := by
    rw [hmd]
    intro e
    exact hd1 (Option.some.inj e)
  have hnil : ¬ ([] : GoString) = m := by
    intro e
    rw [← e] at hmd
    cases hmd
  have e3 : decide (([] : GoString) = m) = false := decide_eq_false hnil
  unfold backupLines
  by_cases hc : category = "ssh".toList
  · rw [if_pos hc, if_pos hc]
    refine ⟨["# Backup do arquivo de configuração SSH".toList,
      "backup_file /etc/ssh/sshd_config".toList, []], by decide, by decide, ?_⟩
    have e1 : decide ("# Backup do arquivo de configuração SSH".toList = m) = false :=
      decide_eq_false (fun h => hhash (by rw [← h]; rfl))
    by_cases hb : m = "backup_file /etc/ssh/sshd_config".toList
    · have e2 : decide ("backup_file /etc/ssh/sshd_config".toList = m) = true :=
        decide_eq_true hb.symm
      rw [if_pos hb]
      simp only [List.filter_cons, List.filter_nil, e1, e2, e3, Bool.false_eq_true, if_false,
        if_true, List.length_singleton]
    · have e2 : decide ("backup_file /etc/ssh/sshd_config".toList = m) = false :=
        decide_eq_false (fun h => hb h.symm)
      rw [if_neg hb]
      simp only [List.filter_cons, List.filter_nil, e1, e2, e3, Bool.false_eq_true, if_false,
        List.length_nil]
  · rw [if_neg hc, if_neg hc]
    by_cases hs : category = "sysctl".toList
    · rw [if_pos hs, if_pos hs]
      refine ⟨["# Backup do arquivo de configuração sysctl".toList,
        "backup_file /etc/sysctl.conf".toList, []], by decide, by decide, ?_⟩
      have e1 : decide ("# Backup do arquivo de configuração sysctl".toList = m) = false :=
        decide_eq_false (fun h => hhash (by rw [← h]; rfl))
      by_cases hb : m = "backup_file /etc/sysctl.conf".toList
      · have e2 : decide ("backup_file /etc/sysctl.conf".toList = m) = true :=
          decide_eq_true hb.symm
        rw [if_pos hb]
        simp only [List.filter_cons, List.filter_nil, e1, e2, e3, Bool.false_eq_true,
          if_false, if_true, List.length_singleton]
      · have e2 : decide ("backup_file /etc/sysctl.conf".toList = m) = false :=
          decide_eq_false (fun h => hb h.symm)
        rw [if_neg hb]
        simp only [List.filter_cons, List.filter_nil, e1, e2, e3, Bool.false_eq_true,
          if_false, List.length_nil]
    · rw [if_neg hs, if_neg hs]
      exact ⟨[], rfl, fun l hl => absurd hl (List.not_mem_nil _), rfl⟩

/-- The block of an issue is made of nine lines; the line of the exit-status check is among
them once, when the command is not that line itself. -/
theorem remediationBlock_lines (g : Generator) (issue : report.Issue) (m : GoString)
    (hdesc : '\n' ∉ issue.Description) (hsev : '\n' ∉ issue.Severity)
    (hcmd : '\n' ∉ (if g.mountPoint ≠ [] then g.adaptCommandForMountPoint issue.FixCommand
      else issue.FixCommand))
    (hcmdm : (if g.mountPoint ≠ [] then g.adaptCommandForMountPoint issue.FixCommand
      else issue.FixCommand) ≠ m)
    (hd : ∃ d, m.head? = some d ∧ d ≠ '#' ∧ d ≠ 'l' ∧ d ≠ ' ')
    (helse : m ≠ "else".toList) (hfi : m ≠ "fi".toList) :
    ∃ ls, g.remediationBlock issue = strings.unlines ls ∧ (∀ l ∈ ls, '\n' ∉ l) ∧
      (ls.filter fun l => decide (l = m)).length =
        if m = "if [ $? -eq 0 ]; then".toList then 1 else 0 := by
  obtain ⟨d, hmd, hd1, hd2, hd3⟩ := hd
  have hhash : m.head? ≠ some '#' := by
    rw [hmd]
    intro e
    exact hd1 (Option.some.inj e)
  have hlog : m.head? ≠ some 'l' := by
    rw [hmd]
    intro e
    exact hd2 (Option.some.inj e)
  have hsp : m.head? ≠ some ' ' := by
    rw [hmd]
    intro e
    exact hd3 (Option.some.inj e)
  have hnil : ¬ ([] : GoString) = m := by
    intro e
    rw [← e] at hmd
    cases hmd
  unfold Generator.remediationBlock
  simp only []
  generalize (if g.mountPoint ≠ [] then g.adaptCommandForMountPoint issue.FixCommand
    else issue.FixCommand) = command at hcmd hcmdm ⊢
  refine ⟨["# ".toList ++ issue.Description ++ " (".toList ++ issue.Severity ++ ")".toList,
    "log \"INFO\" \"Corrigindo: ".toList ++ issue.Description ++ "\"".toList,
    command,
    "if [ $? -eq 0 ]; then".toList,
    "    log \"SUCCESS\" \"Correção aplicada com sucesso: ".toList ++ issue.Description ++
      "\"".toList,
    "else".toList,
    "    log \"ERROR\" \"Falha ao aplicar correção: ".toList ++ issue.Description ++
      "\"".toList,
    "fi".toList, []], ?_, ?_, ?_⟩
  · simp [strings.unlines_cons, strings.unlines_nil]
  · intro l hl
    simp only [List.mem_cons, List.mem_singleton, List.not_mem_nil, or_false] at hl
    rcases hl with rfl | rfl | rfl | rfl | rfl | rfl | rfl | rfl | rfl
    · intro h
      simp only [List.mem_append] at h
      rcases h with (((h | h) | h) | h) | h
      · exact absurd h (by decide)
      · exact hdesc h
      · exact absurd h (by decide)
      · exact hsev h
      · exact absurd h (by decide)
    · intro h
      simp only [List.mem_append] at h
      rcases h with (h | h) | h
      · exact absurd h (by decide)
      · exact hdesc h
      · exact absurd h (by decide)
    · exact hcmd
    · decide
    · intro h
      simp only [List.mem_append] at h
      rcases h with (h | h) | h
      · exact absurd h (by decide)
      · exact hdesc h
      · exact absurd h (by decide)
    · decide
    · intro h
      simp only [List.mem_append] at h
      rcases h with (h | h) | h
      · exact absurd h (by decide)
      · exact hdesc h
      · exact absurd h (by decide)
    · decide
    · decide
  · have e1 : decide ("# ".toList ++ issue.Description ++ " (".toList ++ issue.Severity ++
        ")".toList = m) = false :=
      decide_eq_false (fun h => hhash (by rw [← h]; rfl))
    have e2 : decide ("log \"INFO\" \"Corrigindo: ".toList ++ issue.Description ++
        "\"".toList = m) = false :=
      decide_eq_false (fun h => hlog (by rw [← h]; rfl))
    have e3 : decide (command = m) = false := decide_eq_false hcmdm
    have e5 : decide ("    log \"SUCCESS\" \"Correção aplicada com sucesso: ".toList ++
        issue.Description ++ "\"".toList = m) = false :=
      decide_eq_false (fun h => hsp (by rw [← h]; rfl))
    have e6 : decide ("else".toList = m) = false :=
      decide_eq_false (fun h => helse h.symm)
    have e7 : decide ("    log \"ERROR\" \"Falha ao aplicar correção: ".toList ++
        issue.Description ++ "\"".toList = m) = false :=
      decide_eq_false (fun h => hsp (by rw [← h]; rfl))
    have e8 : decide ("fi".toList = m) = false :=
      decide_eq_false (fun h => hfi h.symm)
    have e9 : decide (([] : GoString) = m) = false := decide_eq_false hnil
    by_cases hb : m = "if [ $? -eq 0 ]; then".toList
    · have e4 : decide ("if [ $? -eq 0 ]; then".toList = m) = true := decide_eq_true hb.symm
      rw [if_pos hb]
      simp only [List.filter_cons, List.filter_nil, e1, e2, e3, e4, e5, e6, e7, e8, e9,
        Bool.false_eq_true, if_false, if_true, List.length_singleton]
    · have e4 : decide ("if [ $? -eq 0 ]; then".toList = m) = false :=
        decide_eq_false (fun h => hb h.symm)
      rw [if_neg hb]
      simp only [List.filter_cons, List.filter_nil, e1, e2, e3, e4, e5, e6, e7, e8, e9,
        Bool.false_eq_true, if_false, List.length_nil]

end fixer


namespace fixer

/-- The script is made of lines; the lines equal to `m` are those of the backup calls and
of the blocks. -/
theorem scriptContent_lines (g : Generator) (issues : List report.Issue) (now : GoString)
    (toUpper : GoString → GoString) (order : List GoString) (m : GoString)
    (hnow : '\n' ∉ now) (hup : ∀ c ∈ order, '\n' ∉ toUpper c)
    (hiss : ∀ i ∈ issues, '\n' ∉ i.Description ∧ '\n' ∉ i.Severity ∧
      '\n' ∉ (if g.mountPoint ≠ [] then g.adaptCommandForMountPoint i.FixCommand
        else i.FixCommand) ∧
      (if g.mountPoint ≠ [] then g.adaptCommandForMountPoint i.FixCommand
        else i.FixCommand) ≠ m)
    (hd : ∃ d, m.head? = some d ∧ d ≠ '#' ∧ d ≠ 'l' ∧ d ≠ ' ')
    (helse : m ≠ "else".toList) (hfi : m ≠ "fi".toList)
    (hsup : m ∉ (strings.Split supportFunctions "\n".toList).dropLast) :
    ∃ ls, g.scriptContent issues now toUpper order = strings.unlines ls ∧
      (∀ l ∈ ls, '\n' ∉ l) ∧
      (ls.filter fun l => decide (l = m)).length =
        0 + (order.map fun c =>
          0 + (if c = "ssh".toList then
              (if m = "backup_file /etc/ssh/sshd_config".toList then 1 else 0)
            else if c = "sysctl".toList then
              (if m = "backup_file /etc/sysctl.conf".toList then 1 else 0)
            else 0) +
          ((issues.filter fun issue => issue.Category == c).map fun _ =>
            if m = "if [ $? -eq 0 ]; then".toList then 1 else 0).sum).sum + 0 := by
  rw [scriptContent_eq]
  refine strings.lines_append m _ _ _ _
    (strings.lines_append m _ _ _ _ (scriptHead_lines m now hnow hd hsup) ?_)
    (scriptFoot_lines m hd)
  refine strings.lines_flatten m (g.sectionText issues toUpper) _ order ?_
  intro c hc
  unfold Generator.sectionText
  refine strings.lines_append m _ _ _ _
    (strings.lines_append m _ _ _ _ (sectionHead_lines m toUpper c (hup c hc) hd)
      (backupLines_lines m c hd)) ?_
  refine strings.lines_flatten m g.remediationBlock _ _ ?_
  intro i hi
  have h := hiss i (List.mem_filter.mp hi).1
  exact remediationBlock_lines g i m h.1 h.2.1 h.2.2.1 h.2.2.2 hd helse hfi

set_option maxRecDepth 100000 in
theorem markers_not_in_supportFunctions :
    "if [ $? -eq 0 ]; then".toList ∉
      (strings.Split supportFunctions "\n".toList).dropLast ∧
    "backup_file /etc/ssh/sshd_config".toList ∉
      (strings.Split supportFunctions "\n".toList).dropLast ∧
    "backup_file /etc/sysctl.conf".toList ∉
      (strings.Split supportFunctions "\n".toList).dropLast := by
  decide!

theorem sum_map_zero {α : Type} (l : List α) : (l.map fun _ => 0).sum = 0 := by
  induction l with
  | nil => rfl
  | cons x xs ih => rw [List.map_cons, List.sum_cons, ih]

theorem sum_map_one {α : Type} (l : List α) : (l.map fun _ => 1).sum = l.length := by
  induction l with
  | nil => rfl
  | cons x xs ih => rw [List.map_cons, List.sum_cons, ih, List.length_cons, Nat.add_comm]

/-- The number of lines `if [ $? -eq 0 ]; then` of the script is the number of issues. -/
theorem script_count_blocks (g : Generator) (issues : List report.Issue) (now : GoString)
    (toUpper : GoString → GoString) (order : List GoString)
    (hnodup : order.Nodup) (hcov : ∀ i ∈ issues, i.Category ∈ order)
    (hnow : '\n' ∉ now) (hup : ∀ c ∈ order, '\n' ∉ toUpper c)
    (hiss : ∀ i ∈ issues, '\n' ∉ i.Description ∧ '\n' ∉ i.Severity ∧
      '\n' ∉ (if g.mountPoint ≠ [] then g.adaptCommandForMountPoint i.FixCommand
        else i.FixCommand) ∧
      (if g.mountPoint ≠ [] then g.adaptCommandForMountPoint i.FixCommand
        else i.FixCommand) ≠ "if [ $? -eq 0 ]; then".toList) :
    ((strings.Split (g.scriptContent issues now toUpper order) "\n".toList).filter
      fun l => decide (l = "if [ $? -eq 0 ]; then".toList)).length = issues.length := by
  have h := scriptContent_lines g issues now toUpper order "if [ $? -eq 0 ]; then".toList
    hnow hup hiss ⟨'i', rfl, by decide, by decide, by decide⟩ (by decide) (by decide)
    markers_not_in_supportFunctions.1
  rw [strings.lines_count _ _ _ (by decide) h]
  have hk : (fun c : GoString =>
      0 + (if c = "ssh".toList then
          (if "if [ $? -eq 0 ]; then".toList = "backup_file /etc/ssh/sshd_config".toList
            then 1 else 0)
        else if c = "sysctl".toList then
          (if "if [ $? -eq 0 ]; then".toList = "backup_file /etc/sysctl.conf".toList
            then 1 else 0)
        else 0) +
      ((issues.filter fun issue => issue.Category == c).map fun _ =>
        if "if [ $? -eq 0 ]; then".toList = "if [ $? -eq 0 ]; then".toList then 1
        else 0).sum) =
      fun c => (issues.filter fun issue => issue.Category == c).length := by
    funext c
    rw [if_neg (show ¬ "if [ $? -eq 0 ]; then".toList =
        "backup_file /etc/ssh/sshd_config".toList by decide),
      if_neg (show ¬ "if [ $? -eq 0 ]; then".toList =
        "backup_file /etc/sysctl.conf".toList by decide),
      if_pos (show "if [ $? -eq 0 ]; then".toList = "if [ $? -eq 0 ]; then".toList from rfl),
      sum_map_one]
    simp only [ite_self, Nat.zero_add]
  rw [hk, Nat.zero_add, Nat.add_zero]
  exact sum_filter_length order hnodup issues hcov

/-- The number of lines `backup_file <path>` of the script, for the file of `ssh` or of
`sysctl`: one when the category is visited, none otherwise. -/
theorem script_count_backup (g : Generator) (issues : List report.Issue) (now : GoString)
    (toUpper : GoString → GoString) (order : List GoString) (category path : GoString)
    (hcp : (category = "ssh".toList ∧ path = "/etc/ssh/sshd_config".toList) ∨
      (category = "sysctl".toList ∧ path = "/etc/sysctl.conf".toList))
    (hnodup : order.Nodup)
    (hnow : '\n' ∉ now) (hup : ∀ c ∈ order, '\n' ∉ toUpper c)
    (hiss : ∀ i ∈ issues, '\n' ∉ i.Description ∧ '\n' ∉ i.Severity ∧
      '\n' ∉ (if g.mountPoint ≠ [] then g.adaptCommandForMountPoint i.FixCommand
        else i.FixCommand) ∧
      (if g.mountPoint ≠ [] then g.adaptCommandForMountPoint i.FixCommand
        else i.FixCommand) ≠ "backup_file ".toList ++ path) :
    ((strings.Split (g.scriptContent issues now toUpper order) "\n".toList).filter
      fun l => decide (l = "backup_file ".toList ++ path)).length =
        if category ∈ order then 1 else 0 := by
  have hsum : (order.map fun x => if category = x then 1 else 0).sum =
      if category ∈ order then 1 else 0 := by
    by_cases hm : category ∈ order
    · rw [if_pos hm, sum_map_indicator order hnodup category hm]
    · rw [if_neg hm, sum_map_indicator_of_not_mem order category hm]
  rcases hcp with ⟨rfl, rfl⟩ | ⟨rfl, rfl⟩
  · have h := scriptContent_lines g issues now toUpper order
      ("backup_file ".toList ++ "/etc/ssh/sshd_config".toList)
      hnow hup hiss ⟨'b', rfl, by decide, by decide, by decide⟩ (by decide) (by decide)
      markers_not_in_supportFunctions.2.1
    rw [strings.lines_count _ _ _ (by decide) h, ← hsum]
    have hk : (fun c : GoString =>
        0 + (if c = "ssh".toList then
            (if "backup_file ".toList ++ "/etc/ssh/sshd_config".toList =
              "backup_file /etc/ssh/sshd_config".toList then 1 else 0)
          else if c = "sysctl".toList then
            (if "backup_file ".toList ++ "/etc/ssh/sshd_config".toList =
              "backup_file /etc/sysctl.conf".toList then 1 else 0)
          else 0) +
        ((issues.filter fun issue => issue.Category == c).map fun _ =>
          if "backup_file ".toList ++ "/etc/ssh/sshd_config".toList =
            "if [ $? -eq 0 ]; then".toList then 1 else 0).sum) =
        fun x => if "ssh".toList = x then 1 else 0 := by
      funext c
      rw [if_pos (show "backup_file ".toList ++ "/etc/ssh/sshd_config".toList =
          "backup_file /etc/ssh/sshd_config".toList by decide),
        if_neg (show ¬ "backup_file ".toList ++ "/etc/ssh/sshd_config".toList =
          "backup_file /etc/sysctl.conf".toList by decide),
        if_neg (show ¬ "backup_file ".toList ++ "/etc/ssh/sshd_config".toList =
          "if [ $? -eq 0 ]; then".toList by decide), sum_map_zero]
      by_cases hc : c = "ssh".toList
      · rw [if_pos hc, if_pos (show "ssh".toList = c from hc.symm)]
      · rw [if_neg hc, if_neg (show ¬ "ssh".toList = c from fun e => hc e.symm)]
        simp only [ite_self]
    rw [hk, Nat.zero_add, Nat.add_zero]
  · have h := scriptContent_lines g issues now toUpper order
      ("backup_file ".toList ++ "/etc/sysctl.conf".toList)
      hnow hup hiss ⟨'b', rfl, by decide, by decide, by decide⟩ (by decide) (by decide)
      markers_not_in_supportFunctions.2.2
    rw [strings.lines_count _ _ _ (by decide) h, ← hsum]
    have hk : (fun c : GoString =>
        0 + (if c = "ssh".toList then
            (if "backup_file ".toList ++ "/etc/sysctl.conf".toList =
              "backup_file /etc/ssh/sshd_config".toList then 1 else 0)
          else if c = "sysctl".toList then
            (if "backup_file ".toList ++ "/etc/sysctl.conf".toList =
              "backup_file /etc/sysctl.conf".toList then 1 else 0)
          else 0) +
        ((issues.filter fun issue => issue.Category == c).map fun _ =>
          if "backup_file ".toList ++ "/etc/sysctl.conf".toList =
            "if [ $? -eq 0 ]; then".toList then 1 else 0).sum) =
        fun x => if "sysctl".toList = x then 1 else 0 := by
      funext c
      rw [if_neg (show ¬ "backup_file ".toList ++ "/etc/sysctl.conf".toList =
          "backup_file /etc/ssh/sshd_config".toList by decide),
        if_pos (show "backup_file ".toList ++ "/etc/sysctl.conf".toList =
          "backup_file /etc/sysctl.conf".toList by decide),
        if_neg (show ¬ "backup_file ".toList ++ "/etc/sysctl.conf".toList =
          "if [ $? -eq 0 ]; then".toList by decide), sum_map_zero]
      by_cases hc : c = "ssh".toList
      · have hne : ¬ "sysctl".toList = c := by
          rw [hc]
          decide
        rw [if_pos hc, if_neg hne]
      · rw [if_neg hc]
        by_cases hs : c = "sysctl".toList
        · rw [if_pos hs, if_pos (show "sysctl".toList = c from hs.symm)]
        · rw [if_neg hs, if_neg (show ¬ "sysctl".toList = c from fun e => hs e.symm)]
    rw [hk, Nat.zero_add, Nat.add_zero]

end fixer


/-! ## The claims -/

/-- C1, as stated, fails: the sysctl line `kernel.sysrq =` records the empty value for
the exact-match rule `kernel.sysrq`; the value differs from the recommended `0`, and the one
issue produced has an empty current value. -/
theorem exact_match_current_value_unpopulated :
    ∃ rule ∈ sysctl.getDefaultRules,
      (rule.ComparisonFunc = fun actual recommended => actual == recommended) ∧
      sysctl.parseConfig ["kernel.sysrq =".toList] rule.Key = some [] ∧
      [] ≠ rule.RecommendedValue ∧
      ∃ issue,
        sysctl.checkRule (sysctl.parseConfig ["kernel.sysrq =".toList]) [] rule = [issue] ∧
        issue.CurrentValue = [] :=
  ⟨sysctl.getDefaultRules[13], List.getElem_mem _, rfl, by decide, by decide, _, rfl, rfl⟩

/-- C1, amended: for an exact-match rule of either table whose key is present with value
`v`, the rule loop adds no issue when `v` is the recommended value and exactly one issue
otherwise; that issue has current value `v` and the rule's recommended value, which is
non-empty.  The current value is non-empty whenever `v` is, which is always the case for a
mapping parsed from an SSH file. -/
theorem exact_match_verdict :
    (∀ rule ∈ ssh.getDefaultRules,
      (∀ actual recommended,
        rule.ComparisonFunc actual recommended = (actual == recommended)) →
      ∀ (lines : List GoString) (issues : List report.Issue) (v : GoString),
        ssh.parseConfig lines rule.Key = some v →
        (v = rule.RecommendedValue →
          ssh.checkRule (ssh.parseConfig lines) issues rule = issues) ∧
        (v ≠ rule.RecommendedValue →
          ∃ issue, ssh.checkRule (ssh.parseConfig lines) issues rule = issues ++ [issue] ∧
            issue.CurrentValue = v ∧ issue.CurrentValue ≠ [] ∧
            issue.RecommendedValue = rule.RecommendedValue ∧
            issue.RecommendedValue ≠ [])) ∧
    (∀ rule ∈ sysctl.getDefaultRules,
      (∀ actual recommended,
        rule.ComparisonFunc actual recommended = (actual == recommended)) →
      ∀ (config : Config) (issues : List report.Issue) (v : GoString),
        config rule.Key = some v →
        (v = rule.RecommendedValue → sysctl.checkRule config issues rule = issues) ∧
        (v ≠ rule.RecommendedValue →
          ∃ issue, sysctl.checkRule config issues rule = issues ++ [issue] ∧
            issue.CurrentValue = v ∧ (v ≠ [] → issue.CurrentValue ≠ []) ∧
            issue.RecommendedValue = rule.RecommendedValue ∧
            issue.RecommendedValue ≠ [])) := by
  constructor
  · intro rule hmem hexact lines issues v hv
    have hrec := ssh.ssh_recommended_ne_nil rule hmem
    have hne := ssh.ssh_parseConfig_value_ne_nil lines rule.Key v hv
    rw [ssh.ssh_checkRule_present _ issues rule v hv, hexact]
    constructor
    · intro he
      simp [he]
    · intro he
      rw [if_neg (by simpa using he)]
      exact ⟨_, rfl, rfl, hne, rfl, hrec⟩
  · intro rule hmem hexact config issues v hv
    have hrec := sysctl.sysctl_recommended_ne_nil rule hmem
    rw [sysctl.sysctl_checkRule_present _ issues rule v hv, hexact]
    constructor
    · intro he
      simp [he]
    · intro he
      rw [if_neg (by simpa using he)]
      exact ⟨_, rfl, rfl, fun h => h, rfl, hrec⟩

/-- C1, amended, at the line `PermitRootLogin yes`. -/
theorem exact_match_verdict_witness :
    ∃ issue,
      ssh.checkRule (ssh.parseConfig ["PermitRootLogin yes".toList]) [] ssh.getDefaultRules[0]
        = [] ++ [issue] ∧
      issue.CurrentValue = "yes".toList ∧ issue.CurrentValue ≠ [] ∧
      issue.RecommendedValue = (ssh.getDefaultRules[0]).RecommendedValue ∧
      issue.RecommendedValue ≠ [] :=
  (exact_match_verdict.1 ssh.getDefaultRules[0] (List.getElem_mem _) (fun _ _ => rfl)
    ["PermitRootLogin yes".toList] [] "yes".toList (by decide)).2 (by decide)

/-- C2: a rule whose key the mapping lacks adds exactly one issue, whatever its comparison
function: the issue carries the rule's severity, description and recommended value, its
current value is empty, and for SSH its command appends the line
`<key> <recommended>` to `/etc/ssh/sshd_config`.  Replacing the comparison function of the
rule changes nothing, and the issue is in the list `Analyze` returns. -/
theorem missing_key_issue :
    (∀ (rule : ssh.SSHRule) (config : Config) (issues : List report.Issue),
      config rule.Key = none →
      ssh.checkRule config issues rule =
        issues ++ [{ Category := "ssh".toList
                     Severity := rule.Severity
                     Description := rule.Description
                     CurrentValue := []
                     RecommendedValue := rule.RecommendedValue
                     FixCommand := "echo '".toList ++ rule.Key ++ " ".toList ++
                       rule.RecommendedValue ++ "' >> /etc/ssh/sshd_config".toList }] ∧
      (∀ f, ssh.checkRule config issues { rule with ComparisonFunc := f } =
        ssh.checkRule config issues rule) ∧
      (∀ (a : ssh.Analyzer) (tokens : List GoString),
        rule ∈ a.rules → ssh.parseConfig tokens = config →
        ∃ found, a.Analyze (.readable tokens false) = .ok found ∧
          ({ Category := "ssh".toList
             Severity := rule.Severity
             Description := rule.Description
             CurrentValue := []
             RecommendedValue := rule.RecommendedValue
             FixCommand := "echo '".toList ++ rule.Key ++ " ".toList ++
               rule.RecommendedValue ++ "' >> /etc/ssh/sshd_config".toList } :
            report.Issue) ∈ found)) ∧
    (∀ (rule : sysctl.SysctlRule) (config : Config) (issues : List report.Issue),
      config rule.Key = none →
      sysctl.checkRule config issues rule =
        issues ++ [{ Category := "sysctl".toList
                     Severity := rule.Severity
                     Description := rule.Description
                     CurrentValue := []
                     RecommendedValue := rule.RecommendedValue
                     FixCommand := "echo '".toList ++ rule.Key ++ " = ".toList ++
                       rule.RecommendedValue ++
                       "' >> /etc/sysctl.conf && sysctl -p".toList }] ∧
      (∀ f, sysctl.checkRule config issues { rule with ComparisonFunc := f } =
        sysctl.checkRule config issues rule)) := by
  constructor
  · intro rule config issues h
    have h1 : ∀ (r : ssh.SSHRule) (acc : List report.Issue), config r.Key = none →
        ssh.checkRule config acc r =
          acc ++ [{ Category := "ssh".toList
                    Severity := r.Severity
                    Description := r.Description
                    CurrentValue := []
                    RecommendedValue := r.RecommendedValue
                    FixCommand := "echo '".toList ++ r.Key ++ " ".toList ++
                      r.RecommendedValue ++ "' >> /etc/ssh/sshd_config".toList }] := by
      intro r acc hr
      unfold ssh.checkRule
      rw [hr]
    refine ⟨h1 rule issues h, ?_, ?_⟩
    · intro f
      rw [h1 rule issues h, h1 { rule with ComparisonFunc := f } issues h]
    · intro a tokens hmem hcfg
      refine ⟨_, rfl, ?_⟩
      rw [ssh.ssh_mem_checkRules]
      refine ⟨rule, hmem, ?_⟩
      rw [hcfg, h1 rule [] h]
      simp
  · intro rule config issues h
    have h1 : ∀ (r : sysctl.SysctlRule), config r.Key = none →
        sysctl.checkRule config issues r =
          issues ++ [{ Category := "sysctl".toList
                       Severity := r.Severity
                       Description := r.Description
                       CurrentValue := []
                       RecommendedValue := r.RecommendedValue
                       FixCommand := "echo '".toList ++ r.Key ++ " = ".toList ++
                         r.RecommendedValue ++
                         "' >> /etc/sysctl.conf && sysctl -p".toList }] := by
      intro r hr
      unfold sysctl.checkRule
      rw [hr]
    refine ⟨h1 rule h, ?_⟩
    intro f
    rw [h1 rule h, h1 { rule with ComparisonFunc := f } h]

/-- C2 at the empty `sshd_config` and the rule `PermitRootLogin`. -/
theorem missing_key_issue_witness :
    ssh.checkRule (ssh.parseConfig []) [] ssh.getDefaultRules[0] =
      [] ++ [{ Category := "ssh".toList
               Severity := report.SeverityCritical
               Description := "Login direto como root deve ser desabilitado".toList
               CurrentValue := []
               RecommendedValue := "no".toList
               FixCommand := "echo 'PermitRootLogin no' >> /etc/ssh/sshd_config".toList }] :=
  (missing_key_issue.1 ssh.getDefaultRules[0] (ssh.parseConfig []) [] (by decide)).1

/-- C3: whatever the drop-in directory holds, a key the mapping already has keeps its value
in the merged mapping, so a key assigned by the primary file keeps the primary file's value;
a drop-in line changes the mapping only at a key the mapping lacks; a directory whose files
all open and scan yields a merged mapping.  With `net.ipv4.tcp_syncookies=1` in the primary
file and `net.ipv4.tcp_syncookies=0` in a drop-in file, `Analyze` succeeds, its fourteen
issues are those of the other rules, and the rule's check adds no issue. -/
theorem primary_file_precedence :
    (∀ (lines : List GoString) (dir : DirState) (merged : Config) (k v : GoString),
      sysctl.parseConfig lines k = some v →
      sysctl.readSysctlDFromPath dir (sysctl.parseConfig lines) = .ok merged →
      merged k = some v) ∧
    (∀ (config : Config) (dir : DirState) (merged : Config) (k v : GoString),
      config k = some v → sysctl.readSysctlDFromPath dir config = .ok merged →
      merged k = some v) ∧
    (∀ (config : Config) (text k : GoString),
      sysctl.parseDropInLine config text k ≠ config k → config k = none) ∧
    (∀ (config : Config) (files : List DirEntry),
      (∀ f ∈ files, ∃ tokens, f.file = .readable tokens false) →
      ∃ merged, sysctl.readSysctlDFromPath (.entries files) config = .ok merged) ∧
    (∃ merged issues,
      sysctl.readSysctlDFromPath
        (.entries [⟨"10-network.conf".toList, false,
          .readable ["net.ipv4.tcp_syncookies=0".toList] false⟩])
        (sysctl.parseConfig ["net.ipv4.tcp_syncookies=1".toList]) = .ok merged ∧
      merged "net.ipv4.tcp_syncookies".toList = some "1".toList ∧
      sysctl.checkRule merged [] sysctl.getDefaultRules[0] = [] ∧
      sysctl.Analyzer.Analyze ⟨[], "/etc/sysctl.conf".toList, sysctl.getDefaultRules⟩
        (.readable ["net.ipv4.tcp_syncookies=1".toList] false)
        (.entries [⟨"10-network.conf".toList, false,
          .readable ["net.ipv4.tcp_syncookies=0".toList] false⟩]) = .ok issues ∧
      issues.length = 14 ∧
      ∀ issue ∈ issues, issue.Description ≠ (sysctl.getDefaultRules[0]).Description) := by
  have keep : ∀ (config : Config) (dir : DirState) (merged : Config) (k v : GoString),
      config k = some v → sysctl.readSysctlDFromPath dir config = .ok merged →
      merged k = some v := by
    intro config dir merged k v hk hr
    cases dir with
    | notExist =>
      simp only [sysctl.readSysctlDFromPath, Except.ok.injEq] at hr
      rw [← hr]; exact hk
    | readFails => simp [sysctl.readSysctlDFromPath] at hr
    | entries files => exact sysctl.readDropIns_keeps files config merged k v hk hr
  refine ⟨fun lines dir merged k v => keep _ dir merged k v, keep,
    sysctl.parseDropInLine_changes, ?_, ?_⟩
  · intro config files h
    exact sysctl.readDropIns_ok files config h
  · refine ⟨_, _, rfl, ?_, ?_, rfl, ?_, ?_⟩ <;> decide

/-- C3 at the one-line primary file `net.ipv4.tcp_syncookies=1` and an absent drop-in
directory. -/
theorem primary_file_precedence_witness :
    sysctl.parseConfig ["net.ipv4.tcp_syncookies=1".toList]
      "net.ipv4.tcp_syncookies".toList = some "1".toList :=
  primary_file_precedence.1 ["net.ipv4.tcp_syncookies=1".toList] .notExist
    (sysctl.parseConfig ["net.ipv4.tcp_syncookies=1".toList])
    "net.ipv4.tcp_syncookies".toList "1".toList (by decide) rfl

/-- C4, as stated, fails: the line `PermitRootLogin<TAB>no` holds no space character, so
nothing is recorded for `PermitRootLogin`. -/
theorem ssh_tab_separated_line_not_recorded :
    ssh.parseConfig ["PermitRootLogin\tno".toList] "PermitRootLogin".toList = none := by
  decide

/-- C4, amended: a line that, after trimming, is non-empty and does not begin with `#` is
split at its first space character: the key is the trimmed text before that space, the value
the trimmed text after it, both are non-empty and the pair is recorded; a line with no space
character does not split in two and is discarded.  The line `PermitRootLogin   no` records
(PermitRootLogin, no). -/
theorem ssh_line_split_at_first_space (config : Config) (text : GoString)
    (h1 : strings.TrimSpace text ≠ [])
    (h2 : strings.HasPrefix (strings.TrimSpace text) "#".toList = false) :
    (' ' ∈ strings.TrimSpace text →
      ∃ before after, strings.TrimSpace text = before ++ ' ' :: after ∧ ' ' ∉ before ∧
        strings.TrimSpace before ≠ [] ∧ strings.TrimSpace after ≠ [] ∧
        ssh.parseLine config text =
          config.set (strings.TrimSpace before) (strings.TrimSpace after)) ∧
    (' ' ∉ strings.TrimSpace text → ssh.parseLine config text = config) ∧
    ssh.parseConfig ["PermitRootLogin   no".toList] "PermitRootLogin".toList =
      some "no".toList := by
  refine ⟨?_, ssh.ssh_parseLine_of_not_mem config text, by decide⟩
  intro h
  obtain ⟨b, a, hs, hb, hp⟩ := ssh.ssh_parseLine_of_mem config text h1 h2 h
  have hne := strings.trimmed_halves_ne_nil text b a hs
  exact ⟨b, a, hs, hb, hne.1, hne.2, hp⟩

/-- C4, amended, at the line `PermitRootLogin   no`. -/
theorem ssh_line_split_at_first_space_witness :
    ∃ before after,
      strings.TrimSpace "PermitRootLogin   no".toList = before ++ ' ' :: after ∧
      ' ' ∉ before ∧ strings.TrimSpace before ≠ [] ∧ strings.TrimSpace after ≠ [] ∧
      ssh.parseLine Config.empty "PermitRootLogin   no".toList =
        Config.empty.set (strings.TrimSpace before) (strings.TrimSpace after) :=
  (ssh_line_split_at_first_space Config.empty "PermitRootLogin   no".toList
    (by decide) (by decide)).1 (by decide)

/-- C5, as stated, fails: the line `a=b=c`, which holds two `=`, is recorded with the key
`a` and the value `b=c`, and the line `= 1`, which has no key, is recorded under the empty
key; neither is discarded. -/
theorem sysctl_line_with_two_equals_recorded :
    sysctl.parseConfig ["a=b=c".toList] "a".toList = some "b=c".toList ∧
    sysctl.parseConfig ["= 1".toList] [] = some "1".toList := by
  decide

/-- C5, amended: a line of the primary sysctl file that, after trimming, is non-empty and
does not begin with `#` and holds an `=` is split at its first `=`; the key is the text
before it and the value the text after it, each without the white space at its two ends and
otherwise unchanged, and the pair is recorded, also when the value holds further `=` or when
the key or the value is empty.  A line with no `=` is discarded and leaves the mapping as it
was.  So ` kernel.sysrq = 0 ` records (kernel.sysrq, 0), `a=b=c` records (a, b=c), `= 1`
records the empty key with 1, `kernel.sysrq =` records an empty value, and `kernel.sysrq 0`
records nothing. -/
theorem sysctl_line_split_at_first_equals (config : Config) (text : GoString)
    (h1 : strings.TrimSpace text ≠ [])
    (h2 : strings.HasPrefix (strings.TrimSpace text) "#".toList = false) :
    ('=' ∈ strings.TrimSpace text →
      ∃ before after key value l1 r1 l2 r2,
        strings.TrimSpace text = before ++ '=' :: after ∧ '=' ∉ before ∧
        before = l1 ++ key ++ r1 ∧ after = l2 ++ value ++ r2 ∧
        (∀ c ∈ l1 ++ r1 ++ l2 ++ r2, unicode.IsSpace c = true) ∧
        (∀ c, key.head? = some c ∨ key.getLast? = some c ∨ value.head? = some c ∨
          value.getLast? = some c → unicode.IsSpace c = false) ∧
        sysctl.parseLine config text = config.set key value ∧
        sysctl.parseLine config text key = some value) ∧
    ('=' ∉ strings.TrimSpace text → sysctl.parseLine config text = config) ∧
    sysctl.parseConfig [" kernel.sysrq = 0 ".toList] "kernel.sysrq".toList =
      some "0".toList ∧
    sysctl.parseConfig ["a=b=c".toList] "a".toList = some "b=c".toList ∧
    sysctl.parseConfig ["= 1".toList] [] = some "1".toList ∧
    sysctl.parseConfig ["kernel.sysrq =".toList] "kernel.sysrq".toList = some [] ∧
    sysctl.parseLine Config.empty "kernel.sysrq 0".toList = Config.empty := by
  refine ⟨?_, sysctl.sysctl_parseLine_of_not_mem config text, by decide, by decide,
    by decide, by decide, rfl⟩
  intro h
  obtain ⟨b, a, hs, hb, hp⟩ := sysctl.sysctl_parseLine_of_mem config text h1 h2 h
  obtain ⟨l1, r1, hb1, hl1, hr1, hkh, hkl⟩ := strings.TrimSpace_decompose b
  obtain ⟨l2, r2, ha1, hl2, hr2, hvh, hvl⟩ := strings.TrimSpace_decompose a
  refine ⟨b, a, strings.TrimSpace b, strings.TrimSpace a, l1, r1, l2, r2, hs, hb, hb1, ha1,
    ?_, ?_, hp, ?_⟩
  · intro c hc
    simp only [List.mem_append] at hc
    rcases hc with ((hc | hc) | hc) | hc
    · exact hl1 c hc
    · exact hr1 c hc
    · exact hl2 c hc
    · exact hr2 c hc
  · intro c hc
    rcases hc with hc | hc | hc | hc
    · exact hkh c hc
    · exact hkl c hc
    · exact hvh c hc
    · exact hvl c hc
  · rw [hp, Config.set_apply, if_pos rfl]

/-- C5, amended, at the line ` net.ipv4.ip_forward = 0 `. -/
theorem sysctl_line_split_at_first_equals_witness :
    ∃ before after key value l1 r1 l2 r2,
      strings.TrimSpace " net.ipv4.ip_forward = 0 ".toList = before ++ '=' :: after ∧
      '=' ∉ before ∧
      before = l1 ++ key ++ r1 ∧ after = l2 ++ value ++ r2 ∧
      (∀ c ∈ l1 ++ r1 ++ l2 ++ r2, unicode.IsSpace c = true) ∧
      (∀ c, key.head? = some c ∨ key.getLast? = some c ∨ value.head? = some c ∨
        value.getLast? = some c → unicode.IsSpace c = false) ∧
      sysctl.parseLine Config.empty " net.ipv4.ip_forward = 0 ".toList =
        Config.empty.set key value ∧
      sysctl.parseLine Config.empty " net.ipv4.ip_forward = 0 ".toList key = some value :=
  (sysctl_line_split_at_first_equals Config.empty " net.ipv4.ip_forward = 0 ".toList
    (by decide) (by decide)).1 (by decide)

/-- C6: in an SSH file and in the primary sysctl file the last line that assigns a key
decides: when `line` assigns `k` the value `v` and no later line assigns `k`, the parsed
mapping holds `v` for `k`, whatever the earlier lines assign, and the check of a rule with
key `k` is made on `v`. -/
theorem last_assignment_wins :
    (∀ (before after : List GoString) (line k v : GoString),
      ssh.parseLine Config.empty line k = some v →
      (∀ l ∈ after, ssh.parseLine Config.empty l k = none) →
      ssh.parseConfig (before ++ line :: after) k = some v ∧
      ∀ (rule : ssh.SSHRule) (issues : List report.Issue), rule.Key = k →
        ssh.checkRule (ssh.parseConfig (before ++ line :: after)) issues rule =
          if rule.ComparisonFunc v rule.RecommendedValue = true then issues
          else issues ++ [{ Category := "ssh".toList
                            Severity := rule.Severity
                            Description := rule.Description
                            CurrentValue := v
                            RecommendedValue := rule.RecommendedValue
                            FixCommand := "sed -i 's/^".toList ++ rule.Key ++
                              ".*/".toList ++ rule.Key ++ " ".toList ++
                              rule.RecommendedValue ++
                              "/' /etc/ssh/sshd_config".toList }]) ∧
    (∀ (before after : List GoString) (line k v : GoString),
      sysctl.parseLine Config.empty line k = some v →
      (∀ l ∈ after, sysctl.parseLine Config.empty l k = none) →
      sysctl.parseConfig (before ++ line :: after) k = some v ∧
      ∀ (rule : sysctl.SysctlRule) (issues : List report.Issue), rule.Key = k →
        sysctl.checkRule (sysctl.parseConfig (before ++ line :: after)) issues rule =
          if rule.ComparisonFunc v rule.RecommendedValue = true then issues
          else issues ++ [{ Category := "sysctl".toList
                            Severity := rule.Severity
                            Description := rule.Description
                            CurrentValue := v
                            RecommendedValue := rule.RecommendedValue
                            FixCommand := "sed -i 's/^".toList ++ rule.Key ++
                              ".*/".toList ++ rule.Key ++ " = ".toList ++
                              rule.RecommendedValue ++
                              "/' /etc/sysctl.conf && sysctl -p".toList }]) := by
  constructor
  · intro before after line k v hline hafter
    have hv : ssh.parseConfig (before ++ line :: after) k = some v :=
      foldl_last_assignment ssh.parseLine ssh.ssh_parseLine_apply before after line k v hline
        hafter Config.empty
    refine ⟨hv, ?_⟩
    intro rule issues hkey
    subst hkey
    exact ssh.ssh_checkRule_present _ issues rule v hv
  · intro before after line k v hline hafter
    have hv : sysctl.parseConfig (before ++ line :: after) k = some v :=
      foldl_last_assignment sysctl.parseLine sysctl.sysctl_parseLine_apply before after line k v
        hline hafter Config.empty
    refine ⟨hv, ?_⟩
    intro rule issues hkey
    subst hkey
    exact sysctl.sysctl_checkRule_present _ issues rule v hv

/-- C6 at the file `PermitRootLogin yes`, `PermitRootLogin no`, `# end`. -/
theorem last_assignment_wins_witness :
    ssh.parseConfig (["PermitRootLogin yes".toList] ++
      "PermitRootLogin no".toList :: ["# end".toList]) "PermitRootLogin".toList =
        some "no".toList :=
  (last_assignment_wins.1 ["PermitRootLogin yes".toList] ["# end".toList]
    "PermitRootLogin no".toList "PermitRootLogin".toList "no".toList
    (by decide) (by decide)).1

/-- C7, as stated, fails: with an empty primary file and one drop-in file whose lines are
`kernel.sysrq=0` then `kernel.sysrq=1`, the merged mapping holds `0`, the value of the first
line, not `1`, the value of the last. -/
theorem drop_in_last_assignment_lost :
    ∃ merged,
      sysctl.readSysctlDFromPath
        (.entries [⟨"50-local.conf".toList, false,
          .readable ["kernel.sysrq=0".toList, "kernel.sysrq=1".toList] false⟩])
        (sysctl.parseConfig []) = .ok merged ∧
      merged "kernel.sysrq".toList = some "0".toList ∧
      merged "kernel.sysrq".toList ≠ some "1".toList := by
  refine ⟨_, rfl, ?_, ?_⟩ <;> decide

/-- C7, amended: within a drop-in `.conf` file the first assignment wins.  When the mapping
built from the primary file and the earlier drop-in files lacks `k`, no line of the file
before `line` assigns `k` and `line` assigns `k` the value `v`, the merged mapping holds `v`
for `k`, whatever the later lines of the file and the later files assign. -/
theorem drop_in_first_assignment_wins (config : Config) (name : GoString)
    (before after : List GoString) (line k v : GoString) (rest : List DirEntry)
    (hname : strings.HasSuffix name ".conf".toList = true)
    (hk : config k = none)
    (hbefore : ∀ l ∈ before, sysctl.parseDropInLine Config.empty l k = none)
    (hline : sysctl.parseDropInLine Config.empty line k = some v)
    (hrest : ∀ f ∈ rest, ∃ tokens, f.file = .readable tokens false) :
    ∃ merged,
      sysctl.readSysctlDFromPath
        (.entries (⟨name, false, .readable (before ++ line :: after) false⟩ :: rest))
        config = .ok merged ∧
      merged k = some v := by
  have hfirst := sysctl.foldl_parseDropInLine_first before after line k v config hk hbefore
    hline
  obtain ⟨merged, hm⟩ := sysctl.readDropIns_ok rest
    ((before ++ line :: after).foldl sysctl.parseDropInLine config) hrest
  refine ⟨merged, ?_, sysctl.readDropIns_keeps rest _ merged k v hfirst hm⟩
  simp only [sysctl.readSysctlDFromPath, sysctl.readDropIns, hname]
  simpa using hm

/-- C7, amended, at the drop-in file `kernel.sysrq=0`, `kernel.sysrq=1`. -/
theorem drop_in_first_assignment_wins_witness :
    ∃ merged,
      sysctl.readSysctlDFromPath
        (.entries (⟨"50-local.conf".toList, false,
          .readable ([] ++ "kernel.sysrq=0".toList :: ["kernel.sysrq=1".toList]) false⟩ ::
            []))
        Config.empty = .ok merged ∧
      merged "kernel.sysrq".toList = some "0".toList :=
  drop_in_first_assignment_wins Config.empty "50-local.conf".toList []
    ["kernel.sysrq=1".toList] "kernel.sysrq=0".toList "kernel.sysrq".toList "0".toList []
    (by decide) rfl (by simp) (by decide) (by simp)

/-- C8: the rules `MaxAuthTries` (threshold `4`) and `ClientAliveCountMax` (threshold `3`)
pass a present value exactly when the value is, as a string, lexicographically at most the
threshold: equal to it, or below it in the lexicographic order of the code points.  This is
not the order of the integers: for `MaxAuthTries` the value `10` passes, and the value `5`
yields a WARNING issue with current value `5` and recommended value `4`. -/
theorem lexicographic_ceiling :
    (∀ rule ∈ ssh.getDefaultRules,
      (rule.Key = "MaxAuthTries".toList → rule.RecommendedValue = "4".toList) ∧
      (rule.Key = "ClientAliveCountMax".toList → rule.RecommendedValue = "3".toList) ∧
      (rule.Key = "MaxAuthTries".toList ∨ rule.Key = "ClientAliveCountMax".toList →
        ∀ (config : Config) (issues : List report.Issue) (v : GoString),
          config rule.Key = some v →
          (ssh.checkRule config issues rule = issues ↔
            (v = rule.RecommendedValue ∨
              List.Lex (fun x y : Char => x.toNat < y.toNat) v rule.RecommendedValue)))) ∧
    (ssh.getDefaultRules[5]).Key = "MaxAuthTries".toList ∧
    ssh.checkRule (ssh.parseConfig ["MaxAuthTries 10".toList]) [] ssh.getDefaultRules[5]
      = [] ∧
    ssh.checkRule (ssh.parseConfig ["MaxAuthTries 5".toList]) [] ssh.getDefaultRules[5] =
      [{ Category := "ssh".toList
         Severity := report.SeverityWarning
         Description :=
           "Número máximo de tentativas de autenticação deve ser limitado".toList
         CurrentValue := "5".toList
         RecommendedValue := "4".toList
         FixCommand :=
           "sed -i 's/^MaxAuthTries.*/MaxAuthTries 4/' /etc/ssh/sshd_config".toList }] := by
  refine ⟨?_, by decide, by decide, by decide⟩
  intro rule hmem
  have hcmp : rule.Key = "MaxAuthTries".toList ∨ rule.Key = "ClientAliveCountMax".toList →
      rule.ComparisonFunc = fun actual recommended => stringLE actual recommended := by
    intro hk
    simp only [ssh.getDefaultRules, List.mem_cons, List.mem_singleton, List.not_mem_nil,
      or_false] at hmem
    rcases hmem with rfl | rfl | rfl | rfl | rfl | rfl | rfl | rfl | rfl | rfl
    all_goals first
      | rfl
      | exact absurd hk (by decide)
  refine ⟨?_, ?_, ?_⟩
  · intro hk
    simp only [ssh.getDefaultRules, List.mem_cons, List.mem_singleton, List.not_mem_nil,
      or_false] at hmem
    rcases hmem with rfl | rfl | rfl | rfl | rfl | rfl | rfl | rfl | rfl | rfl
    all_goals first
      | rfl
      | exact absurd hk (by decide)
  · intro hk
    simp only [ssh.getDefaultRules, List.mem_cons, List.mem_singleton, List.not_mem_nil,
      or_false] at hmem
    rcases hmem with rfl | rfl | rfl | rfl | rfl | rfl | rfl | rfl | rfl | rfl
    all_goals first
      | rfl
      | exact absurd hk (by decide)
  · intro hk config issues v hv
    rw [ssh.ssh_checkRule_present config issues rule v hv, hcmp hk, ← stringLE_iff_lex]
    by_cases hle : stringLE v rule.RecommendedValue = true <;> simp [hle]

/-- C8 at the file `MaxAuthTries 10`. -/
theorem lexicographic_ceiling_witness :
    ssh.checkRule (ssh.parseConfig ["MaxAuthTries 10".toList]) [] ssh.getDefaultRules[5]
        = [] ↔
      ("10".toList = (ssh.getDefaultRules[5]).RecommendedValue ∨
        List.Lex (fun x y : Char => x.toNat < y.toNat) "10".toList
          (ssh.getDefaultRules[5]).RecommendedValue) :=
  (lexicographic_ceiling.1 ssh.getDefaultRules[5] (List.getElem_mem _)).2.2 (Or.inl rfl)
    (ssh.parseConfig ["MaxAuthTries 10".toList]) [] "10".toList (by decide)

/-- C9 fails on the code: for the file `MaxAuthTries 10` the rule `MaxAuthTries`, whose
recommended value is `4`, reports no issue, although `10` and `4` are decimal integers and
10 is not at most 4; the same holds for `ClientAliveCountMax 10` against `3`. -/
theorem max_auth_tries_ten_accepted :
    (ssh.getDefaultRules[5]).Key = "MaxAuthTries".toList ∧
    (ssh.getDefaultRules[5]).RecommendedValue = "4".toList ∧
    strconv.Atoi "10".toList = .ok 10 ∧ strconv.Atoi "4".toList = .ok 4 ∧
    ¬ ((10 : Int) ≤ 4) ∧
    ssh.parseConfig ["MaxAuthTries 10".toList] "MaxAuthTries".toList = some "10".toList ∧
    ssh.checkRule (ssh.parseConfig ["MaxAuthTries 10".toList]) [] ssh.getDefaultRules[5]
      = [] ∧
    (ssh.getDefaultRules[7]).Key = "ClientAliveCountMax".toList ∧
    (ssh.getDefaultRules[7]).RecommendedValue = "3".toList ∧
    ssh.checkRule (ssh.parseConfig ["ClientAliveCountMax 10".toList]) []
      ssh.getDefaultRules[7] = [] := by
  refine ⟨by decide, by decide, rfl, rfl, by decide, by decide, by decide, by decide,
    by decide, by decide⟩

/-- C10: for the rule `kernel.kptr_restrict` with the key present with value `v`, no issue is
added when `strconv.Atoi` parses `v` to an integer that is at least 1; when `v` does not
parse, as the empty string does not, or parses to an integer below 1, exactly one WARNING
issue is added, with current value `v` and recommended value `1`.  The strings `Atoi` parses
are the decimal notations, with an optional sign, of the integers of the 64-bit range. -/
theorem kptr_restrict_verdict :
    (∀ rule ∈ sysctl.getDefaultRules, rule.Key = "kernel.kptr_restrict".toList →
      ∀ (config : Config) (issues : List report.Issue) (v : GoString),
        config rule.Key = some v →
        ((∃ n, strconv.Atoi v = .ok n ∧ 1 ≤ n) →
          sysctl.checkRule config issues rule = issues) ∧
        (¬ (∃ n, strconv.Atoi v = .ok n ∧ 1 ≤ n) →
          sysctl.checkRule config issues rule =
            issues ++ [{ Category := "sysctl".toList
                         Severity := report.SeverityWarning
                         Description := rule.Description
                         CurrentValue := v
                         RecommendedValue := "1".toList
                         FixCommand := "sed -i 's/^kernel.kptr_restrict.*/".toList ++
                           "kernel.kptr_restrict = 1/' /etc/sysctl.conf && sysctl -p".toList
                         }])) ∧
    (∀ (v : GoString) (n : Int), strconv.Atoi v = .ok n ↔
      ∃ digits : GoString, digits ≠ [] ∧ (∀ c ∈ digits, 48 ≤ c.toNat ∧ c.toNat ≤ 57) ∧
        ((v = digits ∨ v = '+' :: digits) ∧ n = (strconv.decimalValue digits : Int) ∨
          v = '-' :: digits ∧ n = - (strconv.decimalValue digits : Int)) ∧
        - 2 ^ 63 ≤ n ∧ n < 2 ^ 63) ∧
    (∀ n, strconv.Atoi [] ≠ .ok n) := by
  refine ⟨?_, strconv.Atoi_ok_iff, by intro n h; cases h⟩
  intro rule hmem hk config issues v hv
  have hrule : rule = sysctl.getDefaultRules[11] := by
    simp only [sysctl.getDefaultRules, List.mem_cons, List.mem_singleton, List.not_mem_nil,
      or_false] at hmem
    rcases hmem with rfl | rfl | rfl | rfl | rfl | rfl | rfl | rfl | rfl | rfl | rfl | rfl |
      rfl | rfl | rfl
    all_goals first
      | rfl
      | exact absurd hk (by decide)
  subst hrule
  rw [sysctl.sysctl_checkRule_present config issues _ v hv]
  have hcmp : (sysctl.getDefaultRules[11]).ComparisonFunc v
      (sysctl.getDefaultRules[11]).RecommendedValue =
        match strconv.Atoi v with
        | .error _ => false
        | .ok actualInt => decide (actualInt ≥ 1) := rfl
  rw [hcmp]
  cases hA : strconv.Atoi v with
  | error e =>
    constructor
    · rintro ⟨n, hn, _⟩
      cases hn
    · intro _
      rfl
  | ok n =>
    simp only []
    by_cases h1 : 1 ≤ n
    · constructor
      · intro _
        simp [h1]
      · intro hno
        exact absurd ⟨n, rfl, h1⟩ hno
    · constructor
      · rintro ⟨m, hm, h1m⟩
        cases hm
        exact absurd h1m h1
      · intro _
        simp only [ge_iff_le, h1, decide_False]
        rfl

/-- C10 at the mapping of the file `kernel.kptr_restrict = 2`. -/
theorem kptr_restrict_verdict_witness :
    sysctl.checkRule (sysctl.parseConfig ["kernel.kptr_restrict = 2".toList]) []
      sysctl.getDefaultRules[11] = [] :=
  ((kptr_restrict_verdict.1 sysctl.getDefaultRules[11] (List.getElem_mem _) (by decide)
    (sysctl.parseConfig ["kernel.kptr_restrict = 2".toList]) [] "2".toList (by decide)).1
    ⟨2, rfl, by decide⟩)

/-- C11: `ClientAliveInterval` is presence-only.  When some line of the file assigns the key,
whatever the value, the rule adds no issue; when no line assigns it, the rule adds the
missing-key issue, with an empty current value and recommended value `300`.  Through
`Analyze`, under any mount point: the issue list holds an issue of the rule exactly when no
line assigns the key, and every such issue has an empty current value and recommended
value `300`. -/
theorem client_alive_interval_presence_only :
    (ssh.getDefaultRules[6]).Key = "ClientAliveInterval".toList ∧
    (∀ (lines : List GoString) (issues : List report.Issue),
      ((∃ l ∈ lines, ∃ v,
          ssh.parseLine Config.empty l "ClientAliveInterval".toList = some v) →
        ssh.checkRule (ssh.parseConfig lines) issues ssh.getDefaultRules[6] = issues) ∧
      ((∀ l ∈ lines, ssh.parseLine Config.empty l "ClientAliveInterval".toList = none) →
        ssh.checkRule (ssh.parseConfig lines) issues ssh.getDefaultRules[6] =
          issues ++ [{ Category := "ssh".toList
                       Severity := report.SeverityInfo
                       Description := (ssh.getDefaultRules[6]).Description
                       CurrentValue := []
                       RecommendedValue := "300".toList
                       FixCommand :=
                         "echo 'ClientAliveInterval 300' >> /etc/ssh/sshd_config".toList }])) ∧
    (∀ (mountPoint : GoString) (lines : List GoString),
      ∃ found, (ssh.NewAnalyzer mountPoint).Analyze (.readable lines false) = .ok found ∧
        ((∃ issue ∈ found, issue.Description = (ssh.getDefaultRules[6]).Description) ↔
          ∀ l ∈ lines, ssh.parseLine Config.empty l "ClientAliveInterval".toList = none) ∧
        ∀ issue ∈ found, issue.Description = (ssh.getDefaultRules[6]).Description →
          issue.CurrentValue = [] ∧ issue.RecommendedValue = "300".toList) := by
  have hkey : (ssh.getDefaultRules[6]).Key = "ClientAliveInterval".toList := by decide
  have hpresent : ∀ (lines : List GoString) (issues : List report.Issue),
      ssh.parseConfig lines "ClientAliveInterval".toList ≠ none →
      ssh.checkRule (ssh.parseConfig lines) issues ssh.getDefaultRules[6] = issues := by
    intro lines issues hne
    cases hv : ssh.parseConfig lines "ClientAliveInterval".toList with
    | none => exact absurd hv hne
    | some v =>
      have hv0 := ssh.ssh_parseConfig_value_ne_nil lines _ v hv
      rw [ssh.ssh_checkRule_present _ issues _ v (by rw [hkey]; exact hv)]
      have hc : (ssh.getDefaultRules[6]).ComparisonFunc v
          (ssh.getDefaultRules[6]).RecommendedValue = (v != []) := rfl
      rw [hc]
      simp [hv0]
  have habsent : ∀ (lines : List GoString) (issues : List report.Issue),
      ssh.parseConfig lines "ClientAliveInterval".toList = none →
      ssh.checkRule (ssh.parseConfig lines) issues ssh.getDefaultRules[6] =
        issues ++ [{ Category := "ssh".toList
                     Severity := report.SeverityInfo
                     Description := (ssh.getDefaultRules[6]).Description
                     CurrentValue := []
                     RecommendedValue := "300".toList
                     FixCommand :=
                       "echo 'ClientAliveInterval 300' >> /etc/ssh/sshd_config".toList }] := by
    intro lines issues hv
    unfold ssh.checkRule
    rw [hkey, hv]
    rfl
  refine ⟨hkey, ?_, ?_⟩
  · intro lines issues
    constructor
    · rintro ⟨l, hl, v, hlv⟩
      apply hpresent
      intro hnone
      rw [ssh.ssh_parseConfig_eq_none_iff] at hnone
      rw [hnone l hl] at hlv
      cases hlv
    · intro hall
      exact habsent lines issues ((ssh.ssh_parseConfig_eq_none_iff lines _).mpr hall)
  · intro mountPoint lines
    refine ⟨_, rfl, ?_, ?_⟩
    · rw [← ssh.ssh_parseConfig_eq_none_iff]
      constructor
      · rintro ⟨issue, hmem, hd⟩
        rw [ssh.ssh_mem_checkRules] at hmem
        obtain ⟨rule, hrule, hin⟩ := hmem
        have hrd := ssh.ssh_checkRule_description _ rule issue hin
        have hr := ssh.ssh_rule_of_description_six rule hrule (hrd ▸ hd)
        subst hr
        by_contra hne
        rw [hpresent lines [] hne] at hin
        simp at hin
      · intro hnone
        refine ⟨{ Category := "ssh".toList
                  Severity := report.SeverityInfo
                  Description := (ssh.getDefaultRules[6]).Description
                  CurrentValue := []
                  RecommendedValue := "300".toList
                  FixCommand :=
                    "echo 'ClientAliveInterval 300' >> /etc/ssh/sshd_config".toList },
          ?_, rfl⟩
        rw [ssh.ssh_mem_checkRules]
        refine ⟨ssh.getDefaultRules[6], List.getElem_mem _, ?_⟩
        rw [habsent lines [] hnone]
        simp
    · intro issue hmem hd
      rw [ssh.ssh_mem_checkRules] at hmem
      obtain ⟨rule, hrule, hin⟩ := hmem
      have hrd := ssh.ssh_checkRule_description _ rule issue hin
      have hr := ssh.ssh_rule_of_description_six rule hrule (hrd ▸ hd)
      subst hr
      by_cases hne : ssh.parseConfig lines "ClientAliveInterval".toList = none
      · rw [habsent lines [] hne] at hin
        simp only [List.nil_append, List.mem_singleton] at hin
        rw [hin]
        exact ⟨rfl, rfl⟩
      · rw [hpresent lines [] hne] at hin
        simp at hin

/-- C11 at the file `ClientAliveInterval 0`. -/
theorem client_alive_interval_presence_only_witness :
    ssh.checkRule (ssh.parseConfig ["ClientAliveInterval 0".toList]) []
      ssh.getDefaultRules[6] = [] :=
  (client_alive_interval_presence_only.2.1 ["ClientAliveInterval 0".toList] []).1
    ⟨"ClientAliveInterval 0".toList, by simp, "0".toList, by decide⟩

/-- C12: for the rule `LogLevel` with the key present with value `v`, no issue is added
exactly when `v` is `VERBOSE` or `INFO`; any other value, such as `DEBUG` or `info`, adds one
WARNING issue with current value `v` and recommended value `VERBOSE`. -/
theorem log_level_allow_list :
    (ssh.getDefaultRules[8]).Key = "LogLevel".toList ∧
    (∀ (config : Config) (issues : List report.Issue) (v : GoString),
      config "LogLevel".toList = some v →
      (ssh.checkRule config issues ssh.getDefaultRules[8] = issues ↔
        (v = "VERBOSE".toList ∨ v = "INFO".toList)) ∧
      (¬ (v = "VERBOSE".toList ∨ v = "INFO".toList) →
        ssh.checkRule config issues ssh.getDefaultRules[8] =
          issues ++ [{ Category := "ssh".toList
                       Severity := report.SeverityWarning
                       Description := (ssh.getDefaultRules[8]).Description
                       CurrentValue := v
                       RecommendedValue := "VERBOSE".toList
                       FixCommand :=
                         "sed -i 's/^LogLevel.*/LogLevel VERBOSE/' /etc/ssh/sshd_config".toList
                       }])) ∧
    (∃ issue,
      ssh.checkRule (ssh.parseConfig ["LogLevel DEBUG".toList]) [] ssh.getDefaultRules[8]
        = [issue] ∧
      issue.CurrentValue = "DEBUG".toList ∧ issue.Severity = report.SeverityWarning) ∧
    (∃ issue,
      ssh.checkRule (ssh.parseConfig ["LogLevel info".toList]) [] ssh.getDefaultRules[8]
        = [issue] ∧
      issue.CurrentValue = "info".toList ∧ issue.RecommendedValue = "VERBOSE".toList) := by
  have hkey : (ssh.getDefaultRules[8]).Key = "LogLevel".toList := by decide
  refine ⟨hkey, ?_, ?_, ?_⟩
  · intro config issues v hv
    rw [ssh.ssh_checkRule_present config issues _ v (by rw [hkey]; exact hv)]
    have hc : (ssh.getDefaultRules[8]).ComparisonFunc v
        (ssh.getDefaultRules[8]).RecommendedValue =
          (v == "VERBOSE".toList || v == "INFO".toList) := rfl
    rw [hc]
    by_cases h : v = "VERBOSE".toList ∨ v = "INFO".toList
    · have hb : (v == "VERBOSE".toList || v == "INFO".toList) = true := by
        rcases h with h | h <;> simp [h]
      simp only [hb, if_true, true_iff]
      exact ⟨h, fun hn => absurd h hn⟩
    · have hb : ¬ ((v == "VERBOSE".toList || v == "INFO".toList) = true) := by
        intro hb
        apply h
        simp only [Bool.or_eq_true, beq_iff_eq] at hb
        exact hb
      simp only [hb, if_false]
      refine ⟨⟨fun he => ?_, fun hh => absurd hh h⟩, fun _ => rfl⟩
      simp at he
  · refine ⟨_, rfl, ?_, ?_⟩ <;> decide
  · refine ⟨_, rfl, ?_, ?_⟩ <;> decide

/-- C12 at the file `LogLevel INFO`. -/
theorem log_level_allow_list_witness :
    ssh.checkRule (ssh.parseConfig ["LogLevel INFO".toList]) [] ssh.getDefaultRules[8] = []
      ↔ ("INFO".toList = "VERBOSE".toList ∨ "INFO".toList = "INFO".toList) :=
  (log_level_allow_list.2.1 (ssh.parseConfig ["LogLevel INFO".toList]) [] "INFO".toList
    (by decide)).1

/-- C13: an SSH rule whose key is present with a value `v` that fails its predicate adds the
issue with the rule's severity and description, current value `v`, the rule's recommended
value and the command `sed -i 's/^<key>.*/<key> <recommended>/' /etc/ssh/sshd_config`.
When the parsed value of `PermitRootLogin` is `yes`, the first issue `Analyze` returns,
under any mount point, is CRITICAL with current value `yes` and recommended value `no`. -/
theorem ssh_violation_issue :
    (∀ (rule : ssh.SSHRule) (config : Config) (issues : List report.Issue) (v : GoString),
      config rule.Key = some v → rule.ComparisonFunc v rule.RecommendedValue = false →
      ssh.checkRule config issues rule =
        issues ++ [{ Category := "ssh".toList
                     Severity := rule.Severity
                     Description := rule.Description
                     CurrentValue := v
                     RecommendedValue := rule.RecommendedValue
                     FixCommand := "sed -i 's/^".toList ++ rule.Key ++ ".*/".toList ++
                       rule.Key ++ " ".toList ++ rule.RecommendedValue ++
                       "/' /etc/ssh/sshd_config".toList }]) ∧
    (∀ (mountPoint : GoString) (lines : List GoString),
      ssh.parseConfig lines "PermitRootLogin".toList = some "yes".toList →
      ∃ rest,
        (ssh.NewAnalyzer mountPoint).Analyze (.readable lines false) =
          .ok ({ Category := "ssh".toList
                 Severity := report.SeverityCritical
                 Description := "Login direto como root deve ser desabilitado".toList
                 CurrentValue := "yes".toList
                 RecommendedValue := "no".toList
                 FixCommand :=
                   "sed -i 's/^PermitRootLogin.*/PermitRootLogin no/' /etc/ssh/sshd_config".toList
                 } :: rest)) := by
  constructor
  · intro rule config issues v hv hf
    rw [ssh.ssh_checkRule_present config issues rule v hv, hf]
    rfl
  · intro mountPoint lines hv
    have hrules : ssh.getDefaultRules = ssh.getDefaultRules[0] :: ssh.getDefaultRules.tail :=
      rfl
    refine ⟨ssh.checkRules ssh.getDefaultRules.tail (ssh.parseConfig lines), ?_⟩
    show Except.ok (ssh.checkRules ssh.getDefaultRules (ssh.parseConfig lines)) = _
    rw [hrules, ssh.ssh_checkRules_cons,
      ssh.ssh_checkRule_present _ [] ssh.getDefaultRules[0] "yes".toList hv]
    rfl

/-- C13 at the file `PermitRootLogin yes` under the mount point `/mnt/image`. -/
theorem ssh_violation_issue_witness :
    ∃ rest,
      (ssh.NewAnalyzer "/mnt/image".toList).Analyze
          (.readable ["PermitRootLogin yes".toList] false) =
        .ok ({ Category := "ssh".toList
               Severity := report.SeverityCritical
               Description := "Login direto como root deve ser desabilitado".toList
               CurrentValue := "yes".toList
               RecommendedValue := "no".toList
               FixCommand :=
                 "sed -i 's/^PermitRootLogin.*/PermitRootLogin no/' /etc/ssh/sshd_config".toList
               } :: rest) :=
  ssh_violation_issue.2 "/mnt/image".toList ["PermitRootLogin yes".toList] (by decide)

/-- C14, as stated, fails: under the mount point `/mnt/image` the first issue `Analyze`
returns for an empty primary file still carries the reload `sysctl -p` in its command. -/
theorem sysctl_issue_keeps_reload_under_mount_point :
    (sysctl.NewAnalyzer "/mnt/image".toList).mountPoint ≠ [] ∧
    ∃ issue rest,
      (sysctl.NewAnalyzer "/mnt/image".toList).Analyze (.readable [] false) .notExist =
        .ok (issue :: rest) ∧
      issue.FixCommand =
        "echo 'net.ipv4.tcp_syncookies = 1' >> /etc/sysctl.conf && sysctl -p".toList ∧
      strings.Contains issue.FixCommand "sysctl -p".toList = true := by
  refine ⟨by decide, _, _, rfl, ?_, ?_⟩ <;> decide

/-- C14, amended: every issue `Analyze` returns, under an empty or a non-empty mount point,
comes from a rule and carries either the append command
`echo '<key> = <recommended>' >> /etc/sysctl.conf && sysctl -p`, when the merged mapping lacks
the key, or the substitution command
`sed -i 's/^<key>.*/<key> = <recommended>/' /etc/sysctl.conf && sysctl -p`, when the value
fails the rule; the command always ends with the reload.  The reload is removed, and the
path redirected, in the command `Fix` applies under a mount point, as for the missing
`net.ipv4.tcp_syncookies` under `/mnt/image`. -/
theorem sysctl_issue_commands (a : sysctl.Analyzer) (configFile : FileState)
    (sysctlD : DirState) (found : List report.Issue) (issue : report.Issue)
    (h : a.Analyze configFile sysctlD = .ok found) (hmem : issue ∈ found) :
    (∃ tokens merged, configFile = .readable tokens false ∧
      sysctl.readSysctlDFromPath sysctlD (sysctl.parseConfig tokens) = .ok merged ∧
      ∃ rule ∈ a.rules,
        (merged rule.Key = none ∧
          issue.FixCommand = ("echo '".toList ++ rule.Key ++ " = ".toList ++
            rule.RecommendedValue ++ "' >> /etc/sysctl.conf".toList) ++
            " && sysctl -p".toList) ∨
        (∃ v, merged rule.Key = some v ∧
          rule.ComparisonFunc v rule.RecommendedValue = false ∧
          issue.FixCommand = ("sed -i 's/^".toList ++ rule.Key ++ ".*/".toList ++ rule.Key ++
            " = ".toList ++ rule.RecommendedValue ++ "/' /etc/sysctl.conf".toList) ++
            " && sysctl -p".toList)) ∧
    (sysctl.NewAnalyzer "/mnt/image".toList).fixCommand
        { Category := "sysctl".toList
          Severity := report.SeverityCritical
          Description := "SYN flood protection deve estar habilitada".toList
          CurrentValue := []
          RecommendedValue := "1".toList
          FixCommand :=
            "echo 'net.ipv4.tcp_syncookies = 1' >> /etc/sysctl.conf && sysctl -p".toList } =
      "echo 'net.ipv4.tcp_syncookies = 1' >> /mnt/image/etc/sysctl.conf ".toList := by
  refine ⟨?_, by decide⟩
  cases configFile with
  | notExist => simp [sysctl.Analyzer.Analyze] at h
  | openFails => simp [sysctl.Analyzer.Analyze] at h
  | readable tokens scanFails =>
    cases scanFails with
    | true => simp [sysctl.Analyzer.Analyze] at h
    | false =>
      have hmerged : (if a.mountPoint = [] then
            sysctl.readSysctlD sysctlD (sysctl.parseConfig tokens)
          else sysctl.readSysctlDFromPath sysctlD (sysctl.parseConfig tokens)) =
          sysctl.readSysctlDFromPath sysctlD (sysctl.parseConfig tokens) := by
        split <;> rfl
      simp only [sysctl.Analyzer.Analyze, Bool.false_eq_true, if_false, hmerged] at h
      cases hr : sysctl.readSysctlDFromPath sysctlD (sysctl.parseConfig tokens) with
      | error e => rw [hr] at h; simp at h
      | ok merged =>
        rw [hr] at h
        simp only [Except.ok.injEq] at h
        subst h
        refine ⟨tokens, merged, rfl, hr, ?_⟩
        rw [sysctl.sysctl_mem_checkRules] at hmem
        obtain ⟨rule, hrule, hin⟩ := hmem
        refine ⟨rule, hrule, ?_⟩
        cases hk : merged rule.Key with
        | none =>
          left
          unfold sysctl.checkRule at hin
          rw [hk] at hin
          simp only [List.nil_append, List.mem_singleton] at hin
          rw [hin]
          exact ⟨rfl, by simp⟩
        | some v =>
          right
          rw [sysctl.sysctl_checkRule_present merged [] rule v hk] at hin
          by_cases hc : rule.ComparisonFunc v rule.RecommendedValue = true
          · rw [if_pos hc] at hin
            simp at hin
          · rw [if_neg hc] at hin
            simp only [List.nil_append, List.mem_singleton] at hin
            rw [hin]
            exact ⟨v, rfl, by simpa using hc, by simp⟩

/-- C14, amended, at the empty primary file under the mount point `/mnt/image`. -/
theorem sysctl_issue_commands_witness :
    ∃ tokens merged, FileState.readable [] false = .readable tokens false ∧
      sysctl.readSysctlDFromPath .notExist (sysctl.parseConfig tokens) = .ok merged ∧
      ∃ rule ∈ (sysctl.NewAnalyzer "/mnt/image".toList).rules,
        (merged rule.Key = none ∧
          "echo 'net.ipv4.tcp_syncookies = 1' >> /etc/sysctl.conf && sysctl -p".toList =
            ("echo '".toList ++ rule.Key ++ " = ".toList ++
              rule.RecommendedValue ++ "' >> /etc/sysctl.conf".toList) ++
              " && sysctl -p".toList) ∨
        (∃ v, merged rule.Key = some v ∧
          rule.ComparisonFunc v rule.RecommendedValue = false ∧
          "echo 'net.ipv4.tcp_syncookies = 1' >> /etc/sysctl.conf && sysctl -p".toList =
            ("sed -i 's/^".toList ++ rule.Key ++ ".*/".toList ++ rule.Key ++
              " = ".toList ++ rule.RecommendedValue ++ "/' /etc/sysctl.conf".toList) ++
              " && sysctl -p".toList) :=
  (sysctl_issue_commands (sysctl.NewAnalyzer "/mnt/image".toList) (.readable [] false)
    .notExist
    (sysctl.checkRules sysctl.getDefaultRules Config.empty)
    { Category := "sysctl".toList
      Severity := report.SeverityCritical
      Description := "SYN flood protection deve estar habilitada".toList
      CurrentValue := []
      RecommendedValue := "1".toList
      FixCommand :=
        "echo 'net.ipv4.tcp_syncookies = 1' >> /etc/sysctl.conf && sysctl -p".toList }
    rfl (by decide)).1

/-- C15, as stated, fails: for the collection of one issue of severity `LOW` the summary
has total 1 while its critical, warning and info counts are all 0. -/
theorem summary_total_exceeds_counts :
    (report.jsonReport
      [{ Category := "ssh".toList
         Severity := "LOW".toList
         Description := "x".toList
         CurrentValue := []
         RecommendedValue := []
         FixCommand := [] }]).Summary = ⟨0, 0, 0, 1⟩ := by
  decide

/-- C15, amended: in the report value of `generateJSON` the total is the number of issues,
the three counts are the numbers of issues of severity CRITICAL, WARNING and INFO, and the
total is the sum of the three counts plus the number of issues whose severity is none of
the three; so the total equals the sum when every severity is one of the three, and for the
empty collection all four numbers are zero. -/
theorem summary_total (issues : List report.Issue) :
    (report.jsonReport issues).Summary.Total = issues.length ∧
    (report.jsonReport issues).Summary.Critical =
      issues.countP (fun i => i.Severity == report.SeverityCritical) ∧
    (report.jsonReport issues).Summary.Warning =
      issues.countP (fun i => i.Severity == report.SeverityWarning) ∧
    (report.jsonReport issues).Summary.Info =
      issues.countP (fun i => i.Severity == report.SeverityInfo) ∧
    (report.jsonReport issues).Summary.Total =
      (report.jsonReport issues).Summary.Critical +
        (report.jsonReport issues).Summary.Warning +
        (report.jsonReport issues).Summary.Info +
        issues.countP report.otherSeverity ∧
    ((∀ i ∈ issues, i.Severity = report.SeverityCritical ∨
        i.Severity = report.SeverityWarning ∨ i.Severity = report.SeverityInfo) →
      (report.jsonReport issues).Summary.Total =
        (report.jsonReport issues).Summary.Critical +
          (report.jsonReport issues).Summary.Warning +
          (report.jsonReport issues).Summary.Info) ∧
    (report.jsonReport []).Summary = ⟨0, 0, 0, 0⟩ := by
  obtain ⟨h1, h2, h3⟩ := report.foldl_countSeverity issues ⟨0, 0, 0, 0⟩
  have hlen := report.length_eq_countP_severities issues
  simp only [Nat.zero_add] at h1 h2 h3
  have hT : (report.jsonReport issues).Summary.Total = issues.length := rfl
  have hC : (report.jsonReport issues).Summary.Critical =
      (issues.foldl report.countSeverity ⟨0, 0, 0, 0⟩).Critical := rfl
  have hW : (report.jsonReport issues).Summary.Warning =
      (issues.foldl report.countSeverity ⟨0, 0, 0, 0⟩).Warning := rfl
  have hI : (report.jsonReport issues).Summary.Info =
      (issues.foldl report.countSeverity ⟨0, 0, 0, 0⟩).Info := rfl
  refine ⟨hT, by rw [hC, h1], by rw [hW, h2], by rw [hI, h3], ?_, ?_, rfl⟩
  · rw [hT, hC, hW, hI, h1, h2, h3]
    exact hlen
  · intro hall
    have hother : issues.countP report.otherSeverity = 0 := by
      rw [List.countP_eq_zero]
      intro i hi
      have := hall i hi
      unfold report.otherSeverity
      rcases this with e | e | e <;> simp [e]
    rw [hT, hC, hW, hI, h1, h2, h3]
    omega

/-- C15, amended, at a collection of one CRITICAL issue. -/
theorem summary_total_witness :
    (report.jsonReport
      [{ Category := "ssh".toList
         Severity := report.SeverityCritical
         Description := []
         CurrentValue := []
         RecommendedValue := []
         FixCommand := [] }]).Summary.Total =
      (report.jsonReport
        [{ Category := "ssh".toList
           Severity := report.SeverityCritical
           Description := []
           CurrentValue := []
           RecommendedValue := []
           FixCommand := [] }]).Summary.Critical +
      (report.jsonReport
        [{ Category := "ssh".toList
           Severity := report.SeverityCritical
           Description := []
           CurrentValue := []
           RecommendedValue := []
           FixCommand := [] }]).Summary.Warning +
      (report.jsonReport
        [{ Category := "ssh".toList
           Severity := report.SeverityCritical
           Description := []
           CurrentValue := []
           RecommendedValue := []
           FixCommand := [] }]).Summary.Info :=
  (summary_total _).2.2.2.2.2.1 (by decide)

/-- C16: for a non-empty collection and any order in which the categories are visited, each
once, `GenerateScript` writes the script head, one section per category and the script foot.
The section of a category is its two head lines, then the backup call, then one block per
issue of the category in the order of the collection; a block is the description comment,
the log line, the command line (adapted when a mount point is set) and the check of the
exit status that logs success or failure.  The issues of all sections together are the
issues of the collection, each once.  The backup call is `backup_file /etc/ssh/sshd_config`
for `ssh`, `backup_file /etc/sysctl.conf` for `sysctl`, and there is none for any other
category, `services` included.  Counted on the lines of the script, when no field written
into it holds a newline and no command is itself one of the counted lines: the lines
`if [ $? -eq 0 ]; then` are as many as the issues, and each of the two backup calls stands
on one line when its category occurs and on none otherwise. -/
theorem script_blocks_and_backups (g : fixer.Generator) (issues : List report.Issue)
    (now : GoString) (toUpper : GoString → GoString) (order : List GoString)
    (hne : issues ≠ []) (hnodup : order.Nodup)
    (horder : ∀ c, c ∈ order ↔ ∃ i ∈ issues, i.Category = c) :
    g.GenerateScript issues now toUpper order false =
      .ok (("#!/bin/bash\n\n".toList ++ "# Script de correção gerado pelo Hardshell\n".toList ++
          ("# Data: ".toList ++ now ++ "\n\n".toList) ++ fixer.supportFunctions) ++
        (order.map fun c =>
          (("\n# Correções para ".toList ++ toUpper c ++ "\n".toList) ++
            ("log \"INFO\" \"Aplicando correções para ".toList ++ toUpper c ++
              "...\"\n\n".toList)) ++
          fixer.backupLines c ++
          ((issues.filter fun issue => issue.Category == c).map fun issue =>
            ("# ".toList ++ issue.Description ++ " (".toList ++ issue.Severity ++
              ")\n".toList) ++
            ("log \"INFO\" \"Corrigindo: ".toList ++ issue.Description ++ "\"\n".toList) ++
            ((if g.mountPoint ≠ [] then g.adaptCommandForMountPoint issue.FixCommand
              else issue.FixCommand) ++ "\n".toList) ++
            "if [ $? -eq 0 ]; then\n".toList ++
            ("    log \"SUCCESS\" \"Correção aplicada com sucesso: ".toList ++
              issue.Description ++ "\"\n".toList) ++
            "else\n".toList ++
            ("    log \"ERROR\" \"Falha ao aplicar correção: ".toList ++
              issue.Description ++ "\"\n".toList) ++
            "fi\n\n".toList).flatten).flatten ++
        ("\nlog \"INFO\" \"Todas as correções foram aplicadas.\"\n".toList ++
          ("log \"WARNING\" \"Reinicie os serviços ou o sistema para aplicar todas as " ++
            "alterações.\"\n").toList)) ∧
    ((order.map fun c => issues.filter fun issue => issue.Category == c).flatten).Perm
      issues ∧
    (∀ c, (∃ i ∈ issues, i.Category = c) →
      ∃ before after, order = before ++ c :: after ∧ c ∉ before ∧ c ∉ after) ∧
    fixer.backupLines "ssh".toList =
      ("# Backup do arquivo de configuração SSH\n" ++
        "backup_file /etc/ssh/sshd_config\n\n").toList ∧
    fixer.backupLines "sysctl".toList =
      ("# Backup do arquivo de configuração sysctl\n" ++
        "backup_file /etc/sysctl.conf\n\n").toList ∧
    fixer.backupLines "services".toList = [] ∧
    (∀ c, c ≠ "ssh".toList → c ≠ "sysctl".toList → fixer.backupLines c = []) ∧
    ('\n' ∉ now → (∀ c ∈ order, '\n' ∉ toUpper c) →
      (∀ i ∈ issues, '\n' ∉ i.Description ∧ '\n' ∉ i.Severity ∧
        '\n' ∉ (if g.mountPoint ≠ [] then g.adaptCommandForMountPoint i.FixCommand
          else i.FixCommand) ∧
        (if g.mountPoint ≠ [] then g.adaptCommandForMountPoint i.FixCommand
          else i.FixCommand) ≠ "if [ $? -eq 0 ]; then".toList ∧
        (if g.mountPoint ≠ [] then g.adaptCommandForMountPoint i.FixCommand
          else i.FixCommand) ≠ "backup_file /etc/ssh/sshd_config".toList ∧
        (if g.mountPoint ≠ [] then g.adaptCommandForMountPoint i.FixCommand
          else i.FixCommand) ≠ "backup_file /etc/sysctl.conf".toList) →
      ∃ script, g.GenerateScript issues now toUpper order false = .ok script ∧
        ((strings.Split script "\n".toList).filter
          fun l => decide (l = "if [ $? -eq 0 ]; then".toList)).length = issues.length ∧
        ((strings.Split script "\n".toList).filter
          fun l => decide (l = "backup_file /etc/ssh/sshd_config".toList)).length =
            (if "ssh".toList ∈ order then 1 else 0) ∧
        ((strings.Split script "\n".toList).filter
          fun l => decide (l = "backup_file /etc/sysctl.conf".toList)).length =
            (if "sysctl".toList ∈ order then 1 else 0)) := by
  have hlen : ¬ issues.length = 0 := by
    intro h
    exact hne (List.length_eq_zero.mp h)
  have hgen : g.GenerateScript issues now toUpper order false =
      .ok (g.scriptContent issues now toUpper order) := by
    unfold fixer.Generator.GenerateScript
    rw [if_neg hlen]
    rfl
  refine ⟨?_, ?_, ?_, by decide, by decide, by decide, ?_, ?_⟩
  · rw [hgen, fixer.scriptContent_eq]
    rfl
  · exact report.groups_perm order hnodup issues
      (fun i hi => (horder i.Category).mpr ⟨i, hi, rfl⟩)
  · intro c hc
    have hmem : c ∈ order := (horder c).mpr hc
    obtain ⟨s, t, hst⟩ := List.append_of_mem hmem
    subst hst
    have h1 := List.nodup_append.mp hnodup
    have h2 := List.nodup_cons.mp h1.2.1
    refine ⟨s, t, rfl, ?_, h2.1⟩
    intro hs
    exact h1.2.2 hs (List.mem_cons_self _ _)
  · intro c h1 h2
    unfold fixer.backupLines
    rw [if_neg h1, if_neg h2]
  · intro hnow hup hiss
    refine ⟨_, hgen, ?_, ?_, ?_⟩
    · exact fixer.script_count_blocks g issues now toUpper order hnodup
        (fun i hi => (horder i.Category).mpr ⟨i, hi, rfl⟩) hnow hup
        (fun i hi => ⟨(hiss i hi).1, (hiss i hi).2.1, (hiss i hi).2.2.1,
          (hiss i hi).2.2.2.1⟩)
    · exact fixer.script_count_backup g issues now toUpper order "ssh".toList
        "/etc/ssh/sshd_config".toList (Or.inl ⟨rfl, rfl⟩) hnodup hnow hup
        (fun i hi => ⟨(hiss i hi).1, (hiss i hi).2.1, (hiss i hi).2.2.1,
          (hiss i hi).2.2.2.2.1⟩)
    · exact fixer.script_count_backup g issues now toUpper order "sysctl".toList
        "/etc/sysctl.conf".toList (Or.inr ⟨rfl, rfl⟩) hnodup hnow hup
        (fun i hi => ⟨(hiss i hi).1, (hiss i hi).2.1, (hiss i hi).2.2.1,
          (hiss i hi).2.2.2.2.2⟩)

/-- C16 at a collection of one `services` issue between two `ssh` issues, with the
categories visited in the order `services`, `ssh`: the sections of the script, three lines
`if [ $? -eq 0 ]; then`, one backup of `sshd_config` and none of `sysctl.conf`. -/
theorem script_blocks_and_backups_witness :
    (fixer.NewGenerator []).scriptContent
        [⟨"ssh".toList, report.SeverityCritical, "a".toList, [], "no".toList,
            "echo 'A no' >> /etc/ssh/sshd_config".toList⟩,
          ⟨"services".toList, report.SeverityWarning, "b".toList, [], [],
            "systemctl disable b".toList⟩,
          ⟨"ssh".toList, report.SeverityInfo, "c".toList, "x".toList, "y".toList,
            "sed -i 's/^C.*/C y/' /etc/ssh/sshd_config".toList⟩]
        "2024-01-01 00:00:00".toList (fun s => s.map Char.toUpper)
        ["services".toList, "ssh".toList] =
      (fixer.scriptHead "2024-01-01 00:00:00".toList ++
        ("\n# Correções para SERVICES\n" ++
          "log \"INFO\" \"Aplicando correções para SERVICES...\"\n\n" ++
          "# b (WARNING)\n" ++
          "log \"INFO\" \"Corrigindo: b\"\n" ++
          "systemctl disable b\n" ++
          "if [ $? -eq 0 ]; then\n" ++
          "    log \"SUCCESS\" \"Correção aplicada com sucesso: b\"\n" ++
          "else\n" ++
          "    log \"ERROR\" \"Falha ao aplicar correção: b\"\n" ++
          "fi\n\n" ++
          "\n# Correções para SSH\n" ++
          "log \"INFO\" \"Aplicando correções para SSH...\"\n\n" ++
          "# Backup do arquivo de configuração SSH\n" ++
          "backup_file /etc/ssh/sshd_config\n\n" ++
          "# a (CRITICAL)\n" ++
          "log \"INFO\" \"Corrigindo: a\"\n" ++
          "echo 'A no' >> /etc/ssh/sshd_config\n" ++
          "if [ $? -eq 0 ]; then\n" ++
          "    log \"SUCCESS\" \"Correção aplicada com sucesso: a\"\n" ++
          "else\n" ++
          "    log \"ERROR\" \"Falha ao aplicar correção: a\"\n" ++
          "fi\n\n" ++
          "# c (INFO)\n" ++
          "log \"INFO\" \"Corrigindo: c\"\n" ++
          "sed -i 's/^C.*/C y/' /etc/ssh/sshd_config\n" ++
          "if [ $? -eq 0 ]; then\n" ++
          "    log \"SUCCESS\" \"Correção aplicada com sucesso: c\"\n" ++
          "else\n" ++
          "    log \"ERROR\" \"Falha ao aplicar correção: c\"\n" ++
          "fi\n\n").toList ++
        fixer.scriptFoot) ∧
    ∃ script,
      (fixer.NewGenerator []).GenerateScript
        [⟨"ssh".toList, report.SeverityCritical, "a".toList, [], "no".toList,
            "echo 'A no' >> /etc/ssh/sshd_config".toList⟩,
          ⟨"services".toList, report.SeverityWarning, "b".toList, [], [],
            "systemctl disable b".toList⟩,
          ⟨"ssh".toList, report.SeverityInfo, "c".toList, "x".toList, "y".toList,
            "sed -i 's/^C.*/C y/' /etc/ssh/sshd_config".toList⟩]
        "2024-01-01 00:00:00".toList (fun s => s.map Char.toUpper)
        ["services".toList, "ssh".toList] false = .ok script ∧
      ((strings.Split script "\n".toList).filter
        fun l => decide (l = "if [ $? -eq 0 ]; then".toList)).length = 3 ∧
      ((strings.Split script "\n".toList).filter
        fun l => decide (l = "backup_file /etc/ssh/sshd_config".toList)).length = 1 ∧
      ((strings.Split script "\n".toList).filter
        fun l => decide (l = "backup_file /etc/sysctl.conf".toList)).length = 0 :=
  ⟨by decide!,
    (script_blocks_and_backups (fixer.NewGenerator [])
      [⟨"ssh".toList, report.SeverityCritical, "a".toList, [], "no".toList,
          "echo 'A no' >> /etc/ssh/sshd_config".toList⟩,
        ⟨"services".toList, report.SeverityWarning, "b".toList, [], [],
          "systemctl disable b".toList⟩,
        ⟨"ssh".toList, report.SeverityInfo, "c".toList, "x".toList, "y".toList,
          "sed -i 's/^C.*/C y/' /etc/ssh/sshd_config".toList⟩]
      "2024-01-01 00:00:00".toList (fun s => s.map Char.toUpper)
      ["services".toList, "ssh".toList]
      (List.cons_ne_nil _ _) (by decide)
      (by
        intro c
        constructor
        · intro hc
          simp only [List.mem_cons, List.mem_singleton, List.not_mem_nil, or_false] at hc
          rcases hc with rfl | rfl
          · exact ⟨_, List.mem_cons_of_mem _ (List.mem_cons_self _ _), rfl⟩
          · exact ⟨_, List.mem_cons_self _ _, rfl⟩
        · rintro ⟨i, hi, rfl⟩
          simp only [List.mem_cons, List.mem_singleton, List.not_mem_nil, or_false] at hi
          rcases hi with rfl | rfl | rfl <;> decide)).2.2.2.2.2.2.2
      (by decide) (by decide) (by decide)⟩

/-- C17 fails on the code: under the mount point `/mnt/service disk` the command
`echo 'PermitRootLogin no' >> /etc/ssh/sshd_config` is adapted to a command whose path is
`/mnt/# service disk/etc/ssh/sshd_config`, because the replacement of `service ` also
rewrites the mount point; the path `/mnt/service disk/etc/ssh/sshd_config`, the mount
point joined with the original path, no longer occurs in the result. -/
theorem adapt_command_rewrites_mount_point :
    filepath.Join "/mnt/service disk".toList "etc/ssh/sshd_config".toList =
      "/mnt/service disk/etc/ssh/sshd_config".toList ∧
    (fixer.NewGenerator "/mnt/service disk".toList).adaptCommandForMountPoint
        "echo 'PermitRootLogin no' >> /etc/ssh/sshd_config".toList =
      "echo 'PermitRootLogin no' >> /mnt/# service disk/etc/ssh/sshd_config".toList ∧
    strings.Contains
      ((fixer.NewGenerator "/mnt/service disk".toList).adaptCommandForMountPoint
        "echo 'PermitRootLogin no' >> /etc/ssh/sshd_config".toList)
      "/mnt/service disk/etc/ssh/sshd_config".toList = false ∧
    (fixer.NewGenerator "/srv/systemctl images".toList).adaptCommandForMountPoint
        "echo 'kernel.sysrq = 0' >> /etc/sysctl.conf && sysctl -p".toList =
      "echo 'kernel.sysrq = 0' >> /srv/# systemctl images/etc/sysctl.conf && # sysctl -p".toList
    := by
  refine ⟨by decide, by decide, by decide, by decide⟩

/-- C18: `Analyze` of the services analyzer under a non-empty mount point is
`analyzeSystemdDir` at the enabled-units directory under the mount point, whatever tools are
available, and fails when that directory does not exist; with an empty mount point it is
`analyzeSystemctl` when `systemctl` is available, otherwise `analyzeServiceCommand` when
`service` is available; it fails with the Unsupported error exactly when the mount point is
empty and neither tool is available. -/
theorem services_strategy_selection (a : services.Analyzer)
    (toLower : GoString → GoString) (host : services.Host) :
    (a.mountPoint ≠ [] →
      a.Analyze toLower host =
        a.analyzeSystemdDir (host.dirAt
          (filepath.Join a.mountPoint
            "etc/systemd/system/multi-user.target.wants".toList))) ∧
    (a.mountPoint ≠ [] →
      host.dirAt (filepath.Join a.mountPoint
        "etc/systemd/system/multi-user.target.wants".toList) = .notExist →
      a.Analyze toLower host = .error .systemdDirNotFound) ∧
    (a.mountPoint = [] → host.hasCommand "systemctl".toList = true →
      a.Analyze toLower host = a.analyzeSystemctl host.systemctlOutput) ∧
    (a.mountPoint = [] → host.hasCommand "systemctl".toList = false →
      host.hasCommand "service".toList = true →
      a.Analyze toLower host = a.analyzeServiceCommand toLower host) ∧
    (a.Analyze toLower host = .error .unsupported ↔
      a.mountPoint = [] ∧ host.hasCommand "systemctl".toList = false ∧
        host.hasCommand "service".toList = false) := by
  have hsd : ∀ dir, a.analyzeSystemdDir dir ≠ .error .unsupported := by
    intro dir
    cases dir <;> simp [services.Analyzer.analyzeSystemdDir]
  have hsc : ∀ out, a.analyzeSystemctl out ≠ .error .unsupported := by
    intro out
    cases out <;> simp [services.Analyzer.analyzeSystemctl]
  have hlg : a.analyzeServiceCommand toLower host ≠ .error .unsupported :=
    services.checkInitDirs_ne_unsupported a toLower host _ _
  refine ⟨?_, ?_, ?_, ?_, ?_⟩
  · intro hm
    unfold services.Analyzer.Analyze
    rw [if_pos hm]
  · intro hm hdir
    unfold services.Analyzer.Analyze
    rw [if_pos hm]
    simp only [hdir]
    rfl
  · intro hm hs
    unfold services.Analyzer.Analyze
    rw [if_neg (by simpa using hm), if_pos hs]
  · intro hm hs hv
    unfold services.Analyzer.Analyze
    rw [if_neg (by simpa using hm), if_neg (by rw [hs]; exact Bool.false_ne_true), if_pos hv]
  · unfold services.Analyzer.Analyze
    by_cases hm : a.mountPoint = []
    · rw [if_neg (by simpa using hm)]
      by_cases hs : host.hasCommand "systemctl".toList = true
      · rw [if_pos hs]
        simp only [hs, hsc, false_iff]
        simp
      · rw [if_neg hs]
        by_cases hv : host.hasCommand "service".toList = true
        · rw [if_pos hv]
          simp only [hv, hlg, false_iff]
          simp
        · rw [if_neg hv]
          simp only [true_iff]
          exact ⟨hm, by simpa using hs, by simpa using hv⟩
    · rw [if_pos hm]
      simp only [hsd, false_iff]
      intro h
      exact hm h.1

/-- C18 at a host with an empty mount point and neither tool. -/
theorem services_strategy_selection_witness :
    (services.NewAnalyzer []).Analyze (fun s => s)
        ⟨fun _ => .notExist, fun _ => false, none, fun _ => []⟩ =
      .error .unsupported :=
  (services_strategy_selection (services.NewAnalyzer []) (fun s => s)
    ⟨fun _ => .notExist, fun _ => false, none, fun _ => []⟩).2.2.2.2.mpr
    ⟨rfl, rfl, rfl⟩

/-- C19, as stated, fails: in the legacy strategy the name of an init script is tested as it
is.  For a host without `systemctl`, with `service`, whose `/etc/init.d` holds the one script
`telnet.service`, reported as running, no issue is produced, although the name with the
suffix `.service` removed is `telnet` and the telnet rule accepts it. -/
theorem legacy_name_not_stripped :
    (services.NewAnalyzer []).Analyze (fun s => s)
        ⟨fun dir =>
            if dir = "/etc/init.d".toList then
              .entries [⟨"telnet.service".toList, false, .notExist⟩]
            else .notExist,
          fun cmd => cmd == "service".toList, none, fun _ => "is running".toList⟩ =
      .ok [] ∧
    services.unitName "telnet.service".toList = "telnet".toList ∧
    (services.getDefaultRules[0]).CheckFunc "telnet".toList = true := by
  refine ⟨rfl, by decide, by decide⟩

/-- C19, amended: each strategy produces exactly one issue per pair of a discovered name and
a rule that accepts it, names in discovery order and rules in table order, and no other
issue.  The enabled-units strategy and the `systemctl` strategy test each name with a
trailing `.service` removed; the legacy strategy tests the name of each active init script as
it is.  The number of issues is the number of accepting pairs, and each issue has the rule's
severity, a description made of the rule's description and the tested name, and the command
of its strategy. -/
theorem services_issue_per_pair (a : services.Analyzer) (toLower : GoString → GoString)
    (host : services.Host)
    (hinit : host.dirAt "/etc/init.d".toList ≠ .readFails)
    (hrc : host.dirAt "/etc/rc.d".toList ≠ .readFails) :
    (∀ files : List DirEntry,
      a.analyzeSystemdDir (.entries files) =
        .ok (services.matchingIssues a.rules services.enabledIssue
          ((files.filter fun file => !file.IsDir).map
            fun file => services.unitName file.Name))) ∧
    (∀ out : GoString,
      a.analyzeSystemctl (some out) =
        .ok (services.matchingIssues a.rules services.activeIssue
          (((strings.Split out "\n".toList).filterMap
            fun line => (strings.Fields line).head?).map services.unitName))) ∧
    a.analyzeServiceCommand toLower host =
      .ok (services.matchingIssues a.rules services.legacyIssue
        (services.legacyNames toLower host "/etc/init.d".toList ++
          services.legacyNames toLower host "/etc/rc.d".toList)) ∧
    (∀ (mk : services.ServiceRule → GoString → report.Issue) (names : List GoString),
      services.matchingIssues a.rules mk names =
        (names.map fun name =>
          (a.rules.filter fun rule => rule.CheckFunc name).map
            fun rule => mk rule name).flatten ∧
      (services.matchingIssues a.rules mk names).length =
        (names.map fun name => a.rules.countP fun rule => rule.CheckFunc name).sum) ∧
    (∀ (rule : services.ServiceRule) (name : GoString),
      services.enabledIssue rule name =
        { Category := "services".toList
          Severity := rule.Severity
          Description := rule.Description ++ " (".toList ++ name ++
            " está habilitado)".toList
          CurrentValue := []
          RecommendedValue := []
          FixCommand := "systemctl disable ".toList ++ name ++
            " && systemctl stop ".toList ++ name } ∧
      services.activeIssue rule name =
        { Category := "services".toList
          Severity := rule.Severity
          Description := rule.Description ++ " (".toList ++ name ++ " está ativo)".toList
          CurrentValue := []
          RecommendedValue := []
          FixCommand := "systemctl disable ".toList ++ name ++
            " && systemctl stop ".toList ++ name } ∧
      services.legacyIssue rule name =
        { Category := "services".toList
          Severity := rule.Severity
          Description := rule.Description ++ " (".toList ++ name ++ " está ativo)".toList
          CurrentValue := []
          RecommendedValue := []
          FixCommand := "service ".toList ++ name ++ " stop && update-rc.d ".toList ++
            name ++ " disable".toList }) := by
  refine ⟨?_, ?_, ?_, ?_, fun rule name => ⟨rfl, rfl, rfl⟩⟩
  · intro files
    unfold services.Analyzer.analyzeSystemdDir
    simp only []
    rw [services.foldl_systemdDir]
    rfl
  · intro out
    unfold services.Analyzer.analyzeSystemctl
    simp only []
    rw [services.foldl_systemctl]
    rfl
  · unfold services.Analyzer.analyzeServiceCommand
    rw [services.checkInitDirs_eq a toLower host _ []
      (by
        intro d hd
        simp only [List.mem_cons, List.mem_singleton, List.not_mem_nil, or_false] at hd
        rcases hd with rfl | rfl
        · exact hinit
        · exact hrc)]
    simp
  · intro mk names
    exact ⟨rfl, services.matchingIssues_length a.rules mk names⟩

/-- C19, amended, at a host whose `/etc/init.d` holds the running script `vsftpd`. -/
theorem services_issue_per_pair_witness :
    (services.NewAnalyzer []).analyzeServiceCommand (fun s => s)
        ⟨fun dir =>
            if dir = "/etc/init.d".toList then
              .entries [⟨"vsftpd".toList, false, .notExist⟩]
            else .notExist,
          fun cmd => cmd == "service".toList, none, fun _ => "is running".toList⟩ =
      .ok (services.matchingIssues (services.NewAnalyzer []).rules services.legacyIssue
        (services.legacyNames (fun s => s)
            ⟨fun dir =>
                if dir = "/etc/init.d".toList then
                  .entries [⟨"vsftpd".toList, false, .notExist⟩]
                else .notExist,
              fun cmd => cmd == "service".toList, none, fun _ => "is running".toList⟩
            "/etc/init.d".toList ++
          services.legacyNames (fun s => s)
            ⟨fun dir =>
                if dir = "/etc/init.d".toList then
                  .entries [⟨"vsftpd".toList, false, .notExist⟩]
                else .notExist,
              fun cmd => cmd == "service".toList, none, fun _ => "is running".toList⟩
            "/etc/rc.d".toList)) :=
  (services_issue_per_pair (services.NewAnalyzer []) (fun s => s)
    ⟨fun dir =>
        if dir = "/etc/init.d".toList then
          .entries [⟨"vsftpd".toList, false, .notExist⟩]
        else .notExist,
      fun cmd => cmd == "service".toList, none, fun _ => "is running".toList⟩
    (by simp) (by simp [show ¬ ("/etc/rc.d".toList = "/etc/init.d".toList) by decide])).2.2.1

/-- C20: when the enabled-units directory under a mount point holds the one entry
`telnet.service`, `Analyze` returns exactly one issue, the issue of the telnet rule for the
name `telnet`; it is CRITICAL and its description contains `telnet`.  Over the whole rule
table the name `telnet` is accepted by the telnet rule and by no other. -/
theorem telnet_unit_one_critical_issue (mountPoint : GoString)
    (toLower : GoString → GoString) (host : services.Host) (file : FileState)
    (hm : mountPoint ≠ [])
    (hdir : host.dirAt (filepath.Join mountPoint
        "etc/systemd/system/multi-user.target.wants".toList) =
      .entries [⟨"telnet.service".toList, false, file⟩]) :
    (services.NewAnalyzer mountPoint).Analyze toLower host =
      .ok [{ Category := "services".toList
             Severity := report.SeverityCritical
             Description :=
               ("Serviço Telnet oferece comunicação não criptografada" ++
                 " (telnet está habilitado)").toList
             CurrentValue := []
             RecommendedValue := []
             FixCommand := "systemctl disable telnet && systemctl stop telnet".toList }] ∧
    strings.Contains
      ("Serviço Telnet oferece comunicação não criptografada" ++
        " (telnet está habilitado)").toList "telnet".toList = true ∧
    (services.getDefaultRules.filter fun rule => rule.CheckFunc "telnet".toList).map
        (fun rule => rule.Name) = ["telnet".toList] ∧
    services.getDefaultRules.countP (fun rule => rule.CheckFunc "telnet".toList) = 1 := by
  refine ⟨?_, by decide, by decide, by decide⟩
  unfold services.Analyzer.Analyze
  have hm' : (services.NewAnalyzer mountPoint).mountPoint ≠ [] := hm
  rw [if_pos hm']
  have hmp : (services.NewAnalyzer mountPoint).mountPoint = mountPoint := rfl
  simp only [hmp, hdir]
  rfl

/-- C20 under the mount point `/mnt/image`. -/
theorem telnet_unit_one_critical_issue_witness :
    (services.NewAnalyzer "/mnt/image".toList).Analyze (fun s => s)
        ⟨fun dir =>
            if dir = "/mnt/image/etc/systemd/system/multi-user.target.wants".toList then
              .entries [⟨"telnet.service".toList, false, .notExist⟩]
            else .notExist,
          fun _ => false, none, fun _ => []⟩ =
      .ok [{ Category := "services".toList
             Severity := report.SeverityCritical
             Description :=
               ("Serviço Telnet oferece comunicação não criptografada" ++
                 " (telnet está habilitado)").toList
             CurrentValue := []
             RecommendedValue := []
             FixCommand := "systemctl disable telnet && systemctl stop telnet".toList }] :=
  (telnet_unit_one_critical_issue "/mnt/image".toList (fun s => s)
    ⟨fun dir =>
        if dir = "/mnt/image/etc/systemd/system/multi-user.target.wants".toList then
          .entries [⟨"telnet.service".toList, false, .notExist⟩]
        else .notExist,
      fun _ => false, none, fun _ => []⟩
    .notExist (by decide) (by
      have hj : filepath.Join "/mnt/image".toList
          "etc/systemd/system/multi-user.target.wants".toList =
          "/mnt/image/etc/systemd/system/multi-user.target.wants".toList := by decide
      simp only [hj, if_true])).1

/-- C21, as stated, fails: a comment line of 65536 `#` inserted after the line
`PermitRootLogin no` of an `sshd_config` makes `Analyze` fail with the read error, while
without it `Analyze` succeeds. -/
theorem long_comment_line_fails_analysis :
    strings.HasPrefix (strings.TrimSpace (List.replicate 65536 '#')) "#".toList = true ∧
    (ssh.NewAnalyzer []).Analyze
        (FileState.ofContent
          (strings.Join ["PermitRootLogin no".toList, List.replicate 65536 '#', []]
            "\n".toList)) =
      .error .configRead ∧
    (ssh.NewAnalyzer []).Analyze
        (FileState.ofContent (strings.Join ["PermitRootLogin no".toList, []] "\n".toList)) =
      .ok (ssh.checkRules ssh.getDefaultRules
        (ssh.parseConfig ["PermitRootLogin no".toList])) := by
  refine ⟨strings.comment_of_replicate 65535, ?_, rfl⟩
  have hmem : ∀ q ∈ ["PermitRootLogin no".toList, List.replicate 65536 '#', []],
      '\n' ∉ q := by
    intro q hq
    simp only [List.mem_cons, List.mem_singleton, List.not_mem_nil, or_false] at hq
    rcases hq with rfl | rfl | rfl
    · decide
    · intro hm
      exact absurd (List.eq_of_mem_replicate hm) (by decide)
    · exact List.not_mem_nil _
  have hlong : bufio.byteLen (List.replicate 65536 '#') + 1 > bufio.MaxScanTokenSize := by
    rw [bufio.byteLen_replicate]
    decide
  have hshort : ¬ bufio.byteLen "PermitRootLogin no".toList + 1 >
      bufio.MaxScanTokenSize := by decide
  unfold FileState.ofContent
  rw [bufio.scanLines_Join _ hmem, bufio.scanPieces_cons_cons, if_neg hshort,
    bufio.scanPieces_cons_cons, if_pos hlong]
  rfl

/-- C21, amended: a line shorter than the scanner's buffer of 65536 bytes that after
trimming is empty, begins with `#`, or has no separator (no space for SSH, no `=` for
sysctl) contributes nothing and causes no error.  With such a line inserted at any place
among the lines of a file, the scan fails exactly when it fails without the line, the
parsed mapping is the same, and `Analyze` returns the same result, for the SSH file, for
the primary sysctl file with any drop-in directory, and for a drop-in file at any place in
its directory.  The file is given by its content, the lines joined by newlines. -/
theorem skipped_lines_contribute_nothing (line : GoString) (hnl : '\n' ∉ line)
    (hshort : bufio.byteLen line < 65536) :
    ((strings.TrimSpace line = [] ∨
        strings.HasPrefix (strings.TrimSpace line) "#".toList = true ∨
        ' ' ∉ strings.TrimSpace line) →
      ∀ before after : List GoString, (∀ l ∈ before ++ after, '\n' ∉ l) →
        (bufio.scanLines (strings.Join (before ++ line :: after) "\n".toList)).2 =
          (bufio.scanLines (strings.Join (before ++ after) "\n".toList)).2 ∧
        ssh.parseConfig
            (bufio.scanLines (strings.Join (before ++ line :: after) "\n".toList)).1 =
          ssh.parseConfig (bufio.scanLines (strings.Join (before ++ after) "\n".toList)).1 ∧
        ∀ a : ssh.Analyzer,
          a.Analyze
              (FileState.ofContent (strings.Join (before ++ line :: after) "\n".toList)) =
            a.Analyze (FileState.ofContent (strings.Join (before ++ after) "\n".toList))) ∧
    ((strings.TrimSpace line = [] ∨
        strings.HasPrefix (strings.TrimSpace line) "#".toList = true ∨
        '=' ∉ strings.TrimSpace line) →
      ∀ before after : List GoString, (∀ l ∈ before ++ after, '\n' ∉ l) →
        sysctl.parseConfig
            (bufio.scanLines (strings.Join (before ++ line :: after) "\n".toList)).1 =
          sysctl.parseConfig
            (bufio.scanLines (strings.Join (before ++ after) "\n".toList)).1 ∧
        (∀ (a : sysctl.Analyzer) (dir : DirState),
          a.Analyze
              (FileState.ofContent (strings.Join (before ++ line :: after) "\n".toList))
              dir =
            a.Analyze (FileState.ofContent (strings.Join (before ++ after) "\n".toList))
              dir) ∧
        (∀ (earlier later : List DirEntry) (name : GoString) (isDir : Bool)
            (config : Config),
          sysctl.readSysctlDFromPath
              (.entries (earlier ++ ⟨name, isDir, FileState.ofContent
                (strings.Join (before ++ line :: after) "\n".toList)⟩ :: later)) config =
            sysctl.readSysctlDFromPath
              (.entries (earlier ++ ⟨name, isDir, FileState.ofContent
                (strings.Join (before ++ after) "\n".toList)⟩ :: later)) config) ∧
        (∀ (a : sysctl.Analyzer) (primary : FileState) (earlier later : List DirEntry)
            (name : GoString) (isDir : Bool),
          a.Analyze primary
              (.entries (earlier ++ ⟨name, isDir, FileState.ofContent
                (strings.Join (before ++ line :: after) "\n".toList)⟩ :: later)) =
            a.Analyze primary
              (.entries (earlier ++ ⟨name, isDir, FileState.ofContent
                (strings.Join (before ++ after) "\n".toList)⟩ :: later)))) := by
  have hshort2 : bufio.byteLen line < bufio.MaxScanTokenSize := hshort
  have hmem : ∀ before after : List GoString, (∀ l ∈ before ++ after, '\n' ∉ l) →
      (∀ l ∈ before ++ line :: after, '\n' ∉ l) := by
    intro before after h l hl
    rw [List.mem_append, List.mem_cons] at hl
    rcases hl with hl | rfl | hl
    · exact h l (List.mem_append_left _ hl)
    · exact hnl
    · exact h l (List.mem_append_right _ hl)
  constructor
  · intro hline before after hfree
    have hskip : ∀ c, ssh.parseLine c (bufio.dropCR line) = c := by
      intro c
      rcases hline with h | h | h
      · exact ssh.ssh_parseLine_skip c _ (Or.inl (by rw [bufio.TrimSpace_dropCR]; exact h))
      · exact ssh.ssh_parseLine_skip c _ (Or.inr (by rw [bufio.TrimSpace_dropCR]; exact h))
      · exact ssh.ssh_parseLine_of_not_mem c _ (by rw [bufio.TrimSpace_dropCR]; exact h)
    have hblank : ∀ c, ssh.parseLine c [] = c :=
      fun c => ssh.ssh_parseLine_skip c [] (Or.inl rfl)
    have hins := bufio.scanPieces_insert ssh.parseLine line hshort2 hskip hblank before after
    rw [bufio.scanLines_Join _ (hmem before after hfree), bufio.scanLines_Join _ hfree]
    refine ⟨hins.1, hins.2 Config.empty, ?_⟩
    intro a
    unfold FileState.ofContent
    rw [bufio.scanLines_Join _ (hmem before after hfree), bufio.scanLines_Join _ hfree]
    exact ssh.ssh_Analyze_congr a _ _ _ _ hins.1 (hins.2 Config.empty)
  · intro hline before after hfree
    have hskip : ∀ c, sysctl.parseLine c (bufio.dropCR line) = c := by
      intro c
      rcases hline with h | h | h
      · exact sysctl.sysctl_parseLine_skip c _
          (Or.inl (by rw [bufio.TrimSpace_dropCR]; exact h))
      · exact sysctl.sysctl_parseLine_skip c _
          (Or.inr (by rw [bufio.TrimSpace_dropCR]; exact h))
      · exact sysctl.sysctl_parseLine_of_not_mem c _
          (by rw [bufio.TrimSpace_dropCR]; exact h)
    have hblank : ∀ c, sysctl.parseLine c [] = c :=
      fun c => sysctl.sysctl_parseLine_skip c [] (Or.inl rfl)
    have hdskip : ∀ c, sysctl.parseDropInLine c (bufio.dropCR line) = c := by
      intro c
      rcases hline with h | h | h
      · exact sysctl.parseDropInLine_skip c _
          (Or.inl (by rw [bufio.TrimSpace_dropCR]; exact h))
      · exact sysctl.parseDropInLine_skip c _
          (Or.inr (by rw [bufio.TrimSpace_dropCR]; exact h))
      · exact sysctl.parseDropInLine_of_not_mem c _
          (by rw [bufio.TrimSpace_dropCR]; exact h)
    have hdblank : ∀ c, sysctl.parseDropInLine c [] = c :=
      fun c => sysctl.parseDropInLine_skip c [] (Or.inl rfl)
    have hins := bufio.scanPieces_insert sysctl.parseLine line hshort2 hskip hblank
      before after
    have hdins := bufio.scanPieces_insert sysctl.parseDropInLine line hshort2 hdskip hdblank
      before after
    have hread : ∀ (earlier later : List DirEntry) (name : GoString) (isDir : Bool)
        (config : Config),
        sysctl.readSysctlDFromPath
            (.entries (earlier ++ ⟨name, isDir, FileState.ofContent
              (strings.Join (before ++ line :: after) "\n".toList)⟩ :: later)) config =
          sysctl.readSysctlDFromPath
            (.entries (earlier ++ ⟨name, isDir, FileState.ofContent
              (strings.Join (before ++ after) "\n".toList)⟩ :: later)) config := by
      intro earlier later name isDir config
      unfold FileState.ofContent
      rw [bufio.scanLines_Join _ (hmem before after hfree), bufio.scanLines_Join _ hfree]
      exact sysctl.readDropIns_congr earlier later name isDir _ _ _ _ hdins.1 hdins.2 config
    rw [bufio.scanLines_Join _ (hmem before after hfree), bufio.scanLines_Join _ hfree]
    refine ⟨hins.2 Config.empty, ?_, hread, ?_⟩
    · intro a dir
      unfold FileState.ofContent
      rw [bufio.scanLines_Join _ (hmem before after hfree), bufio.scanLines_Join _ hfree]
      exact sysctl.sysctl_Analyze_congr a _ _ _ _ dir hins.1 (hins.2 Config.empty)
    · intro a primary earlier later name isDir
      simp only [sysctl.Analyzer.Analyze, sysctl.readSysctlD, hread]

/-- C21, amended, at the file `PermitRootLogin no` with the comment line
`# managed by hand` put before its line. -/
theorem skipped_lines_contribute_nothing_witness :
    (ssh.NewAnalyzer []).Analyze
        (FileState.ofContent
          (strings.Join ([] ++ "# managed by hand".toList ::
            ["PermitRootLogin no".toList, []]) "\n".toList)) =
      (ssh.NewAnalyzer []).Analyze
        (FileState.ofContent
          (strings.Join ([] ++ ["PermitRootLogin no".toList, []]) "\n".toList)) ∧
    strings.Join ([] ++ "# managed by hand".toList :: ["PermitRootLogin no".toList, []])
        "\n".toList =
      "# managed by hand\nPermitRootLogin no\n".toList :=
  ⟨((skipped_lines_contribute_nothing "# managed by hand".toList (by decide) (by decide)).1
      (Or.inr (Or.inl (by decide))) [] ["PermitRootLogin no".toList, []]
      (by decide)).2.2 (ssh.NewAnalyzer []),
    by decide⟩

/-- C22: among the drop-in files the first file that assigns a key wins.  When the mapping
built from the primary file lacks `k`, no file before `file` in the order of the directory
assigns `k`, and `file`, a `.conf` file, read on its own gives `k` the value `v`, the merged
mapping holds `v` for `k`, whatever the later files assign.  The `.conf` files of the
directory are taken to open and scan without error. -/
theorem first_drop_in_file_wins (config : Config) (earlier later : List DirEntry)
    (name : GoString) (tokens : List GoString) (k v : GoString)
    (hk : config k = none)
    (hearlier : ∀ f ∈ earlier, f.IsDir = false →
      strings.HasSuffix f.Name ".conf".toList = true →
      ∀ ts scanFails, f.file = .readable ts scanFails →
      ∀ l ∈ ts, sysctl.parseDropInLine Config.empty l k = none)
    (hname : strings.HasSuffix name ".conf".toList = true)
    (hfile : tokens.foldl sysctl.parseDropInLine Config.empty k = some v)
    (hread : ∀ f ∈ earlier ++ later, f.IsDir = false →
      strings.HasSuffix f.Name ".conf".toList = true → ∃ ts, f.file = .readable ts false) :
    ∃ merged,
      sysctl.readSysctlDFromPath
        (.entries (earlier ++ ⟨name, false, .readable tokens false⟩ :: later)) config =
          .ok merged ∧
      merged k = some v := by
  obtain ⟨mid, hmid⟩ := sysctl.readDropIns_ok_conf earlier config
    (fun f hf => hread f (List.mem_append_left _ hf))
  have hmidk : mid k = none := sysctl.readDropIns_none earlier config mid k hk hearlier hmid
  have hset : tokens.foldl sysctl.parseDropInLine mid k = some v := by
    rw [sysctl.foldl_parseDropInLine_apply, hmidk]
    exact hfile
  obtain ⟨merged, hmerged⟩ := sysctl.readDropIns_ok_conf later
    (tokens.foldl sysctl.parseDropInLine mid)
    (fun f hf => hread f (List.mem_append_right _ hf))
  refine ⟨merged, ?_, sysctl.readDropIns_keeps later _ merged k v hset hmerged⟩
  simp only [sysctl.readSysctlDFromPath]
  rw [sysctl.readDropIns_append, hmid]
  simp only []
  rw [sysctl.readDropIns_cons]
  simp only [hname, Bool.not_false, Bool.and_self, if_true, Bool.false_eq_true, if_false]
  exact hmerged

/-- C22 at the drop-in files `10-a.conf` (`vm.swappiness=10`) and `20-b.conf`
(`vm.swappiness=60`). -/
theorem first_drop_in_file_wins_witness :
    ∃ merged,
      sysctl.readSysctlDFromPath
        (.entries ([] ++ ⟨"10-a.conf".toList, false,
            .readable ["vm.swappiness=10".toList] false⟩ ::
          [⟨"20-b.conf".toList, false, .readable ["vm.swappiness=60".toList] false⟩]))
        Config.empty = .ok merged ∧
      merged "vm.swappiness".toList = some "10".toList :=
  first_drop_in_file_wins Config.empty []
    [⟨"20-b.conf".toList, false, .readable ["vm.swappiness=60".toList] false⟩]
    "10-a.conf".toList ["vm.swappiness=10".toList] "vm.swappiness".toList "10".toList
    rfl (by simp) (by decide) (by decide)
    (by
      intro f hf _ _
      simp only [List.nil_append, List.mem_singleton] at hf
      exact ⟨_, by rw [hf]⟩)

/-- C23: an entry of the drop-in directory that is a subdirectory, or whose name does not
end in `.conf`, contributes nothing: with such an entry added at any place the merged mapping
and the result of `Analyze` are the same as without it.  When the drop-in directory is
absent `Analyze` succeeds and returns the issues computed from the primary file alone. -/
theorem only_conf_files_contribute (entry : DirEntry)
    (hentry : entry.IsDir = true ∨ strings.HasSuffix entry.Name ".conf".toList = false) :
    (∀ (earlier later : List DirEntry) (config : Config),
      sysctl.readSysctlDFromPath (.entries (earlier ++ entry :: later)) config =
        sysctl.readSysctlDFromPath (.entries (earlier ++ later)) config) ∧
    (∀ (a : sysctl.Analyzer) (primary : FileState) (earlier later : List DirEntry),
      a.Analyze primary (.entries (earlier ++ entry :: later)) =
        a.Analyze primary (.entries (earlier ++ later))) ∧
    (∀ (a : sysctl.Analyzer) (tokens : List GoString),
      a.Analyze (.readable tokens false) .notExist =
        .ok (sysctl.checkRules a.rules (sysctl.parseConfig tokens))) := by
  have hread : ∀ (earlier later : List DirEntry) (config : Config),
      sysctl.readSysctlDFromPath (.entries (earlier ++ entry :: later)) config =
        sysctl.readSysctlDFromPath (.entries (earlier ++ later)) config := by
    intro earlier later config
    simp only [sysctl.readSysctlDFromPath]
    rw [sysctl.readDropIns_append, sysctl.readDropIns_append]
    cases sysctl.readDropIns earlier config with
    | error e => rfl
    | ok mid =>
      simp only []
      exact sysctl.readDropIns_skip entry later mid hentry
  refine ⟨hread, ?_, ?_⟩
  · intro a primary earlier later
    simp only [sysctl.Analyzer.Analyze, sysctl.readSysctlD, hread]
  · intro a tokens
    simp only [sysctl.Analyzer.Analyze, sysctl.readSysctlD, sysctl.readSysctlDFromPath]
    simp

/-- C23 at a directory holding the file `README` next to `10-a.conf`. -/
theorem only_conf_files_contribute_witness :
    sysctl.readSysctlDFromPath
        (.entries ([] ++ ⟨"README".toList, false, .readable ["kernel.sysrq=1".toList] false⟩ ::
          [⟨"10-a.conf".toList, false, .readable ["kernel.sysrq=0".toList] false⟩]))
        Config.empty =
      sysctl.readSysctlDFromPath
        (.entries ([] ++
          [⟨"10-a.conf".toList, false, .readable ["kernel.sysrq=0".toList] false⟩]))
        Config.empty :=
  (only_conf_files_contribute
    ⟨"README".toList, false, .readable ["kernel.sysrq=1".toList] false⟩
    (Or.inr (by decide))).1 []
    [⟨"10-a.conf".toList, false, .readable ["kernel.sysrq=0".toList] false⟩] Config.empty

/-- C24, as stated, fails: a file that exists and is read without an I/O error, whose
content is one comment line of 65536 bytes, makes the SSH `Analyze` fail with the read
error, because the line does not fit the buffer of the scanner. -/
theorem long_line_fails_analysis :
    (ssh.NewAnalyzer []).Analyze (FileState.ofContent (List.replicate 65536 '#')) =
      .error .configRead := by
  have h := bufio.scanLines_too_long 65536 '#' (by decide) (by decide) (by decide)
  unfold FileState.ofContent
  rw [h]
  rfl

/-- C24, amended: when the primary file does not exist, `Analyze` of the SSH and of the
sysctl analyzer returns the not-found error and no issue; when the file exists and cannot
be opened, or its scan fails, it returns the open error or the read error, both different
from the not-found error.  When the file exists, is read without an I/O error and each of
its lines is shorter than the 65536 bytes of the scanner's buffer, `Analyze` does not fail
because of the content: the SSH analysis returns the issues of the scanned lines, and so
does the sysctl analysis whenever the drop-in directory is read. -/
theorem primary_file_errors :
    (∀ (a : ssh.Analyzer),
      a.Analyze .notExist = .error .configNotFound ∧
      a.Analyze .openFails = .error .configOpen ∧
      ∀ tokens, a.Analyze (.readable tokens true) = .error .configRead) ∧
    (∀ (a : sysctl.Analyzer) (dir : DirState),
      a.Analyze .notExist dir = .error .configNotFound ∧
      a.Analyze .openFails dir = .error .configOpen ∧
      ∀ tokens, a.Analyze (.readable tokens true) dir = .error .configRead) ∧
    AnalyzeError.configNotFound ≠ AnalyzeError.configOpen ∧
    AnalyzeError.configNotFound ≠ AnalyzeError.configRead ∧
    (∀ (a : ssh.Analyzer) (content : GoString),
      (∀ piece ∈ strings.Split content "\n".toList,
        bufio.byteLen piece < bufio.MaxScanTokenSize) →
      a.Analyze (FileState.ofContent content) =
        .ok (ssh.checkRules a.rules (ssh.parseConfig (bufio.scanLines content).1))) ∧
    (∀ (a : sysctl.Analyzer) (content : GoString) (dir : DirState) (merged : Config),
      (∀ piece ∈ strings.Split content "\n".toList,
        bufio.byteLen piece < bufio.MaxScanTokenSize) →
      sysctl.readSysctlDFromPath dir (sysctl.parseConfig (bufio.scanLines content).1) =
        .ok merged →
      a.Analyze (FileState.ofContent content) dir = .ok (sysctl.checkRules a.rules merged)) := by
  refine ⟨fun a => ⟨rfl, rfl, fun _ => rfl⟩, fun a dir => ⟨rfl, rfl, fun _ => rfl⟩,
    by decide, by decide, ?_, ?_⟩
  · intro a content hshort
    have hok : (bufio.scanLines content).2 = false := bufio.scanPieces_ok _ hshort
    unfold FileState.ofContent
    rw [hok]
    rfl
  · intro a content dir merged hshort hmerged
    have hok : (bufio.scanLines content).2 = false := bufio.scanPieces_ok _ hshort
    unfold FileState.ofContent
    rw [hok]
    simp only [sysctl.Analyzer.Analyze, sysctl.readSysctlD, Bool.false_eq_true, if_false,
      ite_self, hmerged]

/-- C24, amended, at the SSH file of content `PermitRootLogin no`, a newline, `# end`. -/
theorem primary_file_errors_witness :
    (ssh.NewAnalyzer []).Analyze (FileState.ofContent "PermitRootLogin no\n# end".toList) =
      .ok (ssh.checkRules (ssh.NewAnalyzer []).rules
        (ssh.parseConfig (bufio.scanLines "PermitRootLogin no\n# end".toList).1)) :=
  primary_file_errors.2.2.2.2.1 (ssh.NewAnalyzer []) "PermitRootLogin no\n# end".toList
    (by decide)


/-- C25: keys are compared exactly.  When every key that the lines of the file assign
differs from the key of a rule, in casing or otherwise, the parsed mapping has no value at
the rule's key, the check of the rule adds the missing-key issue with an empty current
value, and that issue is in the list `Analyze` returns; for sysctl the same holds when
`/etc/sysctl.d` does not exist.  The line `permitrootlogin no` is recorded under the key
`permitrootlogin` and leaves `PermitRootLogin` without a value, and so does the line
`Kernel.Sysrq = 0` for `kernel.sysrq`. -/
theorem keys_case_sensitive :
    (∀ (a : ssh.Analyzer) (rule : ssh.SSHRule) (lines : List GoString),
      rule ∈ a.rules →
      (∀ l ∈ lines, ∀ key value,
        ssh.parseLine Config.empty l key = some value → key ≠ rule.Key) →
      ssh.parseConfig lines rule.Key = none ∧
      (∀ issues, ssh.checkRule (ssh.parseConfig lines) issues rule =
        issues ++ [{ Category := "ssh".toList
                     Severity := rule.Severity
                     Description := rule.Description
                     CurrentValue := []
                     RecommendedValue := rule.RecommendedValue
                     FixCommand := "echo '".toList ++ rule.Key ++ " ".toList ++
                       rule.RecommendedValue ++ "' >> /etc/ssh/sshd_config".toList }]) ∧
      ∃ found, a.Analyze (.readable lines false) = .ok found ∧
        ({ Category := "ssh".toList
           Severity := rule.Severity
           Description := rule.Description
           CurrentValue := []
           RecommendedValue := rule.RecommendedValue
           FixCommand := "echo '".toList ++ rule.Key ++ " ".toList ++
             rule.RecommendedValue ++ "' >> /etc/ssh/sshd_config".toList } :
          report.Issue) ∈ found) ∧
    (∀ (a : sysctl.Analyzer) (rule : sysctl.SysctlRule) (lines : List GoString),
      rule ∈ a.rules →
      (∀ l ∈ lines, ∀ key value,
        sysctl.parseLine Config.empty l key = some value → key ≠ rule.Key) →
      sysctl.parseConfig lines rule.Key = none ∧
      (∀ issues, sysctl.checkRule (sysctl.parseConfig lines) issues rule =
        issues ++ [{ Category := "sysctl".toList
                     Severity := rule.Severity
                     Description := rule.Description
                     CurrentValue := []
                     RecommendedValue := rule.RecommendedValue
                     FixCommand := "echo '".toList ++ rule.Key ++ " = ".toList ++
                       rule.RecommendedValue ++
                       "' >> /etc/sysctl.conf && sysctl -p".toList }]) ∧
      ∃ found, a.Analyze (.readable lines false) .notExist = .ok found ∧
        ({ Category := "sysctl".toList
           Severity := rule.Severity
           Description := rule.Description
           CurrentValue := []
           RecommendedValue := rule.RecommendedValue
           FixCommand := "echo '".toList ++ rule.Key ++ " = ".toList ++
             rule.RecommendedValue ++ "' >> /etc/sysctl.conf && sysctl -p".toList } :
          report.Issue) ∈ found) ∧
    ssh.parseConfig ["permitrootlogin no".toList] "permitrootlogin".toList =
      some "no".toList ∧
    ssh.parseConfig ["permitrootlogin no".toList] "PermitRootLogin".toList = none ∧
    sysctl.parseConfig ["Kernel.Sysrq = 0".toList] "Kernel.Sysrq".toList =
      some "0".toList ∧
    sysctl.parseConfig ["Kernel.Sysrq = 0".toList] "kernel.sysrq".toList = none := by
  refine ⟨?_, ?_, by decide, by decide, by decide, by decide⟩
  · intro a rule lines hrule hkeys
    have hnone : ssh.parseConfig lines rule.Key = none := by
      rw [ssh.ssh_parseConfig_eq_none_iff]
      intro l hl
      cases hv : ssh.parseLine Config.empty l rule.Key with
      | none => rfl
      | some v => exact absurd rfl (hkeys l hl rule.Key v hv)
    have hcheck : ∀ issues, ssh.checkRule (ssh.parseConfig lines) issues rule =
        issues ++ [{ Category := "ssh".toList
                     Severity := rule.Severity
                     Description := rule.Description
                     CurrentValue := []
                     RecommendedValue := rule.RecommendedValue
                     FixCommand := "echo '".toList ++ rule.Key ++ " ".toList ++
                       rule.RecommendedValue ++ "' >> /etc/ssh/sshd_config".toList }] := by
      intro issues
      unfold ssh.checkRule
      rw [hnone]
    refine ⟨hnone, hcheck, _, rfl, ?_⟩
    rw [ssh.ssh_mem_checkRules]
    refine ⟨rule, hrule, ?_⟩
    rw [hcheck []]
    simp
  · intro a rule lines hrule hkeys
    have hnone : sysctl.parseConfig lines rule.Key = none := by
      rw [sysctl.sysctl_eq_none_iff]
      intro l hl
      cases hv : sysctl.parseLine Config.empty l rule.Key with
      | none => rfl
      | some v => exact absurd rfl (hkeys l hl rule.Key v hv)
    have hcheck : ∀ issues, sysctl.checkRule (sysctl.parseConfig lines) issues rule =
        issues ++ [{ Category := "sysctl".toList
                     Severity := rule.Severity
                     Description := rule.Description
                     CurrentValue := []
                     RecommendedValue := rule.RecommendedValue
                     FixCommand := "echo '".toList ++ rule.Key ++ " = ".toList ++
                       rule.RecommendedValue ++
                       "' >> /etc/sysctl.conf && sysctl -p".toList }] := by
      intro issues
      unfold sysctl.checkRule
      rw [hnone]
    refine ⟨hnone, hcheck, _, sysctl.sysctl_Analyze_of_merged a lines .notExist _ rfl, ?_⟩
    rw [sysctl.sysctl_mem_checkRules]
    refine ⟨rule, hrule, ?_⟩
    rw [hcheck []]
    simp

/-- C25 at the file of the one line `permitrootlogin no` and the rule `PermitRootLogin`. -/
theorem keys_case_sensitive_witness :
    ∃ found, (ssh.NewAnalyzer []).Analyze (.readable ["permitrootlogin no".toList] false) =
        .ok found ∧
      ({ Category := "ssh".toList
         Severity := report.SeverityCritical
         Description := "Login direto como root deve ser desabilitado".toList
         CurrentValue := []
         RecommendedValue := "no".toList
         FixCommand := "echo 'PermitRootLogin no' >> /etc/ssh/sshd_config".toList } :
        report.Issue) ∈ found :=
  (keys_case_sensitive.1 (ssh.NewAnalyzer []) ssh.getDefaultRules[0]
    ["permitrootlogin no".toList] (List.mem_cons_self _ _) (by
      intro l hl key value hv hkey
      rw [List.mem_singleton] at hl
      subst hl
      have hk : key = "PermitRootLogin".toList := hkey
      subst hk
      have hn : ssh.parseLine Config.empty "permitrootlogin no".toList
          "PermitRootLogin".toList = none := by decide
      rw [hn] at hv
      cases hv)).2.2


/-- C26: when two sequences of lines are permutations of each other and no two lines of the
sequence assign the same key, the parsed mappings are equal and `Analyze` returns the same
result, issue for issue and in the same order, for the SSH file and for the primary sysctl
file with any state of the drop-in directory. -/
theorem line_order_irrelevant :
    (∀ (a : ssh.Analyzer) (lines1 lines2 : List GoString) (scanFails : Bool),
      lines1.Perm lines2 →
      lines1.Pairwise (fun l1 l2 => ∀ k,
        ssh.parseLine Config.empty l1 k = none ∨ ssh.parseLine Config.empty l2 k = none) →
      ssh.parseConfig lines1 = ssh.parseConfig lines2 ∧
      a.Analyze (.readable lines1 scanFails) = a.Analyze (.readable lines2 scanFails)) ∧
    (∀ (a : sysctl.Analyzer) (lines1 lines2 : List GoString) (scanFails : Bool)
      (dir : DirState),
      lines1.Perm lines2 →
      lines1.Pairwise (fun l1 l2 => ∀ k,
        sysctl.parseLine Config.empty l1 k = none ∨
          sysctl.parseLine Config.empty l2 k = none) →
      sysctl.parseConfig lines1 = sysctl.parseConfig lines2 ∧
      a.Analyze (.readable lines1 scanFails) dir =
        a.Analyze (.readable lines2 scanFails) dir) := by
  constructor
  · intro a lines1 lines2 scanFails hperm hpw
    have hcfg : ssh.parseConfig lines1 = ssh.parseConfig lines2 :=
      foldl_perm ssh.parseLine ssh.ssh_parseLine_apply lines1 lines2 hperm hpw
    refine ⟨hcfg, ?_⟩
    simp only [ssh.Analyzer.Analyze, hcfg]
  · intro a lines1 lines2 scanFails dir hperm hpw
    have hcfg : sysctl.parseConfig lines1 = sysctl.parseConfig lines2 :=
      foldl_perm sysctl.parseLine sysctl.sysctl_parseLine_apply lines1 lines2 hperm hpw
    refine ⟨hcfg, ?_⟩
    simp only [sysctl.Analyzer.Analyze, hcfg]

/-- C26 at the lines `PermitRootLogin yes` and `Port 22` in their two orders. -/
theorem line_order_irrelevant_witness :
    (ssh.NewAnalyzer []).Analyze
        (.readable ["PermitRootLogin yes".toList, "Port 22".toList] false) =
      (ssh.NewAnalyzer []).Analyze
        (.readable ["Port 22".toList, "PermitRootLogin yes".toList] false) :=
  (line_order_irrelevant.1 (ssh.NewAnalyzer [])
    ["PermitRootLogin yes".toList, "Port 22".toList]
    ["Port 22".toList, "PermitRootLogin yes".toList] false
    (List.Perm.swap _ _ _)
    (by
      refine List.pairwise_cons.mpr ⟨?_, List.pairwise_singleton _ _⟩
      intro l hl k
      rw [List.mem_singleton] at hl
      subst hl
      by_cases hk : k = "Port".toList
      · left
        subst hk
        decide
      · right
        have hset : ssh.parseLine Config.empty "Port 22".toList =
            Config.empty.set "Port".toList "22".toList := rfl
        rw [hset, Config.set_apply, if_neg hk]
        rfl)).2


/-- C27: for every rule table and every mapping the rule loop returns the table filtered to
the rules that are missing or violated, each mapped to its issue, so the issues follow the
order of the table and a rule has at most one; `Analyze` returns that list for the parsed
(for sysctl: merged) mapping.  With the default tables the list has at most 10 (SSH) or 15
(sysctl) issues, and for an empty file (and no drop-in directory) it has one issue per rule,
10 or 15 in all, each with an empty current value. -/
theorem issues_follow_rule_order :
    (∀ (rules : List ssh.SSHRule) (config : Config),
      ssh.checkRules rules config =
        (rules.filter (ssh.ruleFails config)).map (ssh.ruleIssue config)) ∧
    (∀ (a : ssh.Analyzer) (tokens : List GoString),
      a.Analyze (.readable tokens false) =
        .ok ((a.rules.filter (ssh.ruleFails (ssh.parseConfig tokens))).map
          (ssh.ruleIssue (ssh.parseConfig tokens)))) ∧
    (∀ (mountPoint : GoString) (tokens : List GoString),
      ∃ found, (ssh.NewAnalyzer mountPoint).Analyze (.readable tokens false) = .ok found ∧
        found.length ≤ 10) ∧
    (∀ (mountPoint : GoString),
      (ssh.NewAnalyzer mountPoint).Analyze (.readable [] false) =
        .ok (ssh.getDefaultRules.map (ssh.ruleIssue Config.empty)) ∧
      (ssh.getDefaultRules.map (ssh.ruleIssue Config.empty)).length = 10 ∧
      ∀ i ∈ ssh.getDefaultRules.map (ssh.ruleIssue Config.empty), i.CurrentValue = []) ∧
    (∀ (rules : List sysctl.SysctlRule) (config : Config),
      sysctl.checkRules rules config =
        (rules.filter (sysctl.ruleFails config)).map (sysctl.ruleIssue config)) ∧
    (∀ (a : sysctl.Analyzer) (tokens : List GoString) (dir : DirState) (merged : Config),
      sysctl.readSysctlDFromPath dir (sysctl.parseConfig tokens) = .ok merged →
      a.Analyze (.readable tokens false) dir =
        .ok ((a.rules.filter (sysctl.ruleFails merged)).map (sysctl.ruleIssue merged))) ∧
    (∀ (mountPoint : GoString) (tokens : List GoString) (dir : DirState)
      (found : List report.Issue),
      (sysctl.NewAnalyzer mountPoint).Analyze (.readable tokens false) dir = .ok found →
      found.length ≤ 15) ∧
    (∀ (mountPoint : GoString),
      (sysctl.NewAnalyzer mountPoint).Analyze (.readable [] false) .notExist =
        .ok (sysctl.getDefaultRules.map (sysctl.ruleIssue Config.empty)) ∧
      (sysctl.getDefaultRules.map (sysctl.ruleIssue Config.empty)).length = 15 ∧
      ∀ i ∈ sysctl.getDefaultRules.map (sysctl.ruleIssue Config.empty),
        i.CurrentValue = []) := by
  have hssh : ∀ (a : ssh.Analyzer) (tokens : List GoString),
      a.Analyze (.readable tokens false) =
        .ok ((a.rules.filter (ssh.ruleFails (ssh.parseConfig tokens))).map
          (ssh.ruleIssue (ssh.parseConfig tokens))) := by
    intro a tokens
    rw [← ssh.ssh_checkRules_eq]
    rfl
  have hsys : ∀ (a : sysctl.Analyzer) (tokens : List GoString) (dir : DirState)
      (merged : Config),
      sysctl.readSysctlDFromPath dir (sysctl.parseConfig tokens) = .ok merged →
      a.Analyze (.readable tokens false) dir =
        .ok ((a.rules.filter (sysctl.ruleFails merged)).map (sysctl.ruleIssue merged)) := by
    intro a tokens dir merged h
    rw [← sysctl.sysctl_checkRules_eq]
    exact sysctl.sysctl_Analyze_of_merged a tokens dir merged h
  refine ⟨ssh.ssh_checkRules_eq, hssh, ?_, ?_, sysctl.sysctl_checkRules_eq, hsys, ?_, ?_⟩
  · intro mountPoint tokens
    refine ⟨_, hssh _ tokens, ?_⟩
    rw [List.length_map]
    exact le_trans (List.length_filter_le _ _) (le_of_eq rfl)
  · intro mountPoint
    refine ⟨?_, by decide, by decide⟩
    rw [hssh]
    rfl
  · intro mountPoint tokens dir found h
    obtain ⟨tokens1, merged, hfile, _, hfound⟩ := sysctl.sysctl_Analyze_ok _ _ _ _ h
    rw [hfound, sysctl.sysctl_checkRules_eq, List.length_map]
    exact le_trans (List.length_filter_le _ _) (le_of_eq rfl)
  · intro mountPoint
    refine ⟨?_, by decide, by decide⟩
    rw [hsys _ [] .notExist Config.empty rfl]
    rfl

/-- C27 at the sysctl file of the one line `kernel.sysrq = 0` and no drop-in directory. -/
theorem issues_follow_rule_order_witness :
    ((sysctl.NewAnalyzer []).Analyze (.readable ["kernel.sysrq = 0".toList] false)
        .notExist =
      .ok (((sysctl.NewAnalyzer []).rules.filter
          (sysctl.ruleFails (sysctl.parseConfig ["kernel.sysrq = 0".toList]))).map
        (sysctl.ruleIssue (sysctl.parseConfig ["kernel.sysrq = 0".toList])))) ∧
    (((sysctl.NewAnalyzer []).rules.filter
          (sysctl.ruleFails (sysctl.parseConfig ["kernel.sysrq = 0".toList]))).map
        (sysctl.ruleIssue (sysctl.parseConfig ["kernel.sysrq = 0".toList]))).length ≤ 15 :=
  ⟨issues_follow_rule_order.2.2.2.2.2.1 (sysctl.NewAnalyzer [])
      ["kernel.sysrq = 0".toList] .notExist
      (sysctl.parseConfig ["kernel.sysrq = 0".toList]) rfl,
    issues_follow_rule_order.2.2.2.2.2.2.1 [] ["kernel.sysrq = 0".toList] .notExist _
      (issues_follow_rule_order.2.2.2.2.2.1 (sysctl.NewAnalyzer [])
        ["kernel.sysrq = 0".toList] .notExist
        (sysctl.parseConfig ["kernel.sysrq = 0".toList]) rfl)⟩


/-- C28: whatever the rule table and the input, every issue in the list the SSH analyzer
returns has the category `ssh`, every issue in the list the sysctl analyzer returns has the
category `sysctl`, and every issue in the list the services analyzer returns, under
whichever of its three strategies ran, has the category `services`. -/
theorem category_matches_analyzer :
    (∀ (a : ssh.Analyzer) (file : FileState) (found : List report.Issue),
      a.Analyze file = .ok found → ∀ i ∈ found, i.Category = "ssh".toList) ∧
    (∀ (a : sysctl.Analyzer) (file : FileState) (dir : DirState)
      (found : List report.Issue),
      a.Analyze file dir = .ok found → ∀ i ∈ found, i.Category = "sysctl".toList) ∧
    (∀ (a : services.Analyzer) (toLower : GoString → GoString) (host : services.Host)
      (found : List report.Issue),
      a.Analyze toLower host = .ok found → ∀ i ∈ found, i.Category = "services".toList) := by
  refine ⟨?_, ?_, ?_⟩
  · intro a file found h i hi
    obtain ⟨tokens, _, hfound⟩ := ssh.ssh_Analyze_ok a file found h
    rw [hfound, ssh.ssh_checkRules_eq, List.mem_map] at hi
    obtain ⟨rule, _, rfl⟩ := hi
    exact (ssh.ssh_ruleIssue_fields _ rule).1
  · intro a file dir found h i hi
    obtain ⟨tokens, merged, _, _, hfound⟩ := sysctl.sysctl_Analyze_ok a file dir found h
    rw [hfound, sysctl.sysctl_checkRules_eq, List.mem_map] at hi
    obtain ⟨rule, _, rfl⟩ := hi
    exact (sysctl.sysctl_ruleIssue_fields _ rule).1
  · intro a toLower host found h i hi
    obtain ⟨rule, _, name, hin | hin | hin⟩ :=
      services.services_Analyze_ok a toLower host found h i hi <;>
    · rw [hin]
      rfl

/-- C28 at the services analyzer under the mount point `/mnt/image` whose enabled-units
directory holds `telnet.service`. -/
theorem category_matches_analyzer_witness :
    (services.NewAnalyzer "/mnt/image".toList).Analyze (fun s => s)
        ⟨fun dir =>
            if dir = "/mnt/image/etc/systemd/system/multi-user.target.wants".toList then
              .entries [⟨"telnet.service".toList, false, .notExist⟩]
            else .notExist,
          fun _ => false, none, fun _ => []⟩ =
      .ok [services.enabledIssue services.getDefaultRules[0] "telnet".toList] ∧
    (services.enabledIssue services.getDefaultRules[0] "telnet".toList).Category =
      "services".toList :=
  ⟨rfl, category_matches_analyzer.2.2 (services.NewAnalyzer "/mnt/image".toList) (fun s => s)
    ⟨fun dir =>
        if dir = "/mnt/image/etc/systemd/system/multi-user.target.wants".toList then
          .entries [⟨"telnet.service".toList, false, .notExist⟩]
        else .notExist,
      fun _ => false, none, fun _ => []⟩
    [services.enabledIssue services.getDefaultRules[0] "telnet".toList] rfl _
    (List.mem_singleton.mpr rfl)⟩

/-- C29: every issue returned by an analyzer built by `NewAnalyzer`, whose rules are the
default table, has the severity CRITICAL, WARNING or INFO; and for every issue list whose
members all come from lists such analyzers returned, any concatenation of analyzer outputs
among them, the total of the summary of the structured report is the sum of its critical,
warning and info counts. -/
theorem analyzer_severities_named :
    (∀ (mountPoint : GoString) (file : FileState) (found : List report.Issue),
      (ssh.NewAnalyzer mountPoint).Analyze file = .ok found →
      ∀ i ∈ found, i.Severity = report.SeverityCritical ∨
        i.Severity = report.SeverityWarning ∨ i.Severity = report.SeverityInfo) ∧
    (∀ (mountPoint : GoString) (file : FileState) (dir : DirState)
      (found : List report.Issue),
      (sysctl.NewAnalyzer mountPoint).Analyze file dir = .ok found →
      ∀ i ∈ found, i.Severity = report.SeverityCritical ∨
        i.Severity = report.SeverityWarning ∨ i.Severity = report.SeverityInfo) ∧
    (∀ (mountPoint : GoString) (toLower : GoString → GoString) (host : services.Host)
      (found : List report.Issue),
      (services.NewAnalyzer mountPoint).Analyze toLower host = .ok found →
      ∀ i ∈ found, i.Severity = report.SeverityCritical ∨
        i.Severity = report.SeverityWarning ∨ i.Severity = report.SeverityInfo) ∧
    (∀ (issues : List report.Issue),
      (∀ i ∈ issues,
        (∃ mountPoint file found,
          (ssh.NewAnalyzer mountPoint).Analyze file = .ok found ∧ i ∈ found) ∨
        (∃ mountPoint file dir found,
          (sysctl.NewAnalyzer mountPoint).Analyze file dir = .ok found ∧ i ∈ found) ∨
        (∃ mountPoint toLower host found,
          (services.NewAnalyzer mountPoint).Analyze toLower host = .ok found ∧
            i ∈ found)) →
      (report.jsonReport issues).Summary.Total =
        (report.jsonReport issues).Summary.Critical +
          (report.jsonReport issues).Summary.Warning +
          (report.jsonReport issues).Summary.Info) ∧
    (∀ (mountPoint : GoString) (sshFile sysctlFile : FileState) (dir : DirState)
      (toLower : GoString → GoString) (host : services.Host)
      (sshIssues sysctlIssues servicesIssues : List report.Issue),
      (ssh.NewAnalyzer mountPoint).Analyze sshFile = .ok sshIssues →
      (sysctl.NewAnalyzer mountPoint).Analyze sysctlFile dir = .ok sysctlIssues →
      (services.NewAnalyzer mountPoint).Analyze toLower host = .ok servicesIssues →
      (report.jsonReport (sshIssues ++ sysctlIssues ++ servicesIssues)).Summary.Total =
        (report.jsonReport (sshIssues ++ sysctlIssues ++ servicesIssues)).Summary.Critical +
          (report.jsonReport (sshIssues ++ sysctlIssues ++ servicesIssues)).Summary.Warning +
          (report.jsonReport (sshIssues ++ sysctlIssues ++ servicesIssues)).Summary.Info) := by
  have h1 : ∀ (mountPoint : GoString) (file : FileState) (found : List report.Issue),
      (ssh.NewAnalyzer mountPoint).Analyze file = .ok found →
      ∀ i ∈ found, i.Severity = report.SeverityCritical ∨
        i.Severity = report.SeverityWarning ∨ i.Severity = report.SeverityInfo := by
    intro mountPoint file found h i hi
    obtain ⟨tokens, _, hfound⟩ := ssh.ssh_Analyze_ok _ file found h
    rw [hfound, ssh.ssh_checkRules_eq, List.mem_map] at hi
    obtain ⟨rule, hrule, rfl⟩ := hi
    rw [(ssh.ssh_ruleIssue_fields _ rule).2]
    exact ssh.ssh_rule_severity rule (List.mem_filter.mp hrule).1
  have h2 : ∀ (mountPoint : GoString) (file : FileState) (dir : DirState)
      (found : List report.Issue),
      (sysctl.NewAnalyzer mountPoint).Analyze file dir = .ok found →
      ∀ i ∈ found, i.Severity = report.SeverityCritical ∨
        i.Severity = report.SeverityWarning ∨ i.Severity = report.SeverityInfo := by
    intro mountPoint file dir found h i hi
    obtain ⟨tokens, merged, _, _, hfound⟩ := sysctl.sysctl_Analyze_ok _ file dir found h
    rw [hfound, sysctl.sysctl_checkRules_eq, List.mem_map] at hi
    obtain ⟨rule, hrule, rfl⟩ := hi
    rw [(sysctl.sysctl_ruleIssue_fields _ rule).2]
    exact sysctl.sysctl_rule_severity rule (List.mem_filter.mp hrule).1
  have h3 : ∀ (mountPoint : GoString) (toLower : GoString → GoString)
      (host : services.Host) (found : List report.Issue),
      (services.NewAnalyzer mountPoint).Analyze toLower host = .ok found →
      ∀ i ∈ found, i.Severity = report.SeverityCritical ∨
        i.Severity = report.SeverityWarning ∨ i.Severity = report.SeverityInfo := by
    intro mountPoint toLower host found h i hi
    obtain ⟨rule, hrule, name, hin | hin | hin⟩ :=
      services.services_Analyze_ok _ toLower host found h i hi <;>
    · rw [hin]
      exact services.services_rule_severity rule hrule
  refine ⟨h1, h2, h3, ?_, ?_⟩
  · intro issues hall
    apply report.total_of_named
    intro i hi
    rcases hall i hi with ⟨mp, file, found, hf, hm⟩ | ⟨mp, file, dir, found, hf, hm⟩ |
      ⟨mp, toLower, host, found, hf, hm⟩
    · exact h1 mp file found hf i hm
    · exact h2 mp file dir found hf i hm
    · exact h3 mp toLower host found hf i hm
  · intro mountPoint sshFile sysctlFile dir toLower host f1 f2 f3 hf1 hf2 hf3
    apply report.total_of_named
    intro i hi
    rw [List.mem_append, List.mem_append] at hi
    rcases hi with (hi | hi) | hi
    · exact h1 _ _ _ hf1 i hi
    · exact h2 _ _ _ _ hf2 i hi
    · exact h3 _ _ _ _ hf3 i hi

/-- C29 at an empty `sshd_config`, an empty `sysctl.conf` without drop-in directory, and an
image whose enabled-units directory holds `telnet.service`: 26 issues. -/
theorem analyzer_severities_named_witness :
    (report.jsonReport
        (ssh.getDefaultRules.map (ssh.ruleIssue Config.empty) ++
          sysctl.getDefaultRules.map (sysctl.ruleIssue Config.empty) ++
          [services.enabledIssue services.getDefaultRules[0] "telnet".toList])).Summary.Total =
      26 ∧
    (report.jsonReport
        (ssh.getDefaultRules.map (ssh.ruleIssue Config.empty) ++
          sysctl.getDefaultRules.map (sysctl.ruleIssue Config.empty) ++
          [services.enabledIssue services.getDefaultRules[0] "telnet".toList])).Summary.Total =
      (report.jsonReport
        (ssh.getDefaultRules.map (ssh.ruleIssue Config.empty) ++
          sysctl.getDefaultRules.map (sysctl.ruleIssue Config.empty) ++
          [services.enabledIssue services.getDefaultRules[0]
            "telnet".toList])).Summary.Critical +
      (report.jsonReport
        (ssh.getDefaultRules.map (ssh.ruleIssue Config.empty) ++
          sysctl.getDefaultRules.map (sysctl.ruleIssue Config.empty) ++
          [services.enabledIssue services.getDefaultRules[0]
            "telnet".toList])).Summary.Warning +
      (report.jsonReport
        (ssh.getDefaultRules.map (ssh.ruleIssue Config.empty) ++
          sysctl.getDefaultRules.map (sysctl.ruleIssue Config.empty) ++
          [services.enabledIssue services.getDefaultRules[0]
            "telnet".toList])).Summary.Info :=
  ⟨by decide,
    analyzer_severities_named.2.2.2.2 "/mnt/image".toList (.readable [] false)
      (.readable [] false) .notExist (fun s => s)
      ⟨fun dir =>
          if dir = "/mnt/image/etc/systemd/system/multi-user.target.wants".toList then
            .entries [⟨"telnet.service".toList, false, .notExist⟩]
          else .notExist,
        fun _ => false, none, fun _ => []⟩
      (ssh.getDefaultRules.map (ssh.ruleIssue Config.empty))
      (sysctl.getDefaultRules.map (sysctl.ruleIssue Config.empty))
      [services.enabledIssue services.getDefaultRules[0] "telnet".toList]
      rfl rfl rfl⟩


/-- C30: for every issue collection and any order in which the categories that occur are
visited, each once, the text report is the header followed by one section per category;
for the empty collection it is the header only.  The section of a category is its title
line, one entry per issue of that category, and an empty line; the issues of a section are
those of its category, in their relative order from the collection; the groups of all the
sections together hold every issue of the collection exactly once; and the entry at
position `k` (from 0) of a section is the entry of the `k`-th issue of the group, numbered
`k + 1`. -/
theorem text_report_partition (issues : List report.Issue) (toUpper : GoString → GoString)
    (order : List GoString) (hnodup : order.Nodup)
    (horder : ∀ c, c ∈ order ↔ ∃ i ∈ issues, i.Category = c) :
    report.generateText issues toUpper order =
      report.textHead ++ (order.map (report.textSection issues toUpper)).flatten ∧
    (issues = [] → report.generateText issues toUpper order = report.textHead) ∧
    (∀ c, (∃ i ∈ issues, i.Category = c) →
      ∃ before after, order = before ++ c :: after ∧ c ∉ before ∧ c ∉ after) ∧
    (∀ c, report.textSection issues toUpper c =
      ("== ".toList ++ toUpper c ++ " ==\n".toList) ++
        ((issues.filter fun issue => issue.Category == c).enum.map
          fun entry => report.textEntry entry.1 entry.2).flatten ++ "\n".toList) ∧
    (∀ c, (issues.filter fun issue => issue.Category == c).Sublist issues ∧
      ∀ i ∈ issues.filter (fun issue => issue.Category == c), i.Category = c) ∧
    ((order.map fun c => issues.filter fun issue => issue.Category == c).flatten).Perm
      issues ∧
    (∀ c k, ((issues.filter fun issue => issue.Category == c).enum.map
        fun entry => report.textEntry entry.1 entry.2)[k]? =
      (issues.filter fun issue => issue.Category == c)[k]?.map (report.textEntry k)) ∧
    (∀ k (issue : report.Issue), ∃ rest,
      report.textEntry k issue =
        Nat.toDigits 10 (k + 1) ++ ". [".toList ++ issue.Severity ++ "] ".toList ++
          issue.Description ++ "\n".toList ++ rest) := by
  refine ⟨report.generateText_eq issues toUpper order, ?_, ?_, fun c => rfl, ?_, ?_, ?_, ?_⟩
  · intro hnil
    have hord : order = [] := by
      apply List.eq_nil_iff_forall_not_mem.mpr
      intro c hc
      obtain ⟨i, hi, _⟩ := (horder c).mp hc
      rw [hnil] at hi
      cases hi
    rw [report.generateText_eq, hord]
    simp
  · intro c hc
    have hmem : c ∈ order := (horder c).mpr hc
    obtain ⟨s, t, hst⟩ := List.append_of_mem hmem
    subst hst
    have h1 := List.nodup_append.mp hnodup
    have h2 := List.nodup_cons.mp h1.2.1
    refine ⟨s, t, rfl, ?_, h2.1⟩
    intro hs
    exact h1.2.2 hs (List.mem_cons_self _ _)
  · intro c
    refine ⟨List.filter_sublist _, ?_⟩
    intro i hi
    have := (List.mem_filter.mp hi).2
    simpa using this
  · exact report.groups_perm order hnodup issues
      (fun i hi => (horder i.Category).mpr ⟨i, hi, rfl⟩)
  · intro c k
    exact report.entries_getElem? _ k
  · intro k issue
    refine ⟨(if issue.CurrentValue ≠ [] then
        "   Valor atual: ".toList ++ issue.CurrentValue ++ "\n".toList
      else []) ++
      (if issue.RecommendedValue ≠ [] then
        "   Valor recomendado: ".toList ++ issue.RecommendedValue ++ "\n".toList
      else []) ++
      (if issue.FixCommand ≠ [] then
        "   Correção: ".toList ++ issue.FixCommand ++ "\n".toList
      else []) ++
      "\n".toList, ?_⟩
    unfold report.textEntry
    simp only [List.append_assoc]

/-- C30 at a collection of two `ssh` issues around one `services` issue, with the
categories visited in the order `services`, `ssh`. -/
theorem text_report_partition_witness :
    report.generateText
        [⟨"ssh".toList, report.SeverityCritical, "a".toList, [], [], []⟩,
          ⟨"services".toList, report.SeverityWarning, "b".toList, [], [], []⟩,
          ⟨"ssh".toList, report.SeverityInfo, "c".toList, [], [], []⟩]
        (fun s => s.map Char.toUpper) ["services".toList, "ssh".toList] =
      ("=== RELATÓRIO DE SEGURANÇA HARDSHELL ===\n\n" ++
        "== SERVICES ==\n1. [WARNING] b\n\n\n" ++
        "== SSH ==\n1. [CRITICAL] a\n\n2. [INFO] c\n\n\n").toList ∧
    report.generateText
        [⟨"ssh".toList, report.SeverityCritical, "a".toList, [], [], []⟩,
          ⟨"services".toList, report.SeverityWarning, "b".toList, [], [], []⟩,
          ⟨"ssh".toList, report.SeverityInfo, "c".toList, [], [], []⟩]
        (fun s => s.map Char.toUpper) ["services".toList, "ssh".toList] =
      report.textHead ++ (["services".toList, "ssh".toList].map (report.textSection
        [⟨"ssh".toList, report.SeverityCritical, "a".toList, [], [], []⟩,
          ⟨"services".toList, report.SeverityWarning, "b".toList, [], [], []⟩,
          ⟨"ssh".toList, report.SeverityInfo, "c".toList, [], [], []⟩]
        (fun s => s.map Char.toUpper))).flatten :=
  ⟨by decide,
    (text_report_partition
      [⟨"ssh".toList, report.SeverityCritical, "a".toList, [], [], []⟩,
        ⟨"services".toList, report.SeverityWarning, "b".toList, [], [], []⟩,
        ⟨"ssh".toList, report.SeverityInfo, "c".toList, [], [], []⟩]
      (fun s => s.map Char.toUpper) ["services".toList, "ssh".toList]
      (by decide)
      (by
        intro c
        constructor
        · intro hc
          simp only [List.mem_cons, List.mem_singleton, List.not_mem_nil, or_false] at hc
          rcases hc with rfl | rfl
          · exact ⟨_, List.mem_cons_of_mem _ (List.mem_cons_self _ _), rfl⟩
          · exact ⟨_, List.mem_cons_self _ _, rfl⟩
        · rintro ⟨i, hi, rfl⟩
          simp only [List.mem_cons, List.mem_singleton, List.not_mem_nil, or_false] at hi
          rcases hi with rfl | rfl | rfl <;> decide)).1⟩


/-- C31: in the loop of the legacy strategy an init script that is not a directory is
checked against the rules exactly when the lower-cased output of its status query holds
neither `stopped` nor `not running`: then it adds one issue per rule that accepts its name;
when the output holds one of the two, it adds nothing, whatever rules accept its name, and
the loop runs as if the script were absent.  The exit status of the query is not looked at,
so the output alone decides; an empty output counts as active.  With the default rules and
`/etc/init.d` holding the script `telnet`, `Analyze` returns no issue for the outputs
`telnet is stopped` and `Telnet is NOT RUNNING`, and the telnet issue for the empty output
and for `telnet is running`. -/
theorem legacy_script_active :
    (∀ (a : services.Analyzer) (toLower : GoString → GoString)
      (status : GoString → GoString) (file : DirEntry) (acc : List report.Issue),
      file.IsDir = false →
      strings.Contains (toLower (status file.Name)) "stopped".toList = false →
      strings.Contains (toLower (status file.Name)) "not running".toList = false →
      a.checkInitScripts toLower status [file] acc =
        acc ++ (a.rules.filter fun rule => rule.CheckFunc file.Name).map
          fun rule => services.legacyIssue rule file.Name) ∧
    (∀ (a : services.Analyzer) (toLower : GoString → GoString)
      (status : GoString → GoString) (file : DirEntry),
      (strings.Contains (toLower (status file.Name)) "stopped".toList = true ∨
        strings.Contains (toLower (status file.Name)) "not running".toList = true) →
      (∀ acc, a.checkInitScripts toLower status [file] acc = acc) ∧
      ∀ before after acc,
        a.checkInitScripts toLower status (before ++ file :: after) acc =
          a.checkInitScripts toLower status (before ++ after) acc) ∧
    (∀ (a : services.Analyzer) (toLower : GoString → GoString)
      (status : GoString → GoString) (file : DirEntry) (acc : List report.Issue),
      file.IsDir = false → status file.Name = [] → toLower [] = [] →
      a.checkInitScripts toLower status [file] acc =
        acc ++ (a.rules.filter fun rule => rule.CheckFunc file.Name).map
          fun rule => services.legacyIssue rule file.Name) ∧
    (services.NewAnalyzer []).Analyze (fun s => s.map Char.toLower)
        ⟨fun dir =>
            if dir = "/etc/init.d".toList then .entries [⟨"telnet".toList, false, .notExist⟩]
            else .notExist,
          fun cmd => cmd == "service".toList, none, fun _ => "telnet is stopped".toList⟩ =
      .ok [] ∧
    (services.NewAnalyzer []).Analyze (fun s => s.map Char.toLower)
        ⟨fun dir =>
            if dir = "/etc/init.d".toList then .entries [⟨"telnet".toList, false, .notExist⟩]
            else .notExist,
          fun cmd => cmd == "service".toList, none, fun _ => "Telnet is NOT RUNNING".toList⟩ =
      .ok [] ∧
    (services.NewAnalyzer []).Analyze (fun s => s.map Char.toLower)
        ⟨fun dir =>
            if dir = "/etc/init.d".toList then .entries [⟨"telnet".toList, false, .notExist⟩]
            else .notExist,
          fun cmd => cmd == "service".toList, none, fun _ => []⟩ =
      .ok [services.legacyIssue services.getDefaultRules[0] "telnet".toList] ∧
    (services.NewAnalyzer []).Analyze (fun s => s.map Char.toLower)
        ⟨fun dir =>
            if dir = "/etc/init.d".toList then .entries [⟨"telnet".toList, false, .notExist⟩]
            else .notExist,
          fun cmd => cmd == "service".toList, none, fun _ => "telnet is running".toList⟩ =
      .ok [services.legacyIssue services.getDefaultRules[0] "telnet".toList] := by
  have hactive : ∀ (a : services.Analyzer) (toLower : GoString → GoString)
      (status : GoString → GoString) (file : DirEntry) (acc : List report.Issue),
      file.IsDir = false →
      strings.Contains (toLower (status file.Name)) "stopped".toList = false →
      strings.Contains (toLower (status file.Name)) "not running".toList = false →
      a.checkInitScripts toLower status [file] acc =
        acc ++ (a.rules.filter fun rule => rule.CheckFunc file.Name).map
          fun rule => services.legacyIssue rule file.Name := by
    intro a toLower status file acc hdir h1 h2
    have hc : (!file.IsDir &&
        (!strings.Contains (toLower (status file.Name)) "stopped".toList &&
          !strings.Contains (toLower (status file.Name)) "not running".toList)) = true := by
      rw [hdir, h1, h2]
      rfl
    rw [services.checkInitScripts_eq, List.filter_cons, if_pos hc, List.filter_nil,
      List.map_cons, List.map_nil, services.matchingIssues_cons, services.matchingIssues_nil,
      List.append_nil]
  refine ⟨hactive, ?_, ?_, rfl, rfl, rfl, rfl⟩
  · intro a toLower status file hstop
    have hfilter : ∀ l : List DirEntry,
        (file :: l).filter (fun file =>
          !file.IsDir &&
            (!strings.Contains (toLower (status file.Name)) "stopped".toList &&
              !strings.Contains (toLower (status file.Name)) "not running".toList)) =
        l.filter (fun file =>
          !file.IsDir &&
            (!strings.Contains (toLower (status file.Name)) "stopped".toList &&
              !strings.Contains (toLower (status file.Name)) "not running".toList)) := by
      intro l
      have hc : ¬ (!file.IsDir &&
          (!strings.Contains (toLower (status file.Name)) "stopped".toList &&
            !strings.Contains (toLower (status file.Name)) "not running".toList)) = true := by
        rcases hstop with h | h
        · rw [h]
          cases file.IsDir <;>
            cases strings.Contains (toLower (status file.Name)) "not running".toList <;>
            decide
        · rw [h]
          cases file.IsDir <;>
            cases strings.Contains (toLower (status file.Name)) "stopped".toList <;>
            decide
      rw [List.filter_cons, if_neg hc]
    constructor
    · intro acc
      rw [services.checkInitScripts_eq, hfilter]
      simp [services.matchingIssues]
    · intro before after acc
      rw [services.checkInitScripts_eq, services.checkInitScripts_eq, List.filter_append,
        List.filter_append, hfilter]
  · intro a toLower status file acc hdir hout hlow
    apply hactive a toLower status file acc hdir
    · rw [hout, hlow]
      decide
    · rw [hout, hlow]
      decide

/-- C31 at the script `vsftpd` whose status output is `vsftpd is stopped`, which the ftp
rule accepts. -/
theorem legacy_script_active_witness :
    (services.getDefaultRules.filter fun rule => rule.CheckFunc "vsftpd".toList).length =
      1 ∧
    (services.NewAnalyzer []).checkInitScripts (fun s => s.map Char.toLower)
        (fun _ => "vsftpd is stopped".toList) [⟨"vsftpd".toList, false, .notExist⟩] [] =
      [] :=
  ⟨by decide,
    (legacy_script_active.2.1 (services.NewAnalyzer []) (fun s => s.map Char.toLower)
      (fun _ => "vsftpd is stopped".toList) ⟨"vsftpd".toList, false, .notExist⟩
      (Or.inl (by decide))).1 []⟩


/-- C33 fails on the code: on an `sshd_config` whose only line `X11Forwarding no` has no
final newline, `Analyze` reports nine issues, the first of them the missing
`PermitRootLogin` with the fix command `echo 'PermitRootLogin no' >> /etc/ssh/sshd_config`.
After that command the file holds the one line `X11Forwarding noPermitRootLogin no`:
`PermitRootLogin` still has no value and is reported again with the same command, and
`X11Forwarding`, which passed before, is now reported with the current value
`noPermitRootLogin no`, ten issues in all.  On the same file with its final newline the
command adds a line of its own and the rule is no longer reported. -/
theorem fix_command_append_joins_last_line :
    (∃ issues1 issues2 issues3,
      (ssh.NewAnalyzer []).Analyze (FileState.ofContent "X11Forwarding no".toList) =
        .ok issues1 ∧
      issues1.length = 9 ∧
      issues1[0]? = some
        { Category := "ssh".toList
          Severity := report.SeverityCritical
          Description := "Login direto como root deve ser desabilitado".toList
          CurrentValue := []
          RecommendedValue := "no".toList
          FixCommand := "echo 'PermitRootLogin no' >> /etc/ssh/sshd_config".toList } ∧
      issues1.all (fun i => i.Description != (ssh.getDefaultRules[4]).Description) = true ∧
      (ssh.NewAnalyzer []).Analyze
          (FileState.ofContent
            (shell.echoAppend "X11Forwarding no".toList "PermitRootLogin no".toList)) =
        .ok issues2 ∧
      issues2.length = 10 ∧
      issues2[0]? = issues1[0]? ∧
      issues2[4]? = some
        { Category := "ssh".toList
          Severity := (ssh.getDefaultRules[4]).Severity
          Description := (ssh.getDefaultRules[4]).Description
          CurrentValue := "noPermitRootLogin no".toList
          RecommendedValue := "no".toList
          FixCommand :=
            "sed -i 's/^X11Forwarding.*/X11Forwarding no/' /etc/ssh/sshd_config".toList } ∧
      (ssh.NewAnalyzer []).Analyze
          (FileState.ofContent
            (shell.echoAppend "X11Forwarding no\n".toList "PermitRootLogin no".toList)) =
        .ok issues3 ∧
      issues3.length = 8 ∧
      issues3.all (fun i => i.Description != (ssh.getDefaultRules[0]).Description) =
        true) ∧
    shell.echoAppend "X11Forwarding no".toList "PermitRootLogin no".toList =
      "X11Forwarding noPermitRootLogin no\n".toList ∧
    (bufio.scanLines
        (shell.echoAppend "X11Forwarding no".toList "PermitRootLogin no".toList)).1 =
      ["X11Forwarding noPermitRootLogin no".toList] ∧
    ssh.parseConfig ["X11Forwarding noPermitRootLogin no".toList] "PermitRootLogin".toList =
      none ∧
    ssh.parseConfig ["X11Forwarding noPermitRootLogin no".toList] "X11Forwarding".toList =
      some "noPermitRootLogin no".toList ∧
    (ssh.getDefaultRules[0]).Key = "PermitRootLogin".toList ∧
    (ssh.getDefaultRules[4]).Key = "X11Forwarding".toList := by
  refine ⟨⟨_, _, _, rfl, ?_, ?_, ?_, rfl, ?_, ?_, ?_, rfl, ?_, ?_⟩, ?_, ?_, ?_, ?_, ?_, ?_⟩ <;>
    decide

/-- C34: the ftp rule accepts exactly the names that contain `ftp`; the tftp rule accepts
exactly `tftp`, `tftpd`, `atftpd` and `tftpd-hpa`, and each of them is accepted by the ftp
rule too.  For such a name the rules that accept it are the ftp rule and the tftp rule, in
this order, under every strategy; the enabled-units strategy returns for the unit
`<name>.service` exactly two issues, a WARNING of the ftp rule followed by a CRITICAL of the
tftp rule. -/
theorem ftp_rule_subsumes_tftp :
    (services.getDefaultRules[4]).Name = "ftp".toList ∧
    (services.getDefaultRules[5]).Name = "tftp".toList ∧
    (services.getDefaultRules[4]).Severity = report.SeverityWarning ∧
    (services.getDefaultRules[5]).Severity = report.SeverityCritical ∧
    (∀ name : GoString,
      (services.getDefaultRules[4]).CheckFunc name = strings.Contains name "ftp".toList) ∧
    (∀ name : GoString,
      (services.getDefaultRules[5]).CheckFunc name = true ↔
        name = "tftp".toList ∨ name = "tftpd".toList ∨ name = "atftpd".toList ∨
          name = "tftpd-hpa".toList) ∧
    (∀ name : GoString,
      (services.getDefaultRules[5]).CheckFunc name = true →
      (services.getDefaultRules[4]).CheckFunc name = true ∧
      (∀ mk : services.ServiceRule → GoString → report.Issue,
        services.matchingIssues services.getDefaultRules mk [name] =
          [mk services.getDefaultRules[4] name, mk services.getDefaultRules[5] name]) ∧
      (∀ (mountPoint : GoString) (file : FileState),
        (services.NewAnalyzer mountPoint).analyzeSystemdDir
            (.entries [⟨name ++ ".service".toList, false, file⟩]) =
          .ok [services.enabledIssue services.getDefaultRules[4] name,
            services.enabledIssue services.getDefaultRules[5] name]) ∧
      (services.enabledIssue services.getDefaultRules[4] name).Severity =
        report.SeverityWarning ∧
      (services.enabledIssue services.getDefaultRules[5] name).Severity =
        report.SeverityCritical) := by
  have htftp : ∀ name : GoString,
      (services.getDefaultRules[5]).CheckFunc name = true ↔
        name = "tftp".toList ∨ name = "tftpd".toList ∨ name = "atftpd".toList ∨
          name = "tftpd-hpa".toList := by
    intro name
    show (name == "tftp".toList || name == "tftpd".toList || name == "atftpd".toList ||
      name == "tftpd-hpa".toList) = true ↔ _
    simp only [Bool.or_eq_true, beq_iff_eq, or_assoc]
  refine ⟨rfl, rfl, rfl, rfl, ?_, htftp, ?_⟩
  · intro name
    show (name == "ftp".toList || name == "ftpd".toList || name == "vsftpd".toList ||
      name == "proftpd".toList || strings.Contains name "ftp".toList) =
        strings.Contains name "ftp".toList
    by_cases h1 : name = "ftp".toList
    · subst h1
      decide
    by_cases h2 : name = "ftpd".toList
    · subst h2
      decide
    by_cases h3 : name = "vsftpd".toList
    · subst h3
      decide
    by_cases h4 : name = "proftpd".toList
    · subst h4
      decide
    have e1 : (name == "ftp".toList) = false := by
      rw [beq_eq_false_iff_ne]
      exact h1
    have e2 : (name == "ftpd".toList) = false := by
      rw [beq_eq_false_iff_ne]
      exact h2
    have e3 : (name == "vsftpd".toList) = false := by
      rw [beq_eq_false_iff_ne]
      exact h3
    have e4 : (name == "proftpd".toList) = false := by
      rw [beq_eq_false_iff_ne]
      exact h4
    rw [e1, e2, e3, e4]
    rfl
  · intro name hname
    rcases (htftp name).mp hname with rfl | rfl | rfl | rfl
    · exact ⟨by decide, fun mk => rfl, fun mountPoint file => rfl, rfl, rfl⟩
    · exact ⟨by decide, fun mk => rfl, fun mountPoint file => rfl, rfl, rfl⟩
    · exact ⟨by decide, fun mk => rfl, fun mountPoint file => rfl, rfl, rfl⟩
    · exact ⟨by decide, fun mk => rfl, fun mountPoint file => rfl, rfl, rfl⟩

/-- C34 at the unit `tftpd-hpa.service` under the mount point `/mnt/image`. -/
theorem ftp_rule_subsumes_tftp_witness :
    (services.NewAnalyzer "/mnt/image".toList).analyzeSystemdDir
        (.entries [⟨"tftpd-hpa".toList ++ ".service".toList, false, .notExist⟩]) =
      .ok [{ Category := "services".toList
             Severity := report.SeverityWarning
             Description :=
               ("Serviço FTP transfere credenciais sem criptografia" ++
                 " (tftpd-hpa está habilitado)").toList
             CurrentValue := []
             RecommendedValue := []
             FixCommand :=
               "systemctl disable tftpd-hpa && systemctl stop tftpd-hpa".toList },
           { Category := "services".toList
             Severity := report.SeverityCritical
             Description :=
               ("Serviço TFTP é inseguro e não deve ser usado em produção" ++
                 " (tftpd-hpa está habilitado)").toList
             CurrentValue := []
             RecommendedValue := []
             FixCommand :=
               "systemctl disable tftpd-hpa && systemctl stop tftpd-hpa".toList }] :=
  (ftp_rule_subsumes_tftp.2.2.2.2.2.2 "tftpd-hpa".toList (by decide)).2.2.1
    "/mnt/image".toList .notExist


/-- C35: with an empty collection `GenerateScript` returns the error of the empty collection
whether or not the output path could be written, so `os.WriteFile` is not reached and no
script is produced.  With a non-empty collection, whatever its issues hold and in whatever
order the categories are visited, the content is built and never gives the error of the
empty collection: the result is the content when the write succeeds and the write error
when it fails. -/
theorem generate_script_empty_is_error :
    (∀ (g : fixer.Generator) (now : GoString) (toUpper : GoString → GoString)
      (order : List GoString) (writeFails : Bool),
      g.GenerateScript [] now toUpper order writeFails = .error .noIssues) ∧
    (∀ (g : fixer.Generator) (issues : List report.Issue) (now : GoString)
      (toUpper : GoString → GoString) (order : List GoString),
      issues ≠ [] →
      g.GenerateScript issues now toUpper order false =
        .ok (g.scriptContent issues now toUpper order) ∧
      g.GenerateScript issues now toUpper order true = .error .writeFile ∧
      ∀ writeFails,
        g.GenerateScript issues now toUpper order writeFails ≠ .error .noIssues) := by
  constructor
  · intro g now toUpper order writeFails
    rfl
  · intro g issues now toUpper order hne
    have hlen : ¬ issues.length = 0 := fun h => hne (List.length_eq_zero.mp h)
    refine ⟨?_, ?_, ?_⟩
    · unfold fixer.Generator.GenerateScript
      rw [if_neg hlen]
      rfl
    · unfold fixer.Generator.GenerateScript
      rw [if_neg hlen]
      rfl
    · intro writeFails
      unfold fixer.Generator.GenerateScript
      rw [if_neg hlen]
      cases writeFails
      · intro h
        cases h
      · intro h
        cases h

/-- C35 at a collection of one `services` issue. -/
theorem generate_script_empty_is_error_witness :
    (fixer.NewGenerator []).GenerateScript
        [services.enabledIssue services.getDefaultRules[0] "telnet".toList]
        "2024-01-01 00:00:00".toList (fun s => s.map Char.toUpper) ["services".toList]
        false =
      .ok ((fixer.NewGenerator []).scriptContent
        [services.enabledIssue services.getDefaultRules[0] "telnet".toList]
        "2024-01-01 00:00:00".toList (fun s => s.map Char.toUpper) ["services".toList]) :=
  (generate_script_empty_is_error.2 (fixer.NewGenerator [])
    [services.enabledIssue services.getDefaultRules[0] "telnet".toList]
    "2024-01-01 00:00:00".toList (fun s => s.map Char.toUpper) ["services".toList]
    (List.cons_ne_nil _ _)).1


/-- C36: `Generate` looks only at the lower-cased format.  When it is `json` the result is
that of `generateJSON`; when it is `html` the result is the styled document; for every
other format, the empty one included, the result is the plain-text listing, never an
error.  The text listing begins with `=` and the styled document with `<`, so among the
formats that are not `json` the styled document is returned exactly for `html`; and when
the encoder's output begins with an opening brace, the result is that of `generateJSON`
exactly for `json`.  With the lower-casing of the ASCII letters, `JSON` selects the
structured encoding, `Html` the styled document, and the empty format, `xml` and `TEXT`
the text listing. -/
theorem format_selection :
    (∀ (g : report.Generator) (toLower : GoString → GoString)
      (marshalIndent : report.Report → Option GoString) (toUpper : GoString → GoString)
      (order : List GoString) (issues : List report.Issue),
      (toLower g.format = "json".toList →
        g.Generate toLower marshalIndent toUpper order issues =
          g.generateJSON marshalIndent issues) ∧
      (toLower g.format = "html".toList →
        g.Generate toLower marshalIndent toUpper order issues =
          .ok (report.generateHTML issues toUpper order)) ∧
      (toLower g.format ≠ "json".toList → toLower g.format ≠ "html".toList →
        g.Generate toLower marshalIndent toUpper order issues =
          .ok (report.generateText issues toUpper order)) ∧
      (toLower g.format ≠ "json".toList →
        (g.Generate toLower marshalIndent toUpper order issues =
            .ok (report.generateHTML issues toUpper order) ↔
          toLower g.format = "html".toList)) ∧
      ((∀ r s, marshalIndent r = some s → s.head? = some '\x7b') →
        (g.Generate toLower marshalIndent toUpper order issues =
            g.generateJSON marshalIndent issues ↔
          toLower g.format = "json".toList))) ∧
    (∀ (marshalIndent : report.Report → Option GoString) (toUpper : GoString → GoString)
      (order : List GoString) (issues : List report.Issue),
      (report.NewGenerator "JSON".toList).Generate (fun s => s.map Char.toLower)
          marshalIndent toUpper order issues =
        (report.NewGenerator "JSON".toList).generateJSON marshalIndent issues ∧
      (report.NewGenerator "Html".toList).Generate (fun s => s.map Char.toLower)
          marshalIndent toUpper order issues =
        .ok (report.generateHTML issues toUpper order) ∧
      (report.NewGenerator []).Generate (fun s => s.map Char.toLower)
          marshalIndent toUpper order issues =
        .ok (report.generateText issues toUpper order) ∧
      (report.NewGenerator "xml".toList).Generate (fun s => s.map Char.toLower)
          marshalIndent toUpper order issues =
        .ok (report.generateText issues toUpper order) ∧
      (report.NewGenerator "TEXT".toList).Generate (fun s => s.map Char.toLower)
          marshalIndent toUpper order issues =
        .ok (report.generateText issues toUpper order)) := by
  have hne : ∀ (issues : List report.Issue) (toUpper : GoString → GoString)
      (order : List GoString),
      report.generateText issues toUpper order ≠ report.generateHTML issues toUpper order := by
    intro issues toUpper order h
    have h1 := report.generateText_head issues toUpper order
    rw [h, report.generateHTML_head] at h1
    exact absurd h1 (by decide)
  constructor
  · intro g toLower marshalIndent toUpper order issues
    have hjson : toLower g.format = "json".toList →
        g.Generate toLower marshalIndent toUpper order issues =
          g.generateJSON marshalIndent issues := by
      intro h
      unfold report.Generator.Generate
      rw [if_pos h]
    have hhtml : toLower g.format = "html".toList →
        g.Generate toLower marshalIndent toUpper order issues =
          .ok (report.generateHTML issues toUpper order) := by
      intro h
      have hj : ¬ toLower g.format = "json".toList := by
        rw [h]
        decide
      unfold report.Generator.Generate
      rw [if_neg hj, if_pos h]
    have htext : toLower g.format ≠ "json".toList → toLower g.format ≠ "html".toList →
        g.Generate toLower marshalIndent toUpper order issues =
          .ok (report.generateText issues toUpper order) := by
      intro hj hh
      unfold report.Generator.Generate
      rw [if_neg hj, if_neg hh]
    refine ⟨hjson, hhtml, htext, ?_, ?_⟩
    · intro hj
      constructor
      · intro h
        by_contra hh
        rw [htext hj hh] at h
        exact hne issues toUpper order (Except.ok.inj h)
      · exact hhtml
    · intro hbrace
      constructor
      · intro h
        by_contra hj
        have hout : ∀ s, g.generateJSON marshalIndent issues = .ok s →
            s.head? = some '\x7b' := by
          intro s hs
          unfold report.Generator.generateJSON at hs
          cases hm : marshalIndent (report.jsonReport issues) with
          | none =>
            rw [hm] at hs
            cases hs
          | some d =>
            rw [hm] at hs
            have hd : d = s := Except.ok.inj hs
            rw [← hd]
            exact hbrace _ _ hm
        by_cases hh : toLower g.format = "html".toList
        · rw [hhtml hh] at h
          have := hout _ h.symm
          rw [report.generateHTML_head] at this
          exact absurd this (by decide)
        · rw [htext hj hh] at h
          have := hout _ h.symm
          rw [report.generateText_head] at this
          exact absurd this (by decide)
      · exact hjson
  · intro marshalIndent toUpper order issues
    exact ⟨rfl, rfl, rfl, rfl, rfl⟩

/-- C36 at the format `yaml`, which is neither `json` nor `html`, and an empty
collection: the result is the header of the text listing. -/
theorem format_selection_witness :
    (report.NewGenerator "yaml".toList).Generate (fun s => s.map Char.toLower)
        (fun _ => none) (fun s => s.map Char.toUpper) [] [] =
      .ok (report.generateText [] (fun s => s.map Char.toUpper) []) ∧
    report.generateText [] (fun s => s.map Char.toUpper) [] =
      "=== RELATÓRIO DE SEGURANÇA HARDSHELL ===\n\n".toList :=
  ⟨(format_selection.1 (report.NewGenerator "yaml".toList) (fun s => s.map Char.toLower)
      (fun _ => none) (fun s => s.map Char.toUpper) [] []).2.2.1 (by decide) (by decide),
    by decide⟩

end Hardshell
